import Mathlib

/-!
# funFic: sessions, books and ratings

A shallow embedding of the session manager (`pkg/session/session.go`) and of the
book repository (`pkg/models/books.go`) together with the tables declared in
`createTables` (`main.go`).

Modelling conventions.

* A table is the list of its rows in rowid order.  The database handle is the value
  `DB`; an operation takes the database and returns the database it leaves behind.
* The connection is opened by `sql.Open("sqlite3", "data/app.db")`: the data source
  name carries no `_foreign_keys` parameter and no `PRAGMA foreign_keys` is ever
  issued, so SQLite keeps its default and the `FOREIGN KEY ... ON DELETE CASCADE`
  clauses of the schema are parsed but not enforced: inserting a rating for an
  absent book succeeds and deleting a book leaves its ratings in place.  Primary
  keys, `UNIQUE`, `CHECK` and `AUTOINCREMENT` are enforced.  For `books.user_id` the
  program itself keeps what the foreign key says: a book is only ever created with
  the id of the logged-in user and no row of `users` is ever deleted, so every book
  names an owner that has a row in `users`; the theorems that rely on it take it as
  a hypothesis.
* `rating FLOAT` holds the value of `AVG(rating)`, a `float64`.  A `float64` is
  modelled by the rational number it stands for, and an operation on `float64` by
  the exact operation followed by `float64`, the rounding to the nearest binary64
  number.  The column is only ever written with its default `0` or with an average
  taken over at least one row, so it is never `NULL`; text columns are always bound
  from Go strings.
* A Go string is modelled by the `String` of its characters; SQLite reads the same
  text as UTF-8 bytes, so lengths that SQLite counts in bytes are `utf8ByteSize`, and
  a C function of SQLite that takes its argument as a zero-terminated string sees the
  characters before the first U+0000 (`cString`).
* `created_at` is the reading of the database clock, a number of seconds; the clock
  is an input of the operations that insert rows.
* A driver failure (I/O error, disk full, locked database) is an input `fault` of the
  operation: `none` is the run in which the driver call succeeds.
-/

/-- Error values returned by the repositories and the session manager. -/
inductive Error where
  | ErrNoAuth
  | ErrNoRows
  | ErrNoUser
  | ErrBadPass
  | ErrTxDone
  | constraint (msg : String)
  | driver (msg : String)
  deriving DecidableEq, Repr

deriving instance DecidableEq for Except

/-- A row of table `users`. -/
structure UserRow where
  id : Int
  username : String
  email : String
  password : String
  avatar : String
  created_at : Nat
  deriving DecidableEq, Repr

/-- A row of table `books`. -/
structure BookRow where
  id : Int
  title : String
  author : String
  description : String
  filename : String
  file_path : String
  file_size : Int
  cover_image : String
  tags : String
  rating : ℚ
  rating_count : Int
  user_id : Int
  created_at : Nat
  deriving DecidableEq

/-- A row of table `ratings`. -/
structure RatingRow where
  id : Int
  user_id : Int
  book_id : Int
  rating : Int
  created_at : Nat
  deriving DecidableEq, Repr

/-- The database file: the three tables and the `sqlite_sequence` counters that
`AUTOINCREMENT` keeps for them. -/
structure DB where
  users : List UserRow
  books : List BookRow
  ratings : List RatingRow
  seqUsers : Int
  seqBooks : Int
  seqRatings : Int
  deriving DecidableEq

/-- The database right after `createTables` ran on a new file. -/
def DB.empty : DB :=
  { users := [], books := [], ratings := [], seqUsers := 0, seqBooks := 0, seqRatings := 0 }

/-- Largest rowid SQLite can hand out. -/
def maxRowid : Int := 2 ^ 63 - 1

/-- The rowid `AUTOINCREMENT` picks: one more than the largest rowid that ever existed
in the table (the counter in `sqlite_sequence`, or the largest rowid present if that is
larger); the insert fails once the largest rowid has been used. -/
def nextRowid (seq : Int) (ids : List Int) : Except Error Int :=
  let m := ids.foldl max seq
  if m ≥ maxRowid then .error (.driver "database or disk is full") else .ok (m + 1)

/-- The struct `models.Book`, the scan target of the book queries. -/
structure Book where
  ID : Int
  Title : String
  Author : String
  Description : String
  Filename : String
  FilePath : String
  FileSize : Int
  CoverImage : String
  Tags : String
  Rating : ℚ
  RatingCount : Int
  UserID : Int
  Username : String
  UserRating : Int
  CreatedAt : Nat
  deriving DecidableEq

/-! ## Numbers of type `float64` -/

/-- The position of the leading binary digit of `n`, found in at most `fuel` halvings. -/
def log2Aux : Nat → Nat → Nat
  | 0, _ => 0
  | fuel + 1, n => if n < 2 then 0 else log2Aux fuel (n / 2) + 1

/-- The position of the leading binary digit of `n`: the largest `k` with `2 ^ k ≤ n`,
and `0` for `n = 0`. -/
def ilog2 (n : Nat) : Nat :=
  log2Aux n n

/-- The integer nearest to `N / D`, the even one of the two when `N / D` lies half way
between them. -/
def roundHalfEven (N D : Nat) : Nat :=
  let k := N / D
  let r := N % D
  if 2 * r < D then k else if D < 2 * r then k + 1 else if k % 2 = 0 then k else k + 1

/-- The `float64` nearest to the number `q`, as IEEE 754 rounds the exact result of an
operation (to nearest, ties to the even significand): with `2 ^ e ≤ |q| < 2 ^ (e + 1)`
the result is the multiple of `2 ^ (e - 52)` nearest to `q`, and for `|q| < 2 ^ (-1022)`
the multiple of `2 ^ (-1074)`.  The overflow to infinity from `2 ^ 1024` on is left
out: the numbers the program divides are sums and counts of `int64` values. -/
def float64 (q : ℚ) : ℚ :=
  let n := q.num.natAbs
  let d := q.den
  if n = 0 then 0
  else
    let e0 : Int := (ilog2 n : Int) - (ilog2 d : Int)
    let e1 : Int := if d * 2 ^ e0.toNat ≤ n * 2 ^ (-e0).toNat then e0 else e0 - 1
    let e : Int := max e1 (-1022)
    let s : Int := 52 - e
    let k := roundHalfEven (n * 2 ^ s.toNat) (d * 2 ^ (-s).toNat)
    mkRat (q.num.sign * (k * 2 ^ (-s).toNat : Nat)) (2 ^ s.toNat)

/-! ## Transactions -/

/-- An open `*sql.Tx`: the database as it was at `Begin`, the database as the
statements of the transaction see it, and whether `Commit` or `Rollback` already ran. -/
structure Tx where
  base : DB
  work : DB
  done : Bool

/-- The call `DB.Begin`. -/
def DB.Begin (db : DB) (fault : Option Error) : Except Error Tx :=
  match fault with
  | some e => .error e
  | none => .ok { base := db, work := db, done := false }

/-- The call `tx.Exec`: a statement that fails changes nothing and the transaction
stays open. -/
def Tx.Exec (tx : Tx) (fault : Option Error) (stmt : DB → Except Error DB) :
    Option Error × Tx :=
  match fault with
  | some e => (some e, tx)
  | none =>
    match stmt tx.work with
    | .error e => (some e, tx)
    | .ok w => (none, { tx with work := w })

/-- The call `tx.Commit`: publishes the work of the transaction; when the commit fails
the driver rolls the transaction back.  Returns the error and the database file. -/
def Tx.Commit (tx : Tx) (fault : Option Error) : Option Error × Tx × DB :=
  if tx.done then (some .ErrTxDone, tx, tx.base)
  else
    match fault with
    | some e => (some e, { tx with done := true }, tx.base)
    | none => (none, { tx with done := true, base := tx.work }, tx.work)

/-- The call `tx.Rollback`: drops the work of an open transaction; after `Commit` it
only reports `ErrTxDone`. -/
def Tx.Rollback (tx : Tx) : Option Error × DB :=
  if tx.done then (some .ErrTxDone, tx.base) else (none, tx.base)

/-! ## Book repository -/

namespace BookRepo

/-- The values `Create` binds to its `INSERT`. -/
def insertBook (now : Nat) (book : Book) (db : DB) : Except Error (Int × DB) :=
  match nextRowid db.seqBooks (db.books.map (·.id)) with
  | .error e => .error e
  | .ok id =>
    .ok (id,
      { db with
        books := db.books ++
          [{ id := id, title := book.Title, author := book.Author,
             description := book.Description, filename := book.Filename,
             file_path := book.FilePath, file_size := book.FileSize,
             cover_image := book.CoverImage, tags := book.Tags,
             rating := 0, rating_count := 0, user_id := book.UserID,
             created_at := now }],
        seqBooks := id })

/-- `BookRepo.Create`: returns `(LastInsertId, err)` and the database. -/
def Create (fault : Option Error) (now : Nat) (db : DB) (book : Book) :
    Except Error Int × DB :=
  match fault with
  | some e => (.error e, db)
  | none =>
    match insertBook now book db with
    | .error e => (.error e, db)
    | .ok (id, db1) => (.ok id, db1)

/-- `INSERT OR REPLACE INTO ratings (user_id, book_id, rating) VALUES (?, ?, ?)`:
the `CHECK` on `rating` aborts the statement; a row that collides on
`UNIQUE(user_id, book_id)` is deleted before the new row is inserted. -/
def upsertRating (now : Nat) (userID bookID rating : Int) (db : DB) : Except Error DB :=
  if rating ≥ 1 ∧ rating ≤ 5 then
    match nextRowid db.seqRatings (db.ratings.map (·.id)) with
    | .error e => .error e
    | .ok id =>
      .ok { db with
        ratings :=
          db.ratings.filter (fun r => ¬ (r.user_id = userID ∧ r.book_id = bookID)) ++
            [{ id := id, user_id := userID, book_id := bookID, rating := rating,
               created_at := now }],
        seqRatings := id }
  else .error (.constraint "CHECK constraint failed: rating >= 1 AND rating <= 5")

/-- The rows `SELECT ... FROM ratings WHERE book_id = ?` ranges over. -/
def ratingsOf (db : DB) (bookID : Int) : List RatingRow :=
  db.ratings.filter (fun r => r.book_id = bookID)

/-- SQL `AVG` over the selected ratings, a `float64`: the sum of the ratings divided by
their number, both converted to `float64`.  The `CHECK` keeps every rating in 1..5, and
a sum and a count below `2 ^ 53` (no database file holds that many rows) convert
exactly, so the division rounds the exact mean. -/
def AVG (rows : List RatingRow) : ℚ :=
  float64 (mkRat (rows.map (·.rating)).sum rows.length)

/-- SQL `COUNT(*)` over the selected ratings. -/
def COUNT (rows : List RatingRow) : Int :=
  (rows.length : Int)

/-- `UPDATE books SET rating = (SELECT AVG ...), rating_count = (SELECT COUNT ...)
WHERE id = ?`. -/
def updateAggregate (bookID : Int) (db : DB) : Except Error DB :=
  .ok { db with
    books := db.books.map (fun b =>
      if b.id = bookID then
        { b with rating := AVG (ratingsOf db bookID), rating_count := COUNT (ratingsOf db bookID) }
      else b) }

/-- Driver failures `RateBook` can meet, one per call it makes. -/
structure Faults where
  begin : Option Error
  upsert : Option Error
  update : Option Error
  commit : Option Error

/-- The run in which no driver call fails. -/
def Faults.none : Faults :=
  { begin := Option.none, upsert := Option.none, update := Option.none, commit := Option.none }

/-- `BookRepo.RateBook`: returns the error (`none` is `nil`) and the database.  Every
return after `Begin` runs the deferred `tx.Rollback()`. -/
def RateBook (f : Faults) (now : Nat) (db : DB) (userID bookID rating : Int) :
    Option Error × DB :=
  match db.Begin f.begin with
  | .error e => (some e, db)
  | .ok tx =>
    match tx.Exec f.upsert (upsertRating now userID bookID rating) with
    | (some e, tx1) => (some e, tx1.Rollback.2)
    | (none, tx1) =>
      match tx1.Exec f.update (updateAggregate bookID) with
      | (some e, tx2) => (some e, tx2.Rollback.2)
      | (none, tx2) =>
        match tx2.Commit f.commit with
        | (err, tx3, _) => (err, tx3.Rollback.2)

/-- `BookRepo.GetUserRating`: `QueryRow` takes the first matching row; no row is
`sql.ErrNoRows`, which becomes rating `0` with a `nil` error; any other error of the
query is returned as it is, with the zero value of `rating`. -/
def GetUserRating (fault : Option Error) (db : DB) (userID bookID : Int) :
    Int × Option Error :=
  let (rating, err) : Int × Option Error :=
    match fault with
    | some e => (0, some e)
    | none =>
      match db.ratings.find? (fun r => r.user_id = userID ∧ r.book_id = bookID) with
      | some r => (r.rating, none)
      | none => (0, some .ErrNoRows)
  if err = some .ErrNoRows then (0, none) else (rating, err)

/-- `BookRepo.Delete`: `DELETE FROM books WHERE id = ? AND user_id = ?`, then
`sql.ErrNoRows` when `RowsAffected` is zero. -/
def Delete (fault : Option Error) (db : DB) (bookID userID : Int) : Option Error × DB :=
  match fault with
  | some e => (some e, db)
  | none =>
    let kept := db.books.filter (fun b => ¬ (b.id = bookID ∧ b.user_id = userID))
    let rowsAffected := db.books.length - kept.length
    if rowsAffected = 0 then (some .ErrNoRows, { db with books := kept })
    else (none, { db with books := kept })

/-! ### Search -/

/-- What a C function of SQLite that takes its argument as a zero-terminated string sees
of a text: the characters before the first U+0000. -/
def cString (cs : List Char) : List Char :=
  cs.takeWhile (fun c => c ≠ Char.ofNat 0)

/-- The comparison behind the SQL operator `LIKE` on the characters of pattern and text:
`%` stands for any run of characters, `_` for exactly one character, every other
character for itself, where the letters `A`..`Z` and `a`..`z` of ASCII are compared
without regard to case and every other character only equals itself.  No escape
character is in force. -/
def likeChars : List Char → List Char → Bool
  | [], s => s.isEmpty
  | c :: p, s =>
    if c = '%' then s.tails.any (fun t => likeChars p t)
    else
      match s with
      | [] => false
      | d :: t => (c = '_' || c.toLower = d.toLower) && likeChars p t

/-- The SQL expression `text LIKE pattern`.  A pattern of more than 50000 bytes
(`SQLITE_MAX_LIKE_PATTERN_LENGTH`) makes the function fail with `LIKE or GLOB pattern too
complex`, and with it the step of the statement: `none`.  Otherwise pattern and text are
compared as zero-terminated strings. -/
def like (text pattern : String) : Option Bool :=
  if pattern.utf8ByteSize > 50000 then none
  else some (likeChars (cString pattern.toList) (cString text.toList))

/-- The expression `t₁ LIKE p₁ OR t₂ LIKE p₂ OR ...` over pairs of text and pattern: the
operands are evaluated from the left up to the first one that is true, and an operand
that fails makes the expression fail. -/
def likeAny : List (String × String) → Option Bool
  | [] => some false
  | (text, pattern) :: rest =>
    match like text pattern with
    | none => none
    | some true => some true
    | some false => likeAny rest

/-- The condition `(b.title LIKE ? OR b.author LIKE ? OR b.description LIKE ? OR
b.tags LIKE ?)` with every parameter bound to `"%" + query + "%"`. -/
def queryCondition (query : String) (b : BookRow) : Option Bool :=
  let searchTerm := "%" ++ query ++ "%"
  likeAny [(b.title, searchTerm), (b.author, searchTerm), (b.description, searchTerm),
    (b.tags, searchTerm)]

/-- The condition `(b.tags LIKE ? OR ... OR b.tags LIKE ?)`, one disjunct per tag,
bound to `"%" + tag + "%"`. -/
def tagConditions (tags : List String) (b : BookRow) : Option Bool :=
  likeAny (tags.map (fun tag => (b.tags, "%" ++ tag ++ "%")))

/-- The `WHERE` clause `Search` assembles, on one row of `books`: absent when both
filters are absent; the tag condition is evaluated only when the query condition is
true; `none` when an operand fails. -/
def whereClause (query : String) (tags : List String) (b : BookRow) : Option Bool :=
  match (if query ≠ "" then queryCondition query b else some true) with
  | none => none
  | some false => some false
  | some true => if tags.length > 0 then tagConditions tags b else some true

/-- The scan of `books` under the `WHERE` clause, in rowid order: the rows that pass, or
`none` when the clause fails on a row. -/
def scanWhere (query : String) (tags : List String) : List BookRow → Option (List BookRow)
  | [] => some []
  | b :: rest =>
    match whereClause query tags b with
    | none => none
    | some keep =>
      match scanWhere query tags rest with
      | none => none
      | some kept => some (if keep then b :: kept else kept)

/-- Whether the statement `Search` assembles is refused by `Prepare` with `Expression tree
is too large (maximum depth 1000)`: the chain of `OR` over the tags is one level deeper
with every tag, and the limit is passed at 998 tags, or at 997 tags beside a query. -/
def exprTooDeep (query : String) (tags : List String) : Bool :=
  tags.length + (if query ≠ "" then 1 else 0) ≥ 998

/-- The `ORDER BY` clause `Search` selects: `orderBy sortBy a b` holds when row `a` may
precede row `b`. -/
def orderBy (sortBy : String) (a b : BookRow) : Prop :=
  if sortBy = "rating" then
    b.rating < a.rating ∨ (a.rating = b.rating ∧ b.created_at ≤ a.created_at)
  else if sortBy = "newest" then b.created_at ≤ a.created_at
  else if sortBy = "popular" then
    b.rating_count < a.rating_count ∨ (a.rating_count = b.rating_count ∧ b.rating ≤ a.rating)
  else b.created_at ≤ a.created_at

instance orderByDecidable (sortBy : String) : DecidableRel (orderBy sortBy) := by
  intro a b
  unfold orderBy
  infer_instance

/-- The rows of `books b JOIN users u ON b.user_id = u.id`: every book once per user row
carrying its `user_id`. -/
def joinUsers (db : DB) : List (BookRow × UserRow) :=
  db.books.flatMap (fun b => (db.users.filter (fun u => u.id = b.user_id)).map (fun u => (b, u)))

/-- The `rows.Scan` of the book queries that select `u.username`. -/
def scanBook (row : BookRow × UserRow) : Book :=
  { ID := row.1.id, Title := row.1.title, Author := row.1.author,
    Description := row.1.description, Filename := row.1.filename,
    FilePath := row.1.file_path, FileSize := row.1.file_size,
    CoverImage := row.1.cover_image, Tags := row.1.tags, Rating := row.1.rating,
    RatingCount := row.1.rating_count, UserID := row.1.user_id,
    Username := row.2.username, UserRating := 0, CreatedAt := row.1.created_at }

/-- `BookRepo.Search`.  A statement that cannot be prepared is the error `Query`
returns.  The prepared statement scans `books`, tests the `WHERE` clause on each row,
looks the owner up in `users`, and sorts what passed; rows that the `ORDER BY` clause
does not tell apart stay in rowid order.  Nothing is delivered before the scan is over:
when the clause fails on a row, the first `rows.Next()` returns false, and since
`rows.Err()` is not looked at, `Search` returns no book and a nil error. -/
def Search (fault : Option Error) (db : DB) (query : String) (tags : List String)
    (sortBy : String) : Except Error (List Book) :=
  match fault with
  | some e => .error e
  | none =>
    if exprTooDeep query tags then
      .error (.driver "Expression tree is too large (maximum depth 1000)")
    else
      match scanWhere query tags db.books with
      | none => .ok []
      | some kept =>
        .ok (((joinUsers { db with books := kept }).insertionSort
          (fun x y => orderBy sortBy x.1 y.1)).map scanBook)

end BookRepo

/-! ## Sessions -/

/-- The struct `session.Session`; `CreatedAt` is the clock reading of `time.Now()`. -/
structure Session where
  ID : String
  UserID : Nat
  CreatedAt : Nat
  deriving DecidableEq, Repr

/-- Two lower-case hexadecimal digits of a byte, as `%x` prints it. -/
def hexByte (b : Nat) : List Char :=
  [Nat.digitChar (b % 256 / 16), Nat.digitChar (b % 16)]

/-- `fmt.Sprintf("%x", randID)`. -/
def hexEncode (randID : List Nat) : String :=
  String.mk (randID.flatMap hexByte)

/-- `NewSession`: `randID` are the sixteen bytes `rand.Read` delivered and `now` the
reading of the clock. -/
def NewSession (randID : List Nat) (now : Nat) (userID : Nat) : Session :=
  { ID := hexEncode randID, UserID := userID, CreatedAt := now }

/-- The attribute `SameSite` of a cookie. -/
inductive SameSite where
  | default
  | lax
  | strict
  | none
  deriving DecidableEq, Repr

/-- The fields of `http.Cookie` the program sets; `Expires` in seconds of the clock. -/
structure Cookie where
  Name : String
  Value : String
  Expires : Int
  Path : String
  HttpOnly : Bool
  Secure : Bool
  SameSite : SameSite
  deriving DecidableEq, Repr

/-- What a handler wrote to its `http.ResponseWriter`: the `Set-Cookie` headers in the
order they were added, the other headers, the status (none before `WriteHeader`) and
the body. -/
structure ResponseWriter where
  setCookie : List Cookie := []
  header : List (String × String) := []
  status : Option Nat := none
  body : String := ""
  deriving DecidableEq, Repr

/-- `http.SetCookie`. -/
def ResponseWriter.SetCookie (w : ResponseWriter) (cookie : Cookie) : ResponseWriter :=
  { w with setCookie := w.setCookie ++ [cookie] }

/-- The parts of `http.Request` the program reads.  `ctxSession` is the value stored
under `SessionKey` in the request context: `none` when no value is stored,
`some none` for a stored nil pointer. -/
structure Request where
  Method : String := "GET"
  RemoteAddr : String := ""
  Path : String := "/"
  cookies : List (String × String) := []
  form : List (String × String) := []
  vars : List (String × String) := []
  ctxSession : Option (Option Session) := none
  deriving DecidableEq, Repr

/-- `r.Cookie(name)`: the first cookie of that name, `none` for `http.ErrNoCookie`. -/
def Request.Cookie (r : Request) (name : String) : Option String :=
  (r.cookies.find? (fun c => c.1 = name)).map (·.2)

/-- `SessionFromContext`. -/
def SessionFromContext (r : Request) : Except Error Session :=
  match r.ctxSession with
  | some (some sess) => .ok sess
  | _ => .error .ErrNoAuth

/-- `ContextWithSession` followed by `r.WithContext`. -/
def ContextWithSession (r : Request) (sess : Option Session) : Request :=
  { r with ctxSession := some sess }

/-- The struct `SessionsManager`: the Go map `data`.  The lock `mu` orders the accesses
of concurrent requests; the model runs one call at a time. -/
structure SessionsManager where
  data : String → Option Session

/-- `NewSessionsManager`. -/
def NewSessionsManager : SessionsManager :=
  { data := fun _ => none }

namespace SessionsManager

/-- `SessionsManager.Check`. -/
def Check (sm : SessionsManager) (r : Request) : Except Error Session :=
  match r.Cookie "session_id" with
  | none => .error .ErrNoAuth
  | some value =>
    match sm.data value with
    | none => .error .ErrNoAuth
    | some sess => .ok sess

/-- `SessionsManager.Create`: returns the session, the manager and the response. -/
def Create (sm : SessionsManager) (w : ResponseWriter) (randID : List Nat) (now : Nat)
    (userID : Nat) : Session × SessionsManager × ResponseWriter :=
  let sess := NewSession randID now userID
  let sm1 : SessionsManager := { data := fun k => if k = sess.ID then some sess else sm.data k }
  let cookie : Cookie :=
    { Name := "session_id", Value := sess.ID, Expires := (now : Int) + 90 * 24 * 3600,
      Path := "/", HttpOnly := true, Secure := false, SameSite := .lax }
  (sess, sm1, w.SetCookie cookie)

/-- `SessionsManager.DestroyCurrent`: returns the error, the manager and the response. -/
def DestroyCurrent (sm : SessionsManager) (w : ResponseWriter) (now : Nat) (r : Request) :
    Option Error × SessionsManager × ResponseWriter :=
  match SessionFromContext r with
  | .error e => (some e, sm, w)
  | .ok sess =>
    let sm1 : SessionsManager := { data := fun k => if k = sess.ID then none else sm.data k }
    let cookie : Cookie :=
      { Name := "session_id", Value := "", Expires := (now : Int) - 24 * 3600,
        Path := "/", HttpOnly := true, Secure := false, SameSite := .default }
    (none, sm1, w.SetCookie cookie)

end SessionsManager

/-- A later call on the session manager: a `Create` or a `DestroyCurrent`. -/
inductive SessionCall where
  | create (randID : List Nat) (now : Nat) (userID : Nat)
  | destroy (now : Nat) (r : Request)

/-- The manager after one call. -/
def SessionCall.run (sm : SessionsManager) : SessionCall → SessionsManager
  | .create randID now userID => (sm.Create {} randID now userID).2.1
  | .destroy now r => (sm.DestroyCurrent {} now r).2.1

/-- Whether a call leaves the entry of `token` alone: a `Create` that drew another
token, as the random source makes every later `Create` do, and a `DestroyCurrent` whose
request carries another session or none. -/
def SessionCall.spares (token : String) : SessionCall → Prop
  | .create randID _ _ => hexEncode randID ≠ token
  | .destroy _ r => ∀ sess, SessionFromContext r = .ok sess → sess.ID ≠ token

/-! ## Book repository: lookups -/

/-- The columns of table `books` a scanned `Book` carries. -/
def Book.row (book : Book) : BookRow :=
  { id := book.ID, title := book.Title, author := book.Author,
    description := book.Description, filename := book.Filename,
    file_path := book.FilePath, file_size := book.FileSize,
    cover_image := book.CoverImage, tags := book.Tags, rating := book.Rating,
    rating_count := book.RatingCount, user_id := book.UserID,
    created_at := book.CreatedAt }

namespace BookRepo

/-- SQL `LIMIT ?`: a negative bound is no bound. -/
def sqlLimit {α : Type} (limit : Int) (rows : List α) : List α :=
  if limit < 0 then rows else rows.take limit.toNat

/-- `BookRepo.GetLatest`: the joined rows by `created_at DESC`, the first `limit` of
them. -/
def GetLatest (fault : Option Error) (db : DB) (limit : Int) : Except Error (List Book) :=
  match fault with
  | some e => .error e
  | none =>
    .ok ((sqlLimit limit ((joinUsers db).insertionSort
      (fun x y => orderBy "newest" x.1 y.1))).map scanBook)

/-- `BookRepo.GetByID`: `QueryRow` takes the first joined row of that id;
`sql.ErrNoRows` becomes `(nil, nil)`, here `none`. -/
def GetByID (fault : Option Error) (db : DB) (id : Int) : Except Error (Option Book) :=
  match fault with
  | some e => .error e
  | none => .ok (((joinUsers db).find? (fun row => row.1.id = id)).map scanBook)

/-- The `rows.Scan` of `GetByUserID`: its query selects neither `b.user_id` nor a user
name, so `UserID`, `Username` and `UserRating` keep the zero values of `&Book{}`. -/
def scanOwnBook (b : BookRow) : Book :=
  { ID := b.id, Title := b.title, Author := b.author, Description := b.description,
    Filename := b.filename, FilePath := b.file_path, FileSize := b.file_size,
    CoverImage := b.cover_image, Tags := b.tags, Rating := b.rating,
    RatingCount := b.rating_count, UserID := 0, Username := "", UserRating := 0,
    CreatedAt := b.created_at }

/-- `BookRepo.GetByUserID`: the rows of `books` with that `user_id` by
`created_at DESC`; table `users` is not joined. -/
def GetByUserID (fault : Option Error) (db : DB) (userID : Int) : Except Error (List Book) :=
  match fault with
  | some e => .error e
  | none =>
    .ok (((db.books.filter (fun b => b.user_id = userID)).insertionSort
      (orderBy "newest")).map scanOwnBook)

end BookRepo

/-! ## User repository -/

/-- The struct `models.User`. -/
structure User where
  ID : Int
  Username : String
  Email : String
  Password : String
  Avatar : String
  deriving DecidableEq, Repr

namespace UserRepo

/-- `UserRepo.GetByUsername`: the first row with that `username` (the comparison of the
column is exact, byte for byte); `sql.ErrNoRows` becomes `ErrNoUser`. -/
def GetByUsername (fault : Option Error) (db : DB) (username : String) : Except Error User :=
  match fault with
  | some e => .error e
  | none =>
    match db.users.find? (fun u => u.username = username) with
    | none => .error .ErrNoUser
    | some u =>
      .ok { ID := u.id, Username := u.username, Email := u.email, Password := u.password,
            Avatar := u.avatar }

/-- `UserRepo.Authorize`: every error of `GetByUsername` is reported as `ErrNoUser`. -/
def Authorize (fault : Option Error) (db : DB) (username password : String) :
    Except Error User :=
  match GetByUsername fault db username with
  | .error _ => .error .ErrNoUser
  | .ok user => if user.Password ≠ password then .error .ErrBadPass else .ok user

end UserRepo

/-! ## HTTP responses -/

/-- `Header.Set` on the header map of a response; once the status line is written the
headers are on the wire and a later change of the map is not sent. -/
def ResponseWriter.SetHeader (w : ResponseWriter) (key value : String) : ResponseWriter :=
  if w.status.isSome then w
  else { w with header := w.header.filter (fun kv => kv.1 ≠ key) ++ [(key, value)] }

/-- `Header.Del` on the header map of a response; like `Header.Set` it changes nothing
that was already sent. -/
def ResponseWriter.DelHeader (w : ResponseWriter) (key : String) : ResponseWriter :=
  if w.status.isSome then w
  else { w with header := w.header.filter (fun kv => kv.1 ≠ key) }

/-- `Header.Get` on what was sent. -/
def ResponseWriter.GetHeader (w : ResponseWriter) (key : String) : Option String :=
  (w.header.find? (fun kv => kv.1 = key)).map (·.2)

/-- `WriteHeader`: a second call is ignored. -/
def ResponseWriter.WriteHeader (w : ResponseWriter) (code : Nat) : ResponseWriter :=
  if w.status.isSome then w else { w with status := some code }

/-- `Write`: the first write sends status 200 when none was sent. -/
def ResponseWriter.Write (w : ResponseWriter) (text : String) : ResponseWriter :=
  { w with status := some (w.status.getD 200), body := w.body ++ text }

/-- `http.Error`: it deletes the header `Content-Length`, sets `Content-Type` and
`X-Content-Type-Options`, writes the status and prints the message and a newline. -/
def httpError (w : ResponseWriter) (error : String) (code : Nat) : ResponseWriter :=
  ((((w.DelHeader "Content-Length").SetHeader "Content-Type"
    "text/plain; charset=utf-8").SetHeader
    "X-Content-Type-Options" "nosniff").WriteHeader code).Write (error ++ "\n")

/-- `http.StatusText` for the redirect codes. -/
def StatusText (code : Nat) : String :=
  if code = 301 then "Moved Permanently"
  else if code = 302 then "Found"
  else if code = 303 then "See Other"
  else if code = 307 then "Temporary Redirect"
  else if code = 308 then "Permanent Redirect"
  else ""

/-- `http.Redirect` for a target that is a clean rooted path of plain ASCII, which it
sends as it is; every target the program redirects to (`/`, `/login`, `/profile`,
`/books/<number>`) is one. -/
def Redirect (w : ResponseWriter) (r : Request) (url : String) (code : Nat) : ResponseWriter :=
  let hadCT := (w.GetHeader "Content-Type").isSome
  let w1 := w.SetHeader "Location" url
  let w2 := if ¬ hadCT ∧ (r.Method = "GET" ∨ r.Method = "HEAD") then
      w1.SetHeader "Content-Type" "text/html; charset=utf-8" else w1
  let w3 := w2.WriteHeader code
  if ¬ hadCT ∧ r.Method = "GET" then
    w3.Write ("<a href=\"" ++ url ++ "\">" ++ StatusText code ++ "</a>.\n\n")
  else w3

/-! ## Handlers and middleware -/

/-- An entry written through the `zap` logger: level, message and key-value fields. -/
structure LogEntry where
  level : String
  msg : String
  fields : List (String × String)
  deriving DecidableEq, Repr

/-- What the handlers share: the database, the session manager, the files under the
working directory (path to content) and the entries written to the logger. -/
structure World where
  db : DB
  sessions : SessionsManager
  files : String → Option String
  log : List LogEntry

/-- How a call of `ServeHTTP` ends: it returns, or it panics with a value; either way the
response and the world are as the call left them. -/
inductive Outcome where
  | returned (w : ResponseWriter) (s : World)
  | panicked (value : String) (w : ResponseWriter) (s : World)

/-- The response at the end of a call. -/
def Outcome.response : Outcome → ResponseWriter
  | .returned w _ => w
  | .panicked _ w _ => w

/-- The world at the end of a call. -/
def Outcome.world : Outcome → World
  | .returned _ s => s
  | .panicked _ _ s => s

/-- Whether the call ended in a panic. -/
def Outcome.isPanic : Outcome → Bool
  | .returned _ _ => false
  | .panicked _ _ _ => true

/-- An `http.Handler`. -/
def HandlerFunc : Type :=
  ResponseWriter → Request → World → Outcome

/-- The entry `AccessLog` writes; `elapsed` is the reading of `time.Since(start)`. -/
def accessEntry (r : Request) (elapsed : Nat) : LogEntry :=
  { level := "info", msg := "New request",
    fields := [("method", r.Method), ("remote_addr", r.RemoteAddr), ("url", r.Path),
      ("time", toString elapsed)] }

/-- `middleware.AccessLog`: the entry is written after `next.ServeHTTP` returned; a panic
of `next` leaves the function before that. -/
def AccessLog (elapsed : Nat) (next : HandlerFunc) : HandlerFunc :=
  fun w r s =>
    match next w r s with
    | .returned w1 s1 => .returned w1 { s1 with log := s1.log ++ [accessEntry r elapsed] }
    | .panicked value w1 s1 => .panicked value w1 s1

/-- `middleware.Panic`: the deferred function recovers a panic of `next` and answers with
`http.Error`. -/
def Panic (next : HandlerFunc) : HandlerFunc :=
  fun w r s =>
    match next w r s with
    | .returned w1 s1 => .returned w1 s1
    | .panicked _ w1 s1 => .returned (httpError w1 "Internal server error" 500) s1

/-- `middleware.Auth`; the session manager is the one of the world. -/
def Auth (next : HandlerFunc) : HandlerFunc :=
  fun w r s =>
    match s.sessions.Check r with
    | .ok sess => next w (ContextWithSession r (some sess)) s
    | .error _ => next w r s

/-- `middleware.RequireAuth`; the session manager is the one of the world. -/
def RequireAuth (next : HandlerFunc) : HandlerFunc :=
  fun w r s =>
    match s.sessions.Check r with
    | .error _ => .returned (Redirect w r "/login" 302) s
    | .ok sess => next w (ContextWithSession r (some sess)) s

/-- The chain `main` registers with `router.Use`: `Panic`, then `AccessLog`, then `Auth`,
the first one outermost. -/
def globalChain (elapsed : Nat) (handler : HandlerFunc) : HandlerFunc :=
  Panic (AccessLog elapsed (Auth handler))

/-- `strconv.Atoi`: an optional sign and decimal digits, within the range of `int`. -/
def Atoi (s : String) : Option Int :=
  let digits := match s.toList with
    | '-' :: t => t
    | '+' :: t => t
    | cs => cs
  let negative := match s.toList with
    | '-' :: _ => true
    | _ => false
  if digits = [] ∨ ¬ digits.all Char.isDigit then none
  else
    let n : Nat := digits.foldl (fun acc c => acc * 10 + (c.toNat - 48)) 0
    let v : Int := if negative then - (n : Int) else (n : Int)
    if v < - 2 ^ 63 ∨ v > 2 ^ 63 - 1 then none else some v

/-- `mux.Vars(r)[key]`: the empty string when the route has no such variable. -/
def Request.Var (r : Request) (key : String) : String :=
  (r.vars.lookup key).getD ""

/-- `r.FormValue(key)`: the first value of the key, the empty string without one. -/
def Request.FormValue (r : Request) (key : String) : String :=
  (r.form.lookup key).getD ""

/-- `getFileExtension`: the file name from its last `.` on. -/
def getFileExtension (filename : String) : String :=
  if '.' ∈ filename.toList then
    String.mk ('.' :: (filename.toList.reverse.takeWhile (fun c => c ≠ '.')).reverse)
  else ""

/-- `unicode.ToLower` as far as a comparison with a word of ASCII letters can see it:
the letters `A`..`Z`, and the two characters outside ASCII whose lower case is an ASCII
letter, the Kelvin sign U+212A (`k`) and the dotted capital I U+0130 (`i`).  The lower
case of any other character lies outside ASCII, as the character itself does. -/
def toLowerRune (c : Char) : Char :=
  if c = Char.ofNat 0x212A then 'k'
  else if c = Char.ofNat 0x130 then 'i'
  else c.toLower

/-- `IsTextFile`: the extension in lower case (`strings.ToLower`) is one of the list. -/
def IsTextFile (filename : String) : Bool :=
  [".txt", ".md", ".markdown", ".html", ".htm", ".rtf", ".docx"].contains
    (String.mk ((getFileExtension filename).toList.map toLowerRune))

/-- An entry of `h.Logger.Error`. -/
def errorEntry (msg : String) : LogEntry :=
  { level := "error", msg := msg, fields := [] }

/-- `os.Remove` of a file; when it fails (the error is not looked at) the file stays. -/
def removeFile (fails : Bool) (files : String → Option String) (path : String) :
    String → Option String :=
  if fails then files else fun p => if p = path then none else files p

/-- `os.WriteFile`. -/
def writeFile (files : String → Option String) (path content : String) :
    String → Option String :=
  fun p => if p = path then some content else files p

/-- What can fail under `DeleteBook`. -/
structure DeleteFaults where
  getByID : Option Error := none
  removeBook : Bool := false
  removeCover : Bool := false
  delete : Option Error := none

/-- `Handler.DeleteBook`. -/
def DeleteBook (f : DeleteFaults) : HandlerFunc :=
  fun w r s =>
    match SessionFromContext r with
    | .error _ => .returned (Redirect w r "/login" 302) s
    | .ok sess =>
      match Atoi (r.Var "id") with
      | none => .returned (httpError w "Invalid book ID" 400) s
      | some id =>
        match BookRepo.GetByID f.getByID s.db id with
        | .error _ => .returned (httpError w "Book not found" 404) s
        | .ok none => .returned (httpError w "Book not found" 404) s
        | .ok (some book) =>
          if book.UserID ≠ (sess.UserID : Int) then
            .returned (httpError w "Forbidden" 403) s
          else
            let files1 := if book.FilePath ≠ "" then
              removeFile f.removeBook s.files book.FilePath else s.files
            let files2 := if book.CoverImage ≠ "" then
              removeFile f.removeCover files1 book.CoverImage else files1
            match BookRepo.Delete f.delete s.db id (sess.UserID : Int) with
            | (some _, db1) =>
              .returned (httpError w "Database error" 500)
                { s with db := db1, files := files2,
                         log := s.log ++ [errorEntry "Delete book error:"] }
            | (none, db1) =>
              .returned (Redirect w r "/profile" 302) { s with db := db1, files := files2 }

/-- The statement `UPDATE books SET title = ?, author = ?, description = ?, tags = ?
WHERE id = ? AND user_id = ?` of `UpdateBook`. -/
def updateBookRecord (title author description tags : String) (id userID : Int) (db : DB) :
    DB :=
  { db with books := db.books.map (fun b =>
      if b.id = id ∧ b.user_id = userID then
        { b with title := title, author := author, description := description, tags := tags }
      else b) }

/-- What can fail under `UpdateBook`; a `WriteFile` that fails is one that could not open
the file. -/
structure UpdateFaults where
  getByID : Option Error := none
  parseForm : Bool := false
  writeFile : Bool := false
  exec : Option Error := none

/-- `Handler.UpdateBook`. -/
def UpdateBook (f : UpdateFaults) : HandlerFunc :=
  fun w r s =>
    match SessionFromContext r with
    | .error _ => .returned (Redirect w r "/login" 302) s
    | .ok sess =>
      match Atoi (r.Var "id") with
      | none => .returned (httpError w "Invalid book ID" 400) s
      | some id =>
        match BookRepo.GetByID f.getByID s.db id with
        | .error _ => .returned (httpError w "Book not found" 404) s
        | .ok none => .returned (httpError w "Book not found" 404) s
        | .ok (some book) =>
          if book.UserID ≠ (sess.UserID : Int) then
            .returned (httpError w "Forbidden" 403) s
          else if f.parseForm then
            .returned (httpError w "Invalid form data" 400)
              { s with log := s.log ++ [errorEntry "Parse form error:"] }
          else
            let title := r.FormValue "title"
            let author := r.FormValue "author"
            let description := r.FormValue "description"
            let tags := r.FormValue "tags"
            let content := r.FormValue "content"
            let writes := IsTextFile book.Filename && content ≠ ""
            if writes && f.writeFile then
              .returned (httpError w "Failed to update book content" 500)
                { s with log := s.log ++ [errorEntry "Update book file error:"] }
            else
              let files1 := if writes then writeFile s.files book.FilePath content else s.files
              match f.exec with
              | some _ =>
                .returned (httpError w "Failed to update book" 500)
                  { s with files := files1,
                           log := s.log ++ [errorEntry "Update book record error:"] }
              | none =>
                .returned (Redirect w r ("/books/" ++ toString id) 302)
                  { s with files := files1,
                           db := updateBookRecord title author description tags id
                             (sess.UserID : Int) s.db }

/-! ## Popular tags -/

namespace BookRepo

/-- SQL `replace(tags, ',', '","')`. -/
def replaceCommas (tags : List Char) : List Char :=
  tags.flatMap (fun c => if c = ',' then ['"', ',', '"'] else [c])

/-- The text `'["' || replace(tags, ',', '","') || '"]'` handed to `json_each`. -/
def tagsJSON (tags : String) : List Char :=
  ['[', '"'] ++ replaceCommas tags.toList ++ ['"', ']']

/-- A place between the tokens of a JSON array: before the array, after `[`, after a
comma, after an element, after `]`. -/
inductive JSONPlace where
  | start
  | first
  | element
  | after
  | done
  deriving DecidableEq

/-- Where the reader of a JSON array stands: at a place between tokens, in a comment
that began at such a place, or inside a string, `acc` being the characters of the
string read so far, last one first. -/
inductive JSONState where
  | between (place : JSONPlace)
  | slash (place : JSONPlace)
  | lineComment (place : JSONPlace)
  | blockComment (place : JSONPlace)
  | blockStar (place : JSONPlace)
  | inString (acc : List Char)
  | escape (acc : List Char)
  | escapeCR (acc : List Char)
  | hex (acc : List Char) (digits : List Nat)
  | unicode (acc : List Char) (digits : List Nat)
  | lowBackslash (acc : List Char) (high : Nat)
  | lowU (acc : List Char) (high : Nat)
  | lowDigits (acc : List Char) (high : Nat) (digits : List Nat)
  deriving DecidableEq

/-- White space between the tokens of JSON5: the four characters of JSON, the vertical
tabulator and the form feed, and the space characters of Unicode that JSON5 admits. -/
def jsonSpace (c : Char) : Bool :=
  c = ' ' || c = '\t' || c = '\n' || c = '\r' || c = Char.ofNat 0x0B || c = Char.ofNat 0x0C ||
    c = Char.ofNat 0xA0 || c = Char.ofNat 0x1680 ||
    (0x2000 ≤ c.toNat && c.toNat ≤ 0x200A) || c = Char.ofNat 0x2028 ||
    c = Char.ofNat 0x2029 || c = Char.ofNat 0x202F || c = Char.ofNat 0x205F ||
    c = Char.ofNat 0x3000 || c = Char.ofNat 0xFEFF

/-- The characters that end a line: a `//` comment runs up to one of them, and a
backslash before one of them continues a string on the next line. -/
def jsonLineEnd (c : Char) : Bool :=
  c = '\n' || c = '\r' || c = Char.ofNat 0x2028 || c = Char.ofNat 0x2029

/-- The value of a hexadecimal digit. -/
def hexValue (c : Char) : Option Nat :=
  if '0' ≤ c ∧ c ≤ '9' then some (c.toNat - 48)
  else if 'a' ≤ c ∧ c ≤ 'f' then some (c.toNat - 87)
  else if 'A' ≤ c ∧ c ≤ 'F' then some (c.toNat - 55)
  else none

/-- The number written by hexadecimal digits. -/
def hexNumber (digits : List Nat) : Nat :=
  digits.foldl (fun v x => v * 16 + x) 0

/-- One character inside a string, outside an escape. -/
def jsonStringStep (acc : List Char) (values : List String) (c : Char) :
    JSONState × List String :=
  if c = '"' then (.between .after, values ++ [String.mk acc.reverse])
  else if c = '\\' then (.escape acc, values)
  else (.inString (c :: acc), values)

/-- One character of a JSON array of strings, as `json_each` of SQLite 3.47 reads the
text built by `tagsJSON`; `values` are the elements read so far, `none` is
`malformed JSON`.  The reader takes JSON5: between tokens it skips white space and the
comments `/* */` and `//`; a string holds any character except `"` and `\`, control
characters included, and the escapes `\" \\ \/ \b \f \n \r \t \uXXXX` of JSON and
`\' \0 \v \xXX` and a backslash before a line end of JSON5; a `\u` escape of a high
surrogate half joins the `\u` escape of a low half behind it.  Every element of a text
built by `tagsJSON` opens with `"` (the text opens with `["`, and a comma of the text
stands between two `"`), so an element of another kind ends the reading.  A `\u` escape
of a surrogate half without its partner yields bytes that are no UTF-8, which a `String`
does not hold; the reading ends there as well. -/
def jsonStep (state : JSONState) (values : List String) (c : Char) :
    Option (JSONState × List String) :=
  match state with
  | .between place =>
    if jsonSpace c then some (.between place, values)
    else if c = '/' then some (.slash place, values)
    else
      match place with
      | .start => if c = '[' then some (.between .first, values) else none
      | .first =>
        if c = '"' then some (.inString [], values)
        else if c = ']' then some (.between .done, values) else none
      | .element =>
        if c = '"' then some (.inString [], values)
        else if c = ']' then some (.between .done, values) else none
      | .after =>
        if c = ',' then some (.between .element, values)
        else if c = ']' then some (.between .done, values) else none
      | .done => none
  | .slash place =>
    if c = '/' then some (.lineComment place, values)
    else if c = '*' then some (.blockComment place, values) else none
  | .lineComment place =>
    if jsonLineEnd c then some (.between place, values) else some (.lineComment place, values)
  | .blockComment place =>
    if c = '*' then some (.blockStar place, values) else some (.blockComment place, values)
  | .blockStar place =>
    if c = '/' then some (.between place, values)
    else if c = '*' then some (.blockStar place, values)
    else some (.blockComment place, values)
  | .inString acc => some (jsonStringStep acc values c)
  | .escape acc =>
    if c = '"' ∨ c = '\\' ∨ c = '/' ∨ c = Char.ofNat 39 then some (.inString (c :: acc), values)
    else if c = 'b' then some (.inString (Char.ofNat 8 :: acc), values)
    else if c = 'f' then some (.inString (Char.ofNat 12 :: acc), values)
    else if c = 'n' then some (.inString ('\n' :: acc), values)
    else if c = 'r' then some (.inString ('\r' :: acc), values)
    else if c = 't' then some (.inString ('\t' :: acc), values)
    else if c = 'v' then some (.inString (Char.ofNat 11 :: acc), values)
    else if c = '0' then some (.inString (Char.ofNat 0 :: acc), values)
    else if c = 'u' then some (.unicode acc [], values)
    else if c = 'x' then some (.hex acc [], values)
    else if c = '\r' then some (.escapeCR acc, values)
    else if jsonLineEnd c then some (.inString acc, values)
    else none
  | .escapeCR acc =>
    if c = '\n' then some (.inString acc, values) else some (jsonStringStep acc values c)
  | .hex acc digits =>
    match hexValue c with
    | none => none
    | some d =>
      if digits.length < 1 then some (.hex acc (digits ++ [d]), values)
      else some (.inString (Char.ofNat (hexNumber (digits ++ [d])) :: acc), values)
  | .unicode acc digits =>
    match hexValue c with
    | none => none
    | some d =>
      if digits.length < 3 then some (.unicode acc (digits ++ [d]), values)
      else
        let n := hexNumber (digits ++ [d])
        if 0xD800 ≤ n ∧ n ≤ 0xDBFF then some (.lowBackslash acc n, values)
        else if 0xDC00 ≤ n ∧ n ≤ 0xDFFF then none
        else some (.inString (Char.ofNat n :: acc), values)
  | .lowBackslash acc high =>
    if c = '\\' then some (.lowU acc high, values) else none
  | .lowU acc high =>
    if c = 'u' then some (.lowDigits acc high [], values) else none
  | .lowDigits acc high digits =>
    match hexValue c with
    | none => none
    | some d =>
      if digits.length < 3 then some (.lowDigits acc high (digits ++ [d]), values)
      else
        let low := hexNumber (digits ++ [d])
        if 0xDC00 ≤ low ∧ low ≤ 0xDFFF then
          some (.inString
            (Char.ofNat ((high - 0xD800) * 1024 + (low - 0xDC00) + 0x10000) :: acc), values)
        else none

/-- Whether a text may end in this state: after the array, also inside a `//` comment
behind it. -/
def jsonAtEnd (state : JSONState) : Bool :=
  state = .between .done || state = .lineComment .done

/-- The reader run over a text from a state. -/
def jsonRun (state : JSONState) (values : List String) : List Char → Option (List String)
  | [] => if jsonAtEnd state then some values else none
  | c :: rest =>
    match jsonStep state values c with
    | none => none
    | some (next, values1) => jsonRun next values1 rest

/-- The column `value` of `json_each(text)` for an array of strings: its elements, or
`none` when the text is malformed JSON.  The text is read as a zero-terminated string. -/
def jsonEach (text : List Char) : Option (List String) :=
  jsonRun (.between .start) [] (cString text)

/-- SQL `trim(X)`: `X` without the spaces (U+0020) at its two ends. -/
def sqlTrim (s : String) : String :=
  String.mk ((s.toList.dropWhile (fun c => c = ' ')).reverse.dropWhile
    (fun c => c = ' ')).reverse

/-- SQL `DISTINCT` over rows that arrive one by one: the first occurrence of every value,
in the order of arrival. -/
def distinct : List String → List String
  | [] => []
  | a :: rest => a :: (distinct rest).filter (fun x => x ≠ a)

/-- The columns of the index `idx_books_search ON books(title, author, description,
tags)`. -/
def indexKey (b : BookRow) : List (List Char) :=
  [b.title.toList, b.author.toList, b.description.toList, b.tags.toList]

/-- The order of the entries of `idx_books_search`: by the four columns, each compared
byte by byte (the order of the characters), then by rowid. -/
def indexOrder (a b : BookRow) : Prop :=
  indexKey a < indexKey b ∨ (indexKey a = indexKey b ∧ a.id ≤ b.id)

instance indexOrderDecidable : DecidableRel indexOrder := by
  intro a b
  unfold indexOrder
  infer_instance

/-- The scan of `books` that the statement of `GetPopularTags` makes: it needs the column
`tags` only, which the index `idx_books_search` covers, and SQLite walks that index
instead of the table, so the rows arrive in the order of the index. -/
def scanIndex (books : List BookRow) : List BookRow :=
  books.insertionSort indexOrder

/-- The rows of `trim(value)` that `books, json_each(...) WHERE tags != ''` yields, book
by book in the order of the scan, before `DISTINCT`.  When the text of a book is
malformed JSON the step of the statement fails and no further row arrives. -/
def splitTagRows : List BookRow → List String
  | [] => []
  | b :: rest =>
    if b.tags = "" then splitTagRows rest
    else
      match jsonEach (tagsJSON b.tags) with
      | none => []
      | some values => values.map sqlTrim ++ splitTagRows rest

/-- `BookRepo.GetPopularTags`.  A failing `Query` is returned as the error.  The rows
are delivered one by one as the scan meets a new value, and the statement ends with the
row that fills the limit; a step that fails only ends the loop `for rows.Next()`, and
since `rows.Err()` is not looked at, the tags scanned until then are returned with a nil
error. -/
def GetPopularTags (fault : Option Error) (db : DB) (limit : Int) :
    Except Error (List String) :=
  match fault with
  | some e => .error e
  | none =>
    .ok (sqlLimit limit
      ((distinct (splitTagRows (scanIndex db.books))).filter (fun tag => tag ≠ "")))

end BookRepo

/-! ## The tag tokens of the specification -/

/-- The words of the specification: the comma-separated tokens of a tag field. -/
def splitComma : List Char → List (List Char)
  | [] => [[]]
  | c :: rest =>
    if c = ',' then [] :: splitComma rest
    else
      match splitComma rest with
      | [] => [[c]]
      | t :: ts => (c :: t) :: ts

/-- The words of the specification: the trimmed tokens of the tag fields of all books. -/
def trimmedTokens (db : DB) : List String :=
  db.books.flatMap (fun b =>
    (splitComma b.tags.toList).map (fun token => BookRepo.sqlTrim (String.mk token)))

/-! ## Rating handler -/

namespace Handler

/-- `Handler.RateBook`; `f` and `now` are the driver failures and the clock reading that
`BookRepo.RateBook` meets. -/
def RateBook (f : BookRepo.Faults) (now : Nat) : HandlerFunc :=
  fun w r s =>
    match SessionFromContext r with
    | .error _ => .returned (httpError w "Not authorized" 401) s
    | .ok sess =>
      match Atoi (r.Var "id") with
      | none => .returned (httpError w "Invalid book ID" 400) s
      | some bookID =>
        match Atoi (r.FormValue "rating") with
        | none => .returned (httpError w "Invalid rating" 400) s
        | some rating =>
          if rating < 1 ∨ rating > 5 then .returned (httpError w "Invalid rating" 400) s
          else
            match BookRepo.RateBook f now s.db (sess.UserID : Int) bookID rating with
            | (some _, db1) =>
              .returned (httpError w "Failed to rate book" 500)
                { s with db := db1, log := s.log ++ [errorEntry "Rate book error:"] }
            | (none, db1) =>
              .returned (Redirect w r ("/books/" ++ toString bookID) 302) { s with db := db1 }

end Handler

/-! ## File sizes -/

/-- The value an `int64` holds after an operation whose exact result is `x`
(two's complement wrap-around). -/
def wrapInt64 (x : Int) : Int :=
  (x + 2 ^ 63) % 2 ^ 64 - 2 ^ 63

/-- What `FormatFileSize` prints. Below one unit it is the text of `"%d B"`. From one
unit on it is `"%.1f %cB"` of the quotient `float64(bytes)/float64(div)` and of the
byte `"KMGTPE"[exp]`: the value keeps the two operands of the quotient, the index and
the byte, `none` standing for an index out of range (where Go panics); the rounding of
the quotient to one decimal is left to the floating-point library. -/
inductive SizeText where
  | plain (text : String)
  | scaled (bytes div : Int) (exp : Nat) (unit : Option Char)
  deriving DecidableEq, Repr

/-- The loop `for n := bytes / unit; n >= unit; n /= unit { div *= unit; exp++ }` from
the state `(n, div, exp)` on; the product is taken in `int64`, the quotient truncates
towards zero. -/
def sizeLoop (n div : Int) (exp : Nat) : Int × Nat :=
  if n ≥ 1024 then sizeLoop (n.tdiv 1024) (wrapInt64 (div * 1024)) (exp + 1) else (div, exp)
termination_by n.toNat
decreasing_by
  have h0 : (0 : Int) ≤ n := by omega
  rw [Int.tdiv_eq_ediv h0 (by decide)]
  omega

/-- `FormatFileSize(bytes int64) string`. -/
def FormatFileSize (bytes : Int) : SizeText :=
  if bytes < 1024 then .plain (toString bytes ++ " B")
  else
    .scaled bytes (sizeLoop (bytes.tdiv 1024) 1024 0).1 (sizeLoop (bytes.tdiv 1024) 1024 0).2
      ("KMGTPE".toList[(sizeLoop (bytes.tdiv 1024) 1024 0).2]?)

/-! ## The substring test of the specification -/

/-- The words of the specification: `sub` occurs in `text` as a substring when the case
of ASCII letters is disregarded. -/
def occursIn (sub text : String) : Prop :=
  sub.toList.map Char.toLower <:+: text.toList.map Char.toLower

instance occursInDecidable (sub text : String) : Decidable (occursIn sub text) := by
  unfold occursIn
  infer_instance

/-- The words of the specification: the query occurs in the title, the author, the
description or the tag string of the row. -/
def queryOccurs (query : String) (b : BookRow) : Prop :=
  occursIn query b.title ∨ occursIn query b.author ∨ occursIn query b.description ∨
    occursIn query b.tags

instance queryOccursDecidable (query : String) (b : BookRow) :
    Decidable (queryOccurs query b) := by
  unfold queryOccurs
  infer_instance

/-- The words of the specification: one of the requested tags occurs in the tag string of
the row. -/
def someTagOccurs (tags : List String) (b : BookRow) : Prop :=
  ∃ tag ∈ tags, occursIn tag b.tags

instance someTagOccursDecidable (tags : List String) (b : BookRow) :
    Decidable (someTagOccurs tags b) := by
  unfold someTagOccurs
  infer_instance

/-- The upload of the scenario: title `Foo`, tags `sci-fi,drama`, owner 1. -/
def exBook : Book :=
  { ID := 0, Title := "Foo", Author := "a", Description := "", Filename := "f.txt",
    FilePath := "static/uploads/1_f.txt", FileSize := 3, CoverImage := "",
    Tags := "sci-fi,drama", Rating := 0, RatingCount := 0, UserID := 1, Username := "",
    UserRating := 0, CreatedAt := 0 }

/-- The user of the scenario. -/
def exUser : UserRow :=
  { id := 1, username := "alice", email := "a@x.com", password := "pw1", avatar := "",
    created_at := 0 }

/-- A database with user `alice` and no book. -/
def exDB0 : DB :=
  { DB.empty with users := [exUser], seqUsers := 1 }

/-- The database after `alice` uploaded `Foo`. -/
def exDB1 : DB :=
  (BookRepo.Create none 10 exDB0 exBook).2

/-- The database after user 1 rated the book `Foo` with 4. -/
def exDB2 : DB :=
  (BookRepo.RateBook BookRepo.Faults.none 11 exDB1 1 1 4).2

/-- The database after user 2 rated the book `Foo` with 2. -/
def exDB3 : DB :=
  (BookRepo.RateBook BookRepo.Faults.none 12 exDB2 2 1 2).2

/-- The database after users 1, 2 and 3 rated the book `Foo` with 2, 5 and 3. -/
def exThree : DB :=
  (BookRepo.RateBook BookRepo.Faults.none 13
    (BookRepo.RateBook BookRepo.Faults.none 12
      (BookRepo.RateBook BookRepo.Faults.none 11 exDB1 1 1 2).2 2 1 5).2 3 1 3).2

/-- A database in which user 1 rated book 1 before any book was uploaded. -/
def exEarly : DB :=
  (BookRepo.RateBook BookRepo.Faults.none 9 DB.empty 1 1 5).2

/-- The database `exEarly` after the first upload, which receives id 1. -/
def exStale : DB :=
  (BookRepo.Create none 10 exEarly exBook).2

/-- The database after user 1 changed the rating of the book `Foo` to 5. -/
def exDB6 : DB :=
  (BookRepo.RateBook BookRepo.Faults.none 13 exDB2 1 1 5).2

/-- A run of `RateBook` in which only `Commit` fails. -/
def exCommitFails : BookRepo.Faults :=
  { BookRepo.Faults.none with commit := some (.driver "disk I/O error") }

/-- A second upload, by user 2. -/
def exBook2 : Book :=
  { exBook with Title := "Bar", Tags := "cart", UserID := 2 }

/-- A second user. -/
def exUser2 : UserRow :=
  { id := 2, username := "bob", email := "b@x.com", password := "pw2", avatar := "",
    created_at := 15 }

/-- Users `alice` and `bob`, one book each. -/
def exDB4 : DB :=
  (BookRepo.Create none 20 { exDB1 with users := [exUser, exUser2], seqUsers := 2 } exBook2).2

/-- Sixteen bytes from the random source. -/
def exRand : List Nat :=
  [1, 35, 69, 103, 137, 171, 205, 239, 0, 17, 34, 51, 68, 85, 102, 119]

/-- Another sixteen bytes from the random source. -/
def exRand2 : List Nat :=
  [254, 220, 186, 152, 118, 84, 50, 16, 0, 17, 34, 51, 68, 85, 102, 119]

/-- A request that carries the cookie issued for `exRand`. -/
def exRequest : Request :=
  { cookies := [("theme", "dark"), ("session_id", "0123456789abcdef0011223344556677")] }

/-- A request without cookies. -/
def exAnonymous : Request :=
  {}

/-- The session `alice` obtains. -/
def exSession : Session :=
  { ID := "0123456789abcdef0011223344556677", UserID := 1, CreatedAt := 100 }

/-- The manager after `alice` logged in. -/
def exManager : SessionsManager :=
  (NewSessionsManager.Create {} exRand 100 1).2.1

/-- The book `Foo` as `Search` returns it from `exDB1`. -/
def exFound : Book :=
  { exBook with ID := 1, Username := "alice", CreatedAt := 10 }

/-- The database `exDB4` after user 2 rated the older book 4. -/
def exDB5 : DB :=
  (BookRepo.RateBook BookRepo.Faults.none 21 exDB4 2 1 4).2

/-- The user `alice` as the repository returns her. -/
def exAlice : User :=
  { ID := 1, Username := "alice", Email := "a@x.com", Password := "pw1", Avatar := "" }

/-- The files under the working directory: the upload of `alice` and nothing else. -/
def exFiles : String → Option String :=
  fun p => if p = "static/uploads/1_f.txt" then some "Foo, the text" else none

/-- The server with users `alice` and `bob`, one book each, and `alice` logged in. -/
def exWorld : World :=
  { db := exDB4, sessions := exManager, files := exFiles, log := [] }

/-- The entry the sample handler writes: that it ran, and for which user. -/
def exRanEntry (r : Request) : LogEntry :=
  { level := "debug", msg := "handler ran",
    fields := [("user", match SessionFromContext r with
      | .ok sess => toString sess.UserID
      | .error _ => "")] }

/-- A handler that notes in the log that it ran and for which user, and answers `ok`. -/
def exHandler : HandlerFunc :=
  fun w r s => .returned (w.Write "ok") { s with log := s.log ++ [exRanEntry r] }

/-- A handler that panics. -/
def exPanics : HandlerFunc :=
  fun w _ s => .panicked "boom" w s

/-- The session of user 2 (`bob`). -/
def exSessionBob : Session :=
  { ID := "fedcba98765432100011223344556677", UserID := 2, CreatedAt := 101 }

/-- A request of `bob`, session attached, for the book with id 1. -/
def exBobOnBook1 : Request :=
  { Method := "POST", Path := "/books/1/delete", vars := [("id", "1")],
    form := [("title", "Mine"), ("content", "overwritten")],
    ctxSession := some (some exSessionBob) }

/-- The same request from `alice`, the owner of the book. -/
def exAliceOnBook1 : Request :=
  { exBobOnBook1 with ctxSession := some (some exSession) }

/-- A database whose only book has the tag field `a,\tb`: a backslash and the letter
`t` open the second token. -/
def exEscaped : DB :=
  (BookRepo.Create none 10 exDB0 { exBook with Tags := "a,\\tb" }).2

/-- A database whose first book has a quotation mark in its tag field and whose second
book is tagged `drama`. -/
def exQuoted : DB :=
  (BookRepo.Create none 11
    (BookRepo.Create none 10 exDB0 { exBook with Tags := "say \"hi\"" }).2
    { exBook with Tags := "drama" }).2

/-- A database with the tag fields ` sci-fi ,drama,,sci-fi`, of the book `Foo`, and
`drama, art`, of the book `Bar`. -/
def exTagged : DB :=
  (BookRepo.Create none 11
    (BookRepo.Create none 10 exDB0 { exBook with Tags := " sci-fi ,drama,,sci-fi" }).2
    { exBook with Title := "Bar", Tags := "drama, art" }).2

/-- A database whose only book has a quotation mark in its tag field. -/
def exQuotedOnly : DB :=
  (BookRepo.Create none 10 exDB0 { exBook with Tags := "say \"hi\"" }).2

/-- A handler that begins its answer and then panics. -/
def exWritesThenPanics : HandlerFunc :=
  fun w _ s => .panicked "boom" (w.Write "partial") s

/-- A request of `bob`, session attached, rating the book with id 1 with 4. -/
def exBobRates : Request :=
  { Method := "POST", Path := "/books/1/rate", vars := [("id", "1")],
    form := [("rating", "4")], ctxSession := some (some exSessionBob) }

/-- The same request with the rating 6. -/
def exBobRatesSix : Request :=
  { exBobRates with form := [("rating", "6")] }

/-- The same request with the rating `4.5`. -/
def exBobRatesText : Request :=
  { exBobRates with form := [("rating", "4.5")] }

/-! ## Theorems: numbers of type `float64` -/

/-- The halvings find the leading binary digit. -/
theorem log2Aux_spec : ∀ (fuel n : Nat), n ≤ fuel → 1 ≤ n →
    2 ^ log2Aux fuel n ≤ n ∧ n < 2 ^ (log2Aux fuel n + 1) := by
  intro fuel
  induction fuel with
  | zero => intro n h1 h2; omega
  | succ f ih =>
    intro n hn h1
    unfold log2Aux
    by_cases h : n < 2
    · rw [if_pos h]
      constructor <;> simp <;> omega
    · rw [if_neg h]
      have := ih (n / 2) (by omega) (by omega)
      obtain ⟨ha, hb⟩ := this
      constructor
      · rw [pow_succ]; omega
      · rw [pow_succ]; omega

/-- `ilog2 n` is the position of the leading binary digit of `n`. -/
theorem ilog2_spec (n : Nat) (h : 1 ≤ n) : 2 ^ ilog2 n ≤ n ∧ n < 2 ^ (ilog2 n + 1) :=
  log2Aux_spec n n (le_refl _) h

/-- `roundHalfEven N D` is at most one half away from `N / D`. -/
theorem roundHalfEven_near (N D : Nat) (hD : 0 < D) :
    2 * D * roundHalfEven N D ≤ 2 * N + D ∧ 2 * N ≤ 2 * D * roundHalfEven N D + D := by
  have hdm := Nat.div_add_mod N D
  have hlt := Nat.mod_lt N hD
  unfold roundHalfEven
  simp only []
  generalize N / D = k at *
  generalize N % D = r at *
  split_ifs <;> constructor <;> nlinarith

/-- A power of two with an integer exponent as a quotient of two powers. -/
theorem zpow_two_split (s : Int) :
    (2 : ℚ) ^ s = (2 : ℚ) ^ s.toNat / (2 : ℚ) ^ (-s).toNat := by
  rcases le_total 0 s with h | h
  · have h1 : (-s).toNat = 0 := by omega
    have h2 : s = (s.toNat : Int) := by omega
    rw [h1, pow_zero, div_one]
    conv_lhs => rw [h2]
    rw [zpow_natCast]
  · have h1 : s.toNat = 0 := by omega
    have h2 : s = -((-s).toNat : Int) := by omega
    rw [h1, pow_zero]
    conv_lhs => rw [h2]
    rw [zpow_neg, zpow_natCast, one_div]

/-- The exponent `float64` works out for `n / d` brackets it: `2 ^ e ≤ n / d < 2 ^ (e + 1)`. -/
theorem float64_exponent_spec (n d : Nat) (hn : 1 ≤ n) (hd : 1 ≤ d) :
    let e0 : Int := (ilog2 n : Int) - (ilog2 d : Int)
    let e1 : Int := if d * 2 ^ e0.toNat ≤ n * 2 ^ (-e0).toNat then e0 else e0 - 1
    (2 : ℚ) ^ e1 ≤ (n : ℚ) / d ∧ (n : ℚ) / d < (2 : ℚ) ^ (e1 + 1) := by
  intro e0 e1
  obtain ⟨ha1, ha2⟩ := ilog2_spec n hn
  obtain ⟨hb1, hb2⟩ := ilog2_spec d hd
  have hdpos : (0 : ℚ) < d := by exact_mod_cast hd
  have hA1 : (2 : ℚ) ^ (ilog2 n) ≤ n := by exact_mod_cast ha1
  have hA2 : (n : ℚ) < (2 : ℚ) ^ (ilog2 n + 1) := by exact_mod_cast ha2
  have hB1 : (2 : ℚ) ^ (ilog2 d) ≤ d := by exact_mod_cast hb1
  have hB2 : (d : ℚ) < (2 : ℚ) ^ (ilog2 d + 1) := by exact_mod_cast hb2
  have hpa : (0 : ℚ) < (2 : ℚ) ^ (ilog2 n) := by positivity
  have hpb : (0 : ℚ) < (2 : ℚ) ^ (ilog2 d) := by positivity
  -- 2^e0 = 2^a / 2^b
  have he0 : (2 : ℚ) ^ e0 = (2 : ℚ) ^ (ilog2 n) / (2 : ℚ) ^ (ilog2 d) := by
    show (2 : ℚ) ^ ((ilog2 n : Int) - (ilog2 d : Int)) = _
    rw [zpow_sub₀ (by norm_num), zpow_natCast, zpow_natCast]
  have hsplit := zpow_two_split e0
  have hP : (0 : ℚ) < (2 : ℚ) ^ e0.toNat := by positivity
  have hM : (0 : ℚ) < (2 : ℚ) ^ (-e0).toNat := by positivity
  have htest : (d * 2 ^ e0.toNat ≤ n * 2 ^ (-e0).toNat) ↔ (2 : ℚ) ^ e0 ≤ (n : ℚ) / d := by
    rw [hsplit, div_le_div_iff₀ hM hdpos]
    constructor
    · intro h
      have : ((d * 2 ^ e0.toNat : Nat) : ℚ) ≤ ((n * 2 ^ (-e0).toNat : Nat) : ℚ) := by
        exact_mod_cast h
      push_cast at this
      linarith
    · intro h
      have : ((d * 2 ^ e0.toNat : Nat) : ℚ) ≤ ((n * 2 ^ (-e0).toNat : Nat) : ℚ) := by
        push_cast
        linarith
      exact_mod_cast this
  have hup : (n : ℚ) / d < (2 : ℚ) ^ (e0 + 1) := by
    rw [zpow_add_one₀ (by norm_num), he0, div_lt_iff₀ hdpos]
    rw [pow_succ] at hA2
    have : (2 : ℚ) ^ ilog2 n / (2 : ℚ) ^ ilog2 d * 2 * d ≥ (2 : ℚ) ^ ilog2 n * 2 := by
      rw [ge_iff_le, div_mul_eq_mul_div, div_mul_eq_mul_div, le_div_iff₀ hpb]
      nlinarith
    linarith
  have hlow : (2 : ℚ) ^ (e0 - 1) ≤ (n : ℚ) / d := by
    rw [zpow_sub_one₀ (by norm_num), he0, le_div_iff₀ hdpos]
    rw [pow_succ] at hB2
    have : (2 : ℚ) ^ ilog2 n / (2 : ℚ) ^ ilog2 d * 2⁻¹ * d ≤ (2 : ℚ) ^ ilog2 n := by
      rw [div_mul_eq_mul_div, div_mul_eq_mul_div, div_le_iff₀ hpb]
      nlinarith
    linarith
  show (2 : ℚ) ^ e1 ≤ _ ∧ _ < (2 : ℚ) ^ (e1 + 1)
  by_cases ht : d * 2 ^ e0.toNat ≤ n * 2 ^ (-e0).toNat
  · have : e1 = e0 := if_pos ht
    rw [this]
    exact ⟨htest.mp ht, hup⟩
  · have : e1 = e0 - 1 := if_neg ht
    rw [this]
    refine ⟨hlow, ?_⟩
    have h2 : ¬ (2 : ℚ) ^ e0 ≤ (n : ℚ) / d := fun h => ht (htest.mpr h)
    have : e0 - 1 + 1 = e0 := by ring
    rw [this]
    exact not_le.mp h2

/-- `float64 q` is a binary64 number nearest to `q`: with `2 ^ e ≤ |q| < 2 ^ (e + 1)` it is
a multiple of the unit in the last place `2 ^ (e - 52)` (`2 ^ (-1074)` below the normal
range) and at most half a unit away from `q`. -/
theorem float64_near (q : ℚ) (hq : q ≠ 0) :
    ∃ e : Int, (2 : ℚ) ^ e ≤ |q| ∧ |q| < (2 : ℚ) ^ (e + 1) ∧
      |float64 q - q| ≤ (2 : ℚ) ^ (max e (-1022) - 53) ∧
      ∃ k : Int, float64 q = k * (2 : ℚ) ^ (max e (-1022) - 52) := by
  have hnum : q.num ≠ 0 := Rat.num_ne_zero.mpr hq
  have hn : 1 ≤ q.num.natAbs := Nat.one_le_iff_ne_zero.mpr (Int.natAbs_ne_zero.mpr hnum)
  have hd : 1 ≤ q.den := q.den_pos
  have hdpos : (0 : ℚ) < q.den := by exact_mod_cast hd
  have hqdiv : q = (q.num : ℚ) / q.den := (Rat.num_div_den q).symm
  have hsign : (q.num : ℚ) = (q.num.sign : ℚ) * (q.num.natAbs : ℚ) := by
    have hnat : (q.num.natAbs : ℚ) = |(q.num : ℚ)| := by
      rw [Nat.cast_natAbs, Int.cast_abs]
    rw [hnat, ← Int.cast_abs, ← Int.cast_mul, Int.sign_mul_abs]
  have hsabs : |(q.num.sign : ℚ)| = 1 := by
    rcases lt_trichotomy q.num 0 with h | h | h
    · rw [Int.sign_eq_neg_one_of_neg h]; simp
    · exact absurd h hnum
    · rw [Int.sign_eq_one_of_pos h]; simp
  have habs : |q| = (q.num.natAbs : ℚ) / q.den := by
    conv_lhs => rw [hqdiv, hsign]
    rw [abs_div, abs_mul, hsabs, one_mul, abs_of_nonneg (by positivity),
      abs_of_pos hdpos]
  obtain ⟨hlo, hhi⟩ := float64_exponent_spec q.num.natAbs q.den hn hd
  generalize hE1 : (if q.den * 2 ^ ((ilog2 q.num.natAbs : Int) - (ilog2 q.den : Int)).toNat ≤
      q.num.natAbs * 2 ^ (-((ilog2 q.num.natAbs : Int) - (ilog2 q.den : Int))).toNat then
      (ilog2 q.num.natAbs : Int) - (ilog2 q.den : Int)
      else (ilog2 q.num.natAbs : Int) - (ilog2 q.den : Int) - 1) = e1 at hlo hhi
  refine ⟨e1, by rw [habs]; exact hlo, by rw [habs]; exact hhi, ?_⟩
  -- the value
  have hval : float64 q =
      (q.num.sign : ℚ) * ((roundHalfEven (q.num.natAbs * 2 ^ (52 - max e1 (-1022)).toNat)
        (q.den * 2 ^ (-(52 - max e1 (-1022))).toNat) : ℚ) *
        (2 : ℚ) ^ (-(52 - max e1 (-1022))).toNat / (2 : ℚ) ^ (52 - max e1 (-1022)).toNat) := by
    unfold float64
    simp only []
    rw [if_neg (by omega), hE1, Rat.mkRat_eq_div]
    push_cast
    ring
  generalize hs : 52 - max e1 (-1022) = s at hval
  have hpow : (2 : ℚ) ^ (-s) = (2 : ℚ) ^ (-s).toNat / (2 : ℚ) ^ s.toNat := by
    have := zpow_two_split (-s)
    rwa [neg_neg] at this
  have hexp52 : max e1 (-1022) - 52 = -s := by omega
  have hexp53 : max e1 (-1022) - 53 = -s - 1 := by omega
  have hP : (0 : ℚ) < (2 : ℚ) ^ s.toNat := by positivity
  have hM : (0 : ℚ) < (2 : ℚ) ^ (-s).toNat := by positivity
  generalize hk : roundHalfEven (q.num.natAbs * 2 ^ s.toNat) (q.den * 2 ^ (-s).toNat) = k at hval
  have hD : 0 < q.den * 2 ^ (-s).toNat := by positivity
  obtain ⟨hr1, hr2⟩ := roundHalfEven_near (q.num.natAbs * 2 ^ s.toNat) (q.den * 2 ^ (-s).toNat) hD
  rw [hk] at hr1 hr2
  have hR1 : 2 * ((q.den : ℚ) * (2 : ℚ) ^ (-s).toNat) * k ≤
      2 * ((q.num.natAbs : ℚ) * (2 : ℚ) ^ s.toNat) + (q.den : ℚ) * (2 : ℚ) ^ (-s).toNat := by
    exact_mod_cast hr1
  have hR2 : 2 * ((q.num.natAbs : ℚ) * (2 : ℚ) ^ s.toNat) ≤
      2 * ((q.den : ℚ) * (2 : ℚ) ^ (-s).toNat) * k + (q.den : ℚ) * (2 : ℚ) ^ (-s).toNat := by
    exact_mod_cast hr2
  have hq2 : q = (q.num.sign : ℚ) * ((q.num.natAbs : ℚ) / q.den) := by
    conv_lhs => rw [hqdiv, hsign]
    rw [mul_div_assoc]
  constructor
  · have hdiff : float64 q - q = (q.num.sign : ℚ) *
        ((k : ℚ) * (2 : ℚ) ^ (-s).toNat / (2 : ℚ) ^ s.toNat - (q.num.natAbs : ℚ) / q.den) := by
      rw [mul_sub, ← hq2, hval]
    rw [hexp53, zpow_sub_one₀ (by norm_num), hpow, hdiff, abs_mul, hsabs, one_mul, abs_le]
    have hPd : (0 : ℚ) < (2 : ℚ) ^ s.toNat * q.den := by positivity
    constructor
    · rw [div_sub_div _ _ (ne_of_gt hP) (ne_of_gt hdpos), le_div_iff₀ hPd]
      have : -((2 : ℚ) ^ (-s).toNat / (2 : ℚ) ^ s.toNat * 2⁻¹) * ((2 : ℚ) ^ s.toNat * q.den) =
          -((2 : ℚ) ^ (-s).toNat * q.den / 2) := by
        field_simp
        ring
      rw [this]
      nlinarith
    · rw [div_sub_div _ _ (ne_of_gt hP) (ne_of_gt hdpos), div_le_iff₀ hPd]
      have : (2 : ℚ) ^ (-s).toNat / (2 : ℚ) ^ s.toNat * 2⁻¹ * ((2 : ℚ) ^ s.toNat * q.den) =
          (2 : ℚ) ^ (-s).toNat * q.den / 2 := by
        field_simp
        ring
      rw [this]
      nlinarith
  · refine ⟨q.num.sign * (k : Int), ?_⟩
    rw [hexp52, hpow, hval]
    push_cast
    ring

/-- A number that is a multiple of its unit in the last place is a `float64` and is
left as it is. -/
theorem float64_exact (q : ℚ) (hq : q ≠ 0) (e m : Int)
    (h1 : (2 : ℚ) ^ e ≤ |q|) (h2 : |q| < (2 : ℚ) ^ (e + 1))
    (hm : q = m * (2 : ℚ) ^ (max e (-1022) - 52)) : float64 q = q := by
  obtain ⟨e2, h3, h4, hnear, k, hk⟩ := float64_near q hq
  have hlt1 : (2 : ℚ) ^ e < (2 : ℚ) ^ (e2 + 1) := lt_of_le_of_lt h1 h4
  have hlt2 : (2 : ℚ) ^ e2 < (2 : ℚ) ^ (e + 1) := lt_of_le_of_lt h3 h2
  have hle1 : e < e2 + 1 := (zpow_lt_zpow_iff_right₀ (by norm_num : (1 : ℚ) < 2)).mp hlt1
  have hle2 : e2 < e + 1 := (zpow_lt_zpow_iff_right₀ (by norm_num : (1 : ℚ) < 2)).mp hlt2
  have hee : e2 = e := by omega
  subst hee
  have hu : (0 : ℚ) < (2 : ℚ) ^ (max e2 (-1022) - 52) := by positivity
  have hhalf : (2 : ℚ) ^ (max e2 (-1022) - 53) = (2 : ℚ) ^ (max e2 (-1022) - 52) / 2 := by
    have : max e2 (-1022) - 53 = max e2 (-1022) - 52 - 1 := by ring
    rw [this, zpow_sub_one₀ (by norm_num)]
    ring
  rw [hhalf] at hnear
  have hkm : (k : ℚ) = m := by
    have hd : float64 q - q = ((k : ℚ) - m) * (2 : ℚ) ^ (max e2 (-1022) - 52) := by
      rw [hk]
      conv_lhs => rw [hm]
      ring
    rw [hd, abs_mul, abs_of_pos hu] at hnear
    have habs : |(k : ℚ) - m| ≤ 1 / 2 := by
      by_contra hc
      push_neg at hc
      nlinarith
    have hint : |((k - m : Int) : ℚ)| < 1 := by
      push_cast
      linarith
    have hz : k - m = 0 := by
      have : |k - m| < 1 := by exact_mod_cast hint
      exact Int.abs_lt_one_iff.mp this
    have : k = m := by omega
    rw [this]
  rw [hk, hkm, ← hm]

/-! ## Theorems: ratings -/

namespace BookRepo

/-- `AVG` is the `float64` nearest to the sum of the ratings divided by their number. -/
theorem AVG_eq_float64 (rows : List RatingRow) :
    AVG rows = float64 (((rows.map (fun r => (r.rating : ℚ))).sum) / (rows.length : ℚ)) := by
  unfold AVG
  rw [Rat.mkRat_eq_div, Int.cast_list_sum, List.map_map]
  rfl

/-- What a `RateBook` that returns `nil` did: every driver call succeeded, the upsert
produced `w` and the aggregate update turned `w` into the final database. -/
theorem RateBook_ok {f : Faults} {now : Nat} {db db1 : DB} {userID bookID rating : Int}
    (h : RateBook f now db userID bookID rating = (none, db1)) :
    ∃ w, upsertRating now userID bookID rating db = .ok w ∧
      updateAggregate bookID w = .ok db1 := by
  obtain ⟨fb, fu, fp, fc⟩ := f
  cases fb <;> cases fu <;> cases fp <;> cases fc <;>
    cases hu : upsertRating now userID bookID rating db <;>
    simp [RateBook, DB.Begin, Tx.Exec, Tx.Commit, Tx.Rollback, hu, updateAggregate] at h ⊢
  exact h

/-- What a successful upsert wrote. -/
theorem upsertRating_ok {now : Nat} {db w : DB} {userID bookID rating : Int}
    (h : upsertRating now userID bookID rating db = .ok w) :
    (1 ≤ rating ∧ rating ≤ 5) ∧ w.books = db.books ∧ w.users = db.users ∧
      ∃ id, w.ratings =
        db.ratings.filter (fun r => ¬ (r.user_id = userID ∧ r.book_id = bookID)) ++
          [{ id := id, user_id := userID, book_id := bookID, rating := rating,
             created_at := now }] := by
  unfold upsertRating at h
  split at h
  · rename_i hr
    cases hn : nextRowid db.seqRatings (db.ratings.map (·.id)) with
    | error e => simp [hn] at h
    | ok id =>
      simp only [hn, Except.ok.injEq] at h
      subst h
      exact ⟨hr, rfl, rfl, id, rfl⟩
  · simp at h

/-- What the aggregate update wrote. -/
theorem updateAggregate_ok {bookID : Int} {w db1 : DB}
    (h : updateAggregate bookID w = .ok db1) :
    db1.ratings = w.ratings ∧ db1.users = w.users ∧
      db1.books = w.books.map (fun b =>
        if b.id = bookID then
          { b with rating := AVG (ratingsOf w bookID), rating_count := COUNT (ratingsOf w bookID) }
        else b) := by
  simp only [updateAggregate, Except.ok.injEq] at h
  subst h
  exact ⟨rfl, rfl, rfl⟩

/-- The first row of a table from which the rows of a key were removed and to which one
row of that key was appended is the appended row. -/
theorem find_upserted (l : List RatingRow) (x : RatingRow) (p : RatingRow → Bool)
    (hx : p x = true) :
    (l.filter (fun r => ! p r) ++ [x]).find? p = some x := by
  rw [List.find?_append]
  have : (l.filter (fun r => ! p r)).find? p = none := by
    rw [List.find?_eq_none]
    intro r hr
    have := (List.mem_filter.mp hr).2
    simpa using this
  simp [this, hx]

/-- With no driver failure, a rating in 1..5 and a rowid left in `ratings`, `RateBook`
returns nil. -/
theorem RateBook_succeeds (now : Nat) (db : DB) (userID bookID rating : Int)
    (hrating : 1 ≤ rating ∧ rating ≤ 5)
    (hroom : (db.ratings.map (·.id)).foldl max db.seqRatings < maxRowid) :
    (RateBook Faults.none now db userID bookID rating).1 = none := by
  have hn : ¬ ((db.ratings.map (·.id)).foldl max db.seqRatings ≥ maxRowid) := not_le.mpr hroom
  simp [RateBook, DB.Begin, Tx.Exec, Tx.Commit, Tx.Rollback, Faults.none, upsertRating,
    nextRowid, hrating, hn, updateAggregate]

/-- Rows of a book split into those of one user and the others. -/
theorem length_ratings_split (l : List RatingRow) (userID bookID : Int) :
    (l.filter (fun r => r.book_id = bookID)).length =
      (l.filter (fun r => r.user_id = userID ∧ r.book_id = bookID)).length +
        ((l.filter (fun r => ¬ (r.user_id = userID ∧ r.book_id = bookID))).filter
          (fun r => r.book_id = bookID)).length := by
  induction l with
  | nil => rfl
  | cons a t ih =>
    by_cases hb : a.book_id = bookID <;> by_cases hu : a.user_id = userID <;>
      simp [List.filter_cons, hb, hu, ih] <;> omega

end BookRepo

set_option maxRecDepth 16384 in
/-- C1 as stated fails in the stored rating: after users 1, 2 and 3 rated the book 2, 5
and 3, the mean of the three rating rows is 10/3, and the column holds the `float64`
nearest to it, 7505999378950827 / 2 ^ 51 (printed 3.3333333333333335), which is another
number; `rating_count` is 3 and `GetUserRating` returns what each user gave. -/
theorem C1_mean_is_rounded_to_float64 :
    (exThree.ratings.filter (fun r => r.book_id = 1)).map (·.rating) = [2, 5, 3] ∧
      mkRat ((exThree.ratings.filter (fun r => r.book_id = 1)).map (·.rating)).sum
        (exThree.ratings.filter (fun r => r.book_id = 1)).length = mkRat 10 3 ∧
      exThree.books.map (fun b => (b.id, b.rating, b.rating_count)) =
        [(1, mkRat 7505999378950827 (2 ^ 51), 3)] ∧
      mkRat 7505999378950827 (2 ^ 51) ≠ mkRat 10 3 ∧
      BookRepo.GetUserRating none exThree 3 1 = (3, none) := by
  decide

/-- C1, amended: a `RateBook(userID, bookID, rating)` on an existing book that returns nil
had a rating in 1..5, and after it `GetUserRating(userID, bookID)` returns `rating` with a
nil error (on the run without driver failure), the book is still there, its stored rating
is the `float64` nearest to the arithmetic mean of the rating rows of the book
(`float64_near`, `float64_exact`) and its `rating_count` their number.  (`RateBook_succeeds` shows that the call does return nil
for every rating in 1..5 when no driver call fails.) -/
theorem C1_RateBook_stores_rating_and_aggregate (f : BookRepo.Faults) (now : Nat)
    (db db1 : DB) (userID bookID rating : Int)
    (hbook : ∃ b ∈ db.books, b.id = bookID)
    (hok : BookRepo.RateBook f now db userID bookID rating = (none, db1)) :
    (1 ≤ rating ∧ rating ≤ 5) ∧
      BookRepo.GetUserRating none db1 userID bookID = (rating, none) ∧
      (∃ b ∈ db1.books, b.id = bookID) ∧
      ∀ b ∈ db1.books, b.id = bookID →
        b.rating =
            float64 (((db1.ratings.filter (fun r => r.book_id = bookID)).map
              (fun r => (r.rating : ℚ))).sum /
              ((db1.ratings.filter (fun r => r.book_id = bookID)).length : ℚ)) ∧
          b.rating_count = ((db1.ratings.filter (fun r => r.book_id = bookID)).length : Int) := by
  obtain ⟨w, hw, hu⟩ := BookRepo.RateBook_ok hok
  obtain ⟨hrange, hwb, _, id, hwr⟩ := BookRepo.upsertRating_ok hw
  obtain ⟨hr1, _, hb1⟩ := BookRepo.updateAggregate_ok hu
  refine ⟨hrange, ?_, ?_, ?_⟩
  · unfold BookRepo.GetUserRating
    rw [hr1, hwr]
    have := BookRepo.find_upserted db.ratings
      { id := id, user_id := userID, book_id := bookID, rating := rating, created_at := now }
      (fun r => decide (r.user_id = userID ∧ r.book_id = bookID)) (by simp)
    simp only [decide_not] at this ⊢
    rw [this]
    simp
  · obtain ⟨b, hb, hid⟩ := hbook
    rw [hb1, hwb]
    refine ⟨_, List.mem_map.mpr ⟨b, hb, rfl⟩, ?_⟩
    simp [hid]
  · intro b hb hid
    rw [hb1] at hb
    obtain ⟨c, _, hc⟩ := List.mem_map.mp hb
    have hcid : c.id = bookID := by
      by_cases h : c.id = bookID
      · exact h
      · rw [if_neg h] at hc
        rw [hc] at h
        exact absurd hid h
    rw [if_pos hcid] at hc
    subst hc
    rw [hr1]
    exact ⟨BookRepo.AVG_eq_float64 _, rfl⟩

/-- C1 amended, at the scenario of the specification: user 1 rated the book 4, user 2
rates it 2; the mean 3 is a `float64`, the aggregate becomes 3 with `rating_count` 2. -/
theorem C1_RateBook_stores_rating_and_aggregate_witness :
    ((∃ b ∈ exDB2.books, b.id = 1) ∧
      BookRepo.RateBook BookRepo.Faults.none 12 exDB2 2 1 2 = (none, exDB3)) ∧
    (((1 : Int) ≤ 2 ∧ (2 : Int) ≤ 5) ∧ BookRepo.GetUserRating none exDB3 2 1 = (2, none) ∧
      (∃ b ∈ exDB3.books, b.id = 1) ∧
      ∀ b ∈ exDB3.books, b.id = 1 →
        b.rating =
            float64 (((exDB3.ratings.filter (fun r => r.book_id = 1)).map
              (fun r => (r.rating : ℚ))).sum /
              ((exDB3.ratings.filter (fun r => r.book_id = 1)).length : ℚ)) ∧
          b.rating_count = ((exDB3.ratings.filter (fun r => r.book_id = 1)).length : Int)) ∧
    exDB3.books.map (fun b => (b.rating, b.rating_count)) = [(3, 2)] :=
  ⟨⟨by decide, by decide⟩,
    C1_RateBook_stores_rating_and_aggregate BookRepo.Faults.none 12 exDB2 exDB3 2 1 2
      (by decide) (by decide),
    by decide⟩

/-- C2 fails on the code: in `exStale`, reached by `RateBook(1, 1, 5)` on the new
database and the first `Create`, user 1 has a rating row for book 1 while the book
carries `rating_count` 0; the further `RateBook(1, 1, 3)` returns nil, keeps the one row
and moves `rating_count` from 0 to 1. -/
theorem C2_rating_count_changes_on_rerate :
    (exStale.ratings.filter (fun r => r.user_id = 1 ∧ r.book_id = 1)).length = 1 ∧
      exStale.books.map (fun b => (b.id, b.rating_count)) = [(1, 0)] ∧
      (BookRepo.RateBook BookRepo.Faults.none 11 exStale 1 1 3).1 = none ∧
      (BookRepo.RateBook BookRepo.Faults.none 11 exStale 1 1 3).2.books.map
        (fun b => (b.id, b.rating_count)) = [(1, 1)] := by
  decide

/-- Re-rating: when user `userID` has a rating row for book `bookID`, a further
successful `RateBook(userID, bookID, rating)` leaves exactly one row for the pair, now
carrying `rating`, leaves the number of rating rows of the book unchanged, and sets the
`rating_count` of the book to that number; so `rating_count` is what it was before the
call whenever it agreed with the rating rows before the call. -/
theorem rerate_replaces_row (f : BookRepo.Faults) (now : Nat) (db db1 : DB)
    (userID bookID rating : Int)
    (hrated : (db.ratings.filter (fun r => r.user_id = userID ∧ r.book_id = bookID)).length = 1)
    (hok : BookRepo.RateBook f now db userID bookID rating = (none, db1)) :
    (db1.ratings.filter (fun r => r.user_id = userID ∧ r.book_id = bookID)).map (·.rating)
        = [rating] ∧
      (db1.ratings.filter (fun r => r.book_id = bookID)).length =
        (db.ratings.filter (fun r => r.book_id = bookID)).length ∧
      (∀ b ∈ db1.books, b.id = bookID →
        b.rating_count = ((db.ratings.filter (fun r => r.book_id = bookID)).length : Int)) ∧
      (∀ b ∈ db.books, b.id = bookID →
        b.rating_count = ((db.ratings.filter (fun r => r.book_id = bookID)).length : Int) →
        ∀ c ∈ db1.books, c.id = bookID → c.rating_count = b.rating_count) := by
  obtain ⟨w, hw, hu⟩ := BookRepo.RateBook_ok hok
  obtain ⟨_, hwb, _, id, hwr⟩ := BookRepo.upsertRating_ok hw
  obtain ⟨hr1, _, hb1⟩ := BookRepo.updateAggregate_ok hu
  have hpair : (db1.ratings.filter (fun r => r.user_id = userID ∧ r.book_id = bookID)).map
      (·.rating) = [rating] := by
    rw [hr1, hwr, List.filter_append, List.filter_filter]
    simp
  have hlen : (db1.ratings.filter (fun r => r.book_id = bookID)).length =
      (db.ratings.filter (fun r => r.book_id = bookID)).length := by
    rw [hr1, hwr, List.filter_append, List.length_append,
      BookRepo.length_ratings_split db.ratings userID bookID, hrated]
    simp
    omega
  have hcount : ∀ b ∈ db1.books, b.id = bookID →
      b.rating_count = ((db.ratings.filter (fun r => r.book_id = bookID)).length : Int) := by
    intro b hb hid
    rw [hb1] at hb
    obtain ⟨c, _, hc⟩ := List.mem_map.mp hb
    have hcid : c.id = bookID := by
      by_cases h : c.id = bookID
      · exact h
      · rw [if_neg h] at hc
        rw [hc] at h
        exact absurd hid h
    rw [if_pos hcid] at hc
    subst hc
    show BookRepo.COUNT (BookRepo.ratingsOf w bookID) = _
    unfold BookRepo.COUNT BookRepo.ratingsOf
    rw [← hr1, hlen]
  refine ⟨hpair, hlen, hcount, ?_⟩
  intro b _ _ hbc c hc hcid
  rw [hcount c hc hcid, hbc]

/-- Re-rating at the scenario: user 1, who rated the book 4, rates it 5. -/
theorem rerate_replaces_row_witness :
    ((exDB2.ratings.filter (fun r => r.user_id = 1 ∧ r.book_id = 1)).length = 1 ∧
      BookRepo.RateBook BookRepo.Faults.none 13 exDB2 1 1 5 = (none, exDB6)) ∧
    ((exDB6.ratings.filter (fun r => r.user_id = 1 ∧ r.book_id = 1)).map (·.rating) = [5]) ∧
    exDB2.books.map (fun b => (b.rating, b.rating_count)) = [(4, 1)] ∧
    exDB6.books.map (fun b => (b.rating, b.rating_count)) = [(5, 1)] :=
  ⟨⟨by decide, by decide⟩,
    (rerate_replaces_row BookRepo.Faults.none 13 exDB2 exDB6 1 1 5
      (by decide) (by decide)).1,
    by decide, by decide⟩

/-- C3: `RateBook` is atomic.  Whatever fails (the `Begin`, the upsert, the `CHECK` on the
rating, the aggregate update or the `Commit`), a call that returns an error leaves the
whole database, the tables `ratings` and `books` included, as it was before the call. -/
theorem C3_RateBook_error_leaves_database (f : BookRepo.Faults) (now : Nat) (db : DB)
    (userID bookID rating : Int)
    (herr : (BookRepo.RateBook f now db userID bookID rating).1 ≠ none) :
    (BookRepo.RateBook f now db userID bookID rating).2 = db := by
  obtain ⟨fb, fu, fp, fc⟩ := f
  cases fb <;> cases fu <;> cases fp <;> cases fc <;>
    cases hu : BookRepo.upsertRating now userID bookID rating db <;>
    simp [BookRepo.RateBook, DB.Begin, Tx.Exec, Tx.Commit, Tx.Rollback, hu,
      BookRepo.updateAggregate] at herr ⊢

/-- C3 at a run in which the upsert and the aggregate update succeed inside the
transaction and the `Commit` fails. -/
theorem C3_RateBook_error_leaves_database_witness :
    (BookRepo.RateBook exCommitFails 11 exDB1 1 1 4).1 ≠ none ∧
      (BookRepo.upsertRating 11 1 1 4 exDB1).toOption.isSome = true ∧
      (BookRepo.RateBook exCommitFails 11 exDB1 1 1 4).2 = exDB1 :=
  ⟨by decide, by decide,
    C3_RateBook_error_leaves_database exCommitFails 11 exDB1 1 1 4 (by decide)⟩

/-- C4 fails on the code: on the new database `RateBook(1, 1, 5)` returns nil and writes
a rating row for book 1 although no book exists (its `UPDATE` touches no row); the
`Create` that follows hands out id 1 with rating 0 and `rating_count` 0, while one
rating row of value 5 names that book. -/
theorem C4_rating_row_precedes_book :
    (BookRepo.RateBook BookRepo.Faults.none 9 DB.empty 1 1 5).1 = none ∧
      (BookRepo.Create none 10 exEarly exBook).1 = .ok 1 ∧
      exStale.books.map (fun b => (b.id, b.rating, b.rating_count)) = [(1, 0, 0)] ∧
      (exStale.ratings.filter (fun r => r.book_id = 1)).map (·.rating) = [5] := by
  decide

/-! ## Theorems: deleting a book -/

namespace BookRepo

/-- The running maximum is at least its start and at least every element. -/
theorem le_foldl_max (ids : List Int) (seq : Int) :
    seq ≤ ids.foldl max seq ∧ ∀ x ∈ ids, x ≤ ids.foldl max seq := by
  induction ids generalizing seq with
  | nil => simp
  | cons a t ih =>
    simp only [List.foldl_cons]
    obtain ⟨h1, h2⟩ := ih (max seq a)
    refine ⟨le_trans (le_max_left _ _) h1, ?_⟩
    intro x hx
    rcases List.mem_cons.mp hx with rfl | hx
    · exact le_trans (le_max_right _ _) h1
    · exact h2 x hx

/-- The primary key of `books` stays a key under `Create`. -/
theorem Create_keeps_primary_key (fault : Option Error) (now : Nat) (db : DB) (book : Book)
    (hpk : (db.books.map (·.id)).Nodup) :
    ((Create fault now db book).2.books.map (·.id)).Nodup := by
  cases fault with
  | some e => simpa [Create] using hpk
  | none =>
    by_cases hfull : (db.books.map (·.id)).foldl max db.seqBooks ≥ maxRowid
    · simpa [Create, insertBook, nextRowid, hfull] using hpk
    · simp only [Create, insertBook, nextRowid, hfull, if_false, List.map_append, List.map_cons,
        List.map_nil]
      rw [List.nodup_append]
      refine ⟨hpk, List.nodup_singleton _, ?_⟩
      intro x hx hy
      have hle := (le_foldl_max (db.books.map (·.id)) db.seqBooks).2 x hx
      rw [List.mem_singleton] at hy
      omega

/-- The primary key of `books` stays a key under `RateBook`. -/
theorem RateBook_keeps_primary_key (f : Faults) (now : Nat) (db : DB)
    (userID bookID rating : Int) (hpk : (db.books.map (·.id)).Nodup) :
    ((RateBook f now db userID bookID rating).2.books.map (·.id)).Nodup := by
  cases herr : (RateBook f now db userID bookID rating).1 with
  | some e =>
    obtain ⟨fb, fu, fp, fc⟩ := f
    cases fb <;> cases fu <;> cases fp <;> cases fc <;>
      cases hu : upsertRating now userID bookID rating db <;>
      simp [RateBook, DB.Begin, Tx.Exec, Tx.Commit, Tx.Rollback, hu, updateAggregate] at herr ⊢ <;>
      exact hpk
  | none =>
    have hok : RateBook f now db userID bookID rating =
        (none, (RateBook f now db userID bookID rating).2) := Prod.ext herr rfl
    obtain ⟨w, hw, hu⟩ := RateBook_ok hok
    obtain ⟨_, hwb, _, _, _⟩ := upsertRating_ok hw
    obtain ⟨_, _, hb1⟩ := updateAggregate_ok hu
    rw [hb1, hwb, List.map_map]
    have : ((fun b : BookRow => b.id) ∘ fun b : BookRow =>
        if b.id = bookID then
          { b with rating := AVG (ratingsOf w bookID), rating_count := COUNT (ratingsOf w bookID) }
        else b) = fun b => b.id := by
      funext b
      simp only [Function.comp]
      split <;> rfl
    rw [this]
    exact hpk

/-- The primary key of `books` stays a key under `Delete`. -/
theorem Delete_keeps_primary_key (fault : Option Error) (db : DB) (bookID userID : Int)
    (hpk : (db.books.map (·.id)).Nodup) :
    ((Delete fault db bookID userID).2.books.map (·.id)).Nodup := by
  cases fault with
  | some e => simpa [Delete] using hpk
  | none =>
    have hsub : ((db.books.filter (fun b => ¬ (b.id = bookID ∧ b.user_id = userID))).map
        (·.id)).Nodup := hpk.sublist ((List.filter_sublist _).map _)
    simp only [Delete]
    split <;> exact hsub

/-- With distinct ids, dropping the rows of one id and owner drops exactly the row that
has them. -/
theorem filter_owner_eq_erase (l : List BookRow) (b : BookRow)
    (hpk : (l.map (·.id)).Nodup) (hb : b ∈ l) :
    l.filter (fun c => ¬ (c.id = b.id ∧ c.user_id = b.user_id)) = l.erase b := by
  induction l with
  | nil => simp at hb
  | cons a t ih =>
    rw [List.map_cons, List.nodup_cons] at hpk
    by_cases hab : a = b
    · subst hab
      have hrest : t.filter (fun c => ¬ (c.id = a.id ∧ c.user_id = a.user_id)) = t := by
        rw [List.filter_eq_self]
        intro c hc
        have : c.id ≠ a.id := fun h => hpk.1 (h ▸ List.mem_map_of_mem _ hc)
        simp [this]
      rw [List.filter_cons, hrest, List.erase_cons_head]
      simp
    · have hbt : b ∈ t := by
        rcases List.mem_cons.mp hb with h | h
        · exact absurd h.symm hab
        · exact h
      have hid : a.id ≠ b.id := fun h => hpk.1 (h ▸ List.mem_map_of_mem _ hbt)
      have hne : (a == b) = false := by simpa using hab
      rw [List.filter_cons, List.erase_cons, hne, ih hpk.2 hbt]
      simp [hid]

end BookRepo

/-- C7: with no driver failure, `Delete(bookID, userID)` returns `sql.ErrNoRows` and
leaves the database unchanged when no book has id `bookID` and owner `userID`; when
such a book exists it returns nil and the table `books` is the old one with exactly
that row removed, every other row as it was and in place. -/
theorem C7_Delete_owner_only (db : DB) (bookID userID : Int)
    (hpk : (db.books.map (·.id)).Nodup) :
    ((¬ ∃ b ∈ db.books, b.id = bookID ∧ b.user_id = userID) →
        BookRepo.Delete none db bookID userID = (some .ErrNoRows, db)) ∧
      (∀ b ∈ db.books, b.id = bookID → b.user_id = userID →
        BookRepo.Delete none db bookID userID = (none, { db with books := db.books.erase b }) ∧
          (db.books.erase b).length + 1 = db.books.length ∧
          ∀ c, c ∈ db.books.erase b ↔ c ∈ db.books ∧ c ≠ b) := by
  constructor
  · intro hno
    have hkeep : db.books.filter (fun b => ¬ (b.id = bookID ∧ b.user_id = userID)) = db.books := by
      rw [List.filter_eq_self]
      intro c hc
      have : ¬ (c.id = bookID ∧ c.user_id = userID) := fun h => hno ⟨c, hc, h⟩
      simpa [imp_iff_not_or] using this
    simp only [BookRepo.Delete, hkeep, Nat.sub_self, if_true]
  · intro b hb hid hown
    have hrows : (db.books.map (·.id)).Nodup := hpk
    have hnodup : db.books.Nodup := List.Nodup.of_map _ hpk
    have hkeep := BookRepo.filter_owner_eq_erase db.books b hrows hb
    rw [hid, hown] at hkeep
    have hlen : (db.books.erase b).length + 1 = db.books.length := by
      rw [List.length_erase_of_mem hb]
      have : 0 < db.books.length := List.length_pos_of_mem hb
      omega
    refine ⟨?_, hlen, ?_⟩
    · have hne : ¬ (db.books.length - (db.books.erase b).length = 0) := by omega
      simp only [BookRepo.Delete, hkeep, hne, if_false]
    · intro c
      rw [hnodup.mem_erase_iff]
      tauto

/-- C7 on the database with two books: user 2 cannot delete the book of user 1, user 1
can, and the book of user 2 stays. -/
theorem C7_Delete_owner_only_witness :
    (exDB4.books.map (·.id)).Nodup ∧
      BookRepo.Delete none exDB4 1 2 = (some .ErrNoRows, exDB4) ∧
      (BookRepo.Delete none exDB4 1 1).1 = none ∧
      (BookRepo.Delete none exDB4 1 1).2.books.map (·.id) = [2] :=
  ⟨by decide,
    (C7_Delete_owner_only exDB4 1 2 (by decide)).1 (by decide),
    by decide, by decide⟩

/-! ## Theorems: sessions -/

namespace SessionsManager

/-- A call that spares a token leaves the entry of that token as it was. -/
theorem run_spares (sm : SessionsManager) (token : String) (c : SessionCall)
    (h : c.spares token) : (c.run sm).data token = sm.data token := by
  cases c with
  | create randID now userID =>
    have hne : token ≠ hexEncode randID := fun e => h e.symm
    simp [SessionCall.run, Create, NewSession, hne]
  | destroy now r =>
    cases hs : SessionFromContext r with
    | error e => simp [SessionCall.run, DestroyCurrent, hs]
    | ok sess =>
      have hne : token ≠ sess.ID := fun e => h sess hs e.symm
      simp [SessionCall.run, DestroyCurrent, hs, hne]

/-- Calls that spare a token leave the entry of that token as it was. -/
theorem foldl_run_spares (token : String) (calls : List SessionCall)
    (h : ∀ c ∈ calls, c.spares token) (sm : SessionsManager) :
    (calls.foldl SessionCall.run sm).data token = sm.data token := by
  induction calls generalizing sm with
  | nil => rfl
  | cons c t ih =>
    rw [List.foldl_cons, ih (fun d hd => h d (List.mem_cons_of_mem _ hd)),
      run_spares sm token c (h c (List.mem_cons_self _ _))]

/-- `Check` looks the cookie value up in the map. -/
theorem Check_of_cookie (sm : SessionsManager) (r : Request) (value : String)
    (h : r.Cookie "session_id" = some value) :
    sm.Check r = match sm.data value with
      | none => .error .ErrNoAuth
      | some sess => .ok sess := by
  simp [Check, h]

end SessionsManager

/-- C5: the session returned by `Create(userID)` carries `userID`, its token is the value
of the `session_id` cookie that `Create` sets, and `Check` returns that session for every
request carrying the token; it goes on doing so after any further calls of `Create`
(each draws its own sixteen bytes from `crypto/rand`, hence another token) and of
`DestroyCurrent` for other sessions; once `DestroyCurrent` ran with that session attached
to its request, `Check` with the same token returns `ErrNoAuth`. -/
theorem C5_session_round_trip (sm : SessionsManager) (w : ResponseWriter)
    (randID : List Nat) (now userID : Nat) (r : Request)
    (hcookie : r.Cookie "session_id" = some (sm.Create w randID now userID).1.ID) :
    (sm.Create w randID now userID).1.UserID = userID ∧
      ((sm.Create w randID now userID).2.2.setCookie.map (fun c => (c.Name, c.Value))).getLast?
        = some ("session_id", (sm.Create w randID now userID).1.ID) ∧
      (sm.Create w randID now userID).2.1.Check r = .ok (sm.Create w randID now userID).1 ∧
      ∀ calls : List SessionCall,
        (∀ c ∈ calls, c.spares (sm.Create w randID now userID).1.ID) →
        (calls.foldl SessionCall.run (sm.Create w randID now userID).2.1).Check r =
            .ok (sm.Create w randID now userID).1 ∧
          ∀ (w2 : ResponseWriter) (now2 : Nat) (r2 : Request),
            SessionFromContext r2 = .ok (sm.Create w randID now userID).1 →
            ((calls.foldl SessionCall.run (sm.Create w randID now userID).2.1).DestroyCurrent
                w2 now2 r2).1 = none ∧
              ((calls.foldl SessionCall.run (sm.Create w randID now userID).2.1).DestroyCurrent
                w2 now2 r2).2.1.Check r = .error .ErrNoAuth := by
  have hdata : (sm.Create w randID now userID).2.1.data (sm.Create w randID now userID).1.ID =
      some (sm.Create w randID now userID).1 := by
    simp [SessionsManager.Create]
  refine ⟨rfl, ?_, ?_, ?_⟩
  · simp [SessionsManager.Create, ResponseWriter.SetCookie]
  · rw [SessionsManager.Check_of_cookie _ r _ hcookie, hdata]
  · intro calls hcalls
    refine ⟨?_, ?_⟩
    · rw [SessionsManager.Check_of_cookie _ r _ hcookie,
        SessionsManager.foldl_run_spares _ calls hcalls, hdata]
    · intro w2 now2 r2 hctx
      refine ⟨?_, ?_⟩
      · simp [SessionsManager.DestroyCurrent, hctx]
      · rw [SessionsManager.Check_of_cookie _ r _ hcookie]
        simp [SessionsManager.DestroyCurrent, hctx]

/-- C5 at a login of user 1 followed by a login of user 2 and an anonymous logout. -/
theorem C5_session_round_trip_witness :
    exRequest.Cookie "session_id" = some (NewSessionsManager.Create {} exRand 100 1).1.ID ∧
      exManager.Check exRequest = .ok exSession ∧
      ([SessionCall.create exRand2 101 2, SessionCall.destroy 102 exAnonymous].foldl
          SessionCall.run exManager).Check exRequest =
        .ok (NewSessionsManager.Create {} exRand 100 1).1 :=
  ⟨by decide, by decide,
    ((C5_session_round_trip NewSessionsManager {} exRand 100 1 exRequest (by decide)).2.2.2
      [SessionCall.create exRand2 101 2, SessionCall.destroy 102 exAnonymous]
      (by
        intro c hc
        simp only [List.mem_cons, List.mem_singleton, List.not_mem_nil, or_false] at hc
        rcases hc with rfl | rfl
        · show hexEncode exRand2 ≠ _
          decide
        · intro sess hs
          cases hs)).1⟩

/-- C6: `Check` returns `ErrNoAuth` when the request has no `session_id` cookie and when
the value of the cookie is not a key of the map, the same error value in both cases and
no other error ever; it returns a session with a nil error exactly when the value of the
cookie is a key of the map, and then the session stored under that key. -/
theorem C6_Check_no_auth (sm : SessionsManager) (r : Request) :
    (r.Cookie "session_id" = none → sm.Check r = .error .ErrNoAuth) ∧
      (∀ value, r.Cookie "session_id" = some value → sm.data value = none →
        sm.Check r = .error .ErrNoAuth) ∧
      (∀ e, sm.Check r = .error e → e = .ErrNoAuth) ∧
      (∀ sess, sm.Check r = .ok sess ↔
        ∃ value, r.Cookie "session_id" = some value ∧ sm.data value = some sess) := by
  refine ⟨?_, ?_, ?_, ?_⟩
  · intro h
    simp [SessionsManager.Check, h]
  · intro value h hd
    simp [SessionsManager.Check, h, hd]
  · intro e h
    unfold SessionsManager.Check at h
    split at h
    · simpa using h.symm
    · split at h
      · simpa using h.symm
      · simp at h
  · intro sess
    unfold SessionsManager.Check
    cases hc : r.Cookie "session_id" with
    | none => simp
    | some value =>
      cases hd : sm.data value with
      | none => simp [hd]
      | some s => simp [hd]

/-- C6 at a request without cookies, at a stale token and at the issued token. -/
theorem C6_Check_no_auth_witness :
    exManager.Check exAnonymous = .error .ErrNoAuth ∧
      exManager.Check { cookies := [("session_id", "00")] } = .error .ErrNoAuth ∧
      (exManager.Check exRequest).toOption.isSome = true :=
  ⟨(C6_Check_no_auth exManager exAnonymous).1 (by decide),
    (C6_Check_no_auth exManager { cookies := [("session_id", "00")] }).2.1 "00"
      (by decide) (by decide),
    by decide⟩

/-! ## Theorems: search -/

namespace BookRepo

/-- Each `ORDER BY` clause compares any two rows one way or the other. -/
theorem orderBy_total (sortBy : String) (a b : BookRow) :
    orderBy sortBy a b ∨ orderBy sortBy b a := by
  unfold orderBy
  split_ifs
  · rcases lt_trichotomy a.rating b.rating with h | h | h
    · exact Or.inr (Or.inl h)
    · rcases le_total a.created_at b.created_at with hc | hc
      · exact Or.inr (Or.inr ⟨h.symm, hc⟩)
      · exact Or.inl (Or.inr ⟨h, hc⟩)
    · exact Or.inl (Or.inl h)
  · exact (le_total a.created_at b.created_at).symm
  · rcases lt_trichotomy a.rating_count b.rating_count with h | h | h
    · exact Or.inr (Or.inl h)
    · rcases le_total a.rating b.rating with hc | hc
      · exact Or.inr (Or.inr ⟨h.symm, hc⟩)
      · exact Or.inl (Or.inr ⟨h, hc⟩)
    · exact Or.inl (Or.inl h)
  · exact (le_total a.created_at b.created_at).symm

/-- Each `ORDER BY` clause is transitive. -/
theorem orderBy_trans (sortBy : String) (a b c : BookRow)
    (hab : orderBy sortBy a b) (hbc : orderBy sortBy b c) : orderBy sortBy a c := by
  unfold orderBy at *
  split_ifs at *
  · rcases hab with h | ⟨h, hc⟩ <;> rcases hbc with k | ⟨k, kc⟩
    · exact Or.inl (lt_trans k h)
    · exact Or.inl (k ▸ h)
    · exact Or.inl (h ▸ k)
    · exact Or.inr ⟨h.trans k, le_trans kc hc⟩
  · exact le_trans hbc hab
  · rcases hab with h | ⟨h, hc⟩ <;> rcases hbc with k | ⟨k, kc⟩
    · exact Or.inl (lt_trans k h)
    · exact Or.inl (k ▸ h)
    · exact Or.inl (h ▸ k)
    · exact Or.inr ⟨h.trans k, le_trans kc hc⟩
  · exact le_trans hbc hab

/-- The rows `Search` scans are in the order of its `ORDER BY` clause. -/
theorem Search_rows_sorted (sortBy : String) (rows : List (BookRow × UserRow)) :
    ((rows.insertionSort (fun x y => orderBy sortBy x.1 y.1)).map scanBook).Pairwise
      (fun a b => orderBy sortBy
        { id := a.ID, title := a.Title, author := a.Author, description := a.Description,
          filename := a.Filename, file_path := a.FilePath, file_size := a.FileSize,
          cover_image := a.CoverImage, tags := a.Tags, rating := a.Rating,
          rating_count := a.RatingCount, user_id := a.UserID, created_at := a.CreatedAt }
        { id := b.ID, title := b.Title, author := b.Author, description := b.Description,
          filename := b.Filename, file_path := b.FilePath, file_size := b.FileSize,
          cover_image := b.CoverImage, tags := b.Tags, rating := b.Rating,
          rating_count := b.RatingCount, user_id := b.UserID, created_at := b.CreatedAt }) := by
  rw [List.pairwise_map]
  exact @List.sorted_insertionSort _ (fun x y : BookRow × UserRow => orderBy sortBy x.1 y.1) _
    ⟨fun x y => orderBy_total sortBy x.1 y.1⟩
    ⟨fun x y z => orderBy_trans sortBy x.1 y.1 z.1⟩ rows

/-- Insertion depends on the comparison only through its truth values. -/
theorem orderedInsert_congr {α : Type} (r s : α → α → Prop) [DecidableRel r] [DecidableRel s]
    (h : ∀ a b, r a b ↔ s a b) (a : α) (l : List α) :
    l.orderedInsert r a = l.orderedInsert s a := by
  induction l with
  | nil => rfl
  | cons b t ih =>
    by_cases hr : r a b
    · rw [List.orderedInsert, List.orderedInsert, if_pos hr, if_pos ((h a b).mp hr)]
    · rw [List.orderedInsert, List.orderedInsert, if_neg hr,
        if_neg (fun k => hr ((h a b).mpr k)), ih]

/-- Sorting depends on the comparison only through its truth values. -/
theorem insertionSort_congr {α : Type} (r s : α → α → Prop) [DecidableRel r] [DecidableRel s]
    (h : ∀ a b, r a b ↔ s a b) (l : List α) :
    l.insertionSort r = l.insertionSort s := by
  induction l with
  | nil => rfl
  | cons b t ih =>
    rw [List.insertionSort, List.insertionSort, ih, orderedInsert_congr r s h]

/-- A value of `sortBy` outside the three named ones selects the clause of `newest`. -/
theorem orderBy_default (sortBy : String) (h1 : sortBy ≠ "rating") (h3 : sortBy ≠ "popular") :
    orderBy sortBy = orderBy "newest" := by
  funext a b
  by_cases h2 : sortBy = "newest"
  · rw [h2]
  · simp [orderBy, h1, h2, h3]

/-- The joined rows: a book with a user row that carries its `user_id`. -/
theorem mem_joinUsers (db : DB) (b : BookRow) (u : UserRow) :
    (b, u) ∈ joinUsers db ↔ b ∈ db.books ∧ u ∈ db.users ∧ u.id = b.user_id := by
  simp only [joinUsers, List.mem_flatMap, List.mem_map, List.mem_filter, Prod.mk.injEq,
    decide_eq_true_eq]
  constructor
  · rintro ⟨c, hc, v, ⟨hv, hid⟩, rfl, rfl⟩
    exact ⟨hc, hv, hid⟩
  · rintro ⟨hb, hu, hid⟩
    exact ⟨b, hb, u, ⟨hu, hid⟩, rfl, rfl⟩

/-- With distinct user ids a book is joined to one user row when its owner has a row and
to none otherwise. -/
theorem owner_rows (users : List UserRow) (b : BookRow)
    (hpk : (users.map (·.id)).Nodup) :
    ((users.filter (fun u => u.id = b.user_id)).map (fun u => (b, u))).map Prod.fst =
      if ∃ u ∈ users, u.id = b.user_id then [b] else [] := by
  induction users with
  | nil => simp
  | cons a t ih =>
    rw [List.map_cons, List.nodup_cons] at hpk
    by_cases ha : a.id = b.user_id
    · have hnone : ¬ ∃ u ∈ t, u.id = b.user_id := by
        rintro ⟨u, hu, hid⟩
        exact hpk.1 (List.mem_map.mpr ⟨u, hu, hid.trans ha.symm⟩)
      have ht := ih hpk.2
      rw [if_neg hnone] at ht
      have hex : ∃ u ∈ a :: t, u.id = b.user_id := ⟨a, List.mem_cons_self _ _, ha⟩
      rw [if_pos hex, List.filter_cons, if_pos (by simpa using ha), List.map_cons,
        List.map_cons, ht]
    · have ht := ih hpk.2
      have hiff : (∃ u ∈ a :: t, u.id = b.user_id) ↔ ∃ u ∈ t, u.id = b.user_id := by
        constructor
        · rintro ⟨u, hu, hid⟩
          rcases List.mem_cons.mp hu with rfl | hu
          · exact absurd hid ha
          · exact ⟨u, hu, hid⟩
        · rintro ⟨u, hu, hid⟩
          exact ⟨u, List.mem_cons_of_mem _ hu, hid⟩
      rw [List.filter_cons, if_neg (by simpa using ha), ht]
      by_cases hex : ∃ u ∈ t, u.id = b.user_id
      · rw [if_pos hex, if_pos (hiff.mpr hex)]
      · rw [if_neg hex, if_neg (fun h => hex (hiff.mp h))]

/-- With distinct user ids the join keeps exactly the books whose owner has a row, each
once and in place. -/
theorem joinUsers_books (db : DB) (hpk : (db.users.map (·.id)).Nodup) :
    (joinUsers db).map Prod.fst =
      db.books.filter (fun b => ∃ u ∈ db.users, u.id = b.user_id) := by
  unfold joinUsers
  induction db.books with
  | nil => rfl
  | cons b t ih =>
    rw [List.flatMap_cons, List.map_append, ih, owner_rows db.users b hpk, List.filter_cons]
    by_cases hex : ∃ u ∈ db.users, u.id = b.user_id
    · rw [if_pos hex, if_pos (by simpa using hex)]
      rfl
    · rw [if_neg hex, if_neg (by simpa using hex)]
      rfl

/-- A text without U+0000 is read whole. -/
theorem cString_eq_self (cs : List Char) (h : ∀ c ∈ cs, c ≠ Char.ofNat 0) :
    cString cs = cs := by
  unfold cString
  rw [List.takeWhile_eq_self_iff]
  intro c hc
  simpa using h c hc

/-- A scan whose `WHERE` clause fails on no row keeps the rows on which it is true. -/
theorem scanWhere_eq_filter (query : String) (tags : List String) (p : BookRow → Bool)
    (rows : List BookRow) (h : ∀ b ∈ rows, whereClause query tags b = some (p b)) :
    scanWhere query tags rows = some (rows.filter p) := by
  induction rows with
  | nil => rfl
  | cons b rest ih =>
    have hb := h b (List.mem_cons_self _ _)
    have hrest := ih (fun x hx => h x (List.mem_cons_of_mem _ hx))
    unfold scanWhere
    rw [hb, hrest]
    cases hp : p b <;> simp [List.filter_cons, hp]

/-- The rows a scan keeps are rows of the table, in their order. -/
theorem scanWhere_sublist (query : String) (tags : List String) (rows kept : List BookRow)
    (h : scanWhere query tags rows = some kept) : kept.Sublist rows := by
  induction rows generalizing kept with
  | nil =>
    simp only [scanWhere, Option.some.injEq] at h
    subst h
    exact List.Sublist.slnil
  | cons b rest ih =>
    unfold scanWhere at h
    cases hw : whereClause query tags b with
    | none => simp [hw] at h
    | some keep =>
      cases hs : scanWhere query tags rest with
      | none => simp [hw, hs] at h
      | some l =>
        simp only [hw, hs, Option.some.injEq] at h
        subst h
        have hl := ih l hs
        cases keep
        · simpa using hl.cons b
        · simpa using hl.cons₂ b

/-- What `Search` returns on the run without driver failure, below the depth limit, when
the `WHERE` clause fails on no row: the kept rows, joined, sorted and scanned. -/
theorem Search_of_scan (db : DB) (query : String) (tags : List String) (sortBy : String)
    (kept : List BookRow) (hdeep : exprTooDeep query tags = false)
    (hscan : scanWhere query tags db.books = some kept) :
    Search none db query tags sortBy =
      .ok (((joinUsers { db with books := kept }).insertionSort
        (fun x y => orderBy sortBy x.1 y.1)).map scanBook) := by
  simp [Search, hdeep, hscan]

/-- With the primary key of `users` in force and an owner in `users` for every row, the
rows scanned out of a join over rows of `books` are those rows, rearranged. -/
theorem joined_rows_perm (db : DB) (kept : List BookRow) (sortBy : String)
    (hpk : (db.users.map (·.id)).Nodup)
    (hfk : ∀ b ∈ kept, ∃ u ∈ db.users, u.id = b.user_id) :
    ((((joinUsers { db with books := kept }).insertionSort
      (fun x y => orderBy sortBy x.1 y.1)).map scanBook).map Book.row).Perm kept := by
  have h1 : (((joinUsers { db with books := kept }).insertionSort
      (fun x y => orderBy sortBy x.1 y.1)).map scanBook).map Book.row =
      ((joinUsers { db with books := kept }).insertionSort
        (fun x y => orderBy sortBy x.1 y.1)).map Prod.fst := by
    rw [List.map_map]
    rfl
  rw [h1]
  have h2 := ((List.perm_insertionSort (fun x y : BookRow × UserRow => orderBy sortBy x.1 y.1)
    (joinUsers { db with books := kept })).map Prod.fst)
  have h3 := joinUsers_books { db with books := kept } hpk
  have h4 : kept.filter (fun b => ∃ u ∈ db.users, u.id = b.user_id) = kept := by
    rw [List.filter_eq_self]
    intro b hb
    simpa using hfk b hb
  simp only at h3
  rw [h3, h4] at h2
  exact h2

/-- Every book `Search` returns carries the id and the name of a row of `users`. -/
theorem joined_rows_owner (db : DB) (kept : List BookRow) (sortBy : String) (book : Book)
    (h : book ∈ ((joinUsers { db with books := kept }).insertionSort
      (fun x y => orderBy sortBy x.1 y.1)).map scanBook) :
    ∃ u ∈ db.users, u.id = book.UserID ∧ u.username = book.Username := by
  obtain ⟨⟨b, u⟩, hrow, rfl⟩ := List.mem_map.mp h
  have hmem := (List.perm_insertionSort _ _).mem_iff.mp hrow
  obtain ⟨_, hu, hid⟩ := (mem_joinUsers { db with books := kept } b u).mp hmem
  exact ⟨u, hu, hid, rfl⟩

end BookRepo

/-- C8: `Search` returns a list exactly when the statement is below the depth limit of
SQLite (fewer than 998 tags, 997 beside a query), and every list `Search` returns is
ordered by `sortBy`: `rating` gives non-increasing rating and, among
equal ratings, non-increasing creation time; `newest` gives non-increasing creation
time; `popular` gives non-increasing `rating_count` and, among equal counts,
non-increasing rating; any other value, the empty string included, gives non-increasing
creation time and the very outcome that `newest` gives. -/
theorem C8_Search_order (db : DB) (query : String) (tags : List String) (sortBy : String) :
    (tags.length + (if query ≠ "" then 1 else 0) < 998 ↔
      ∃ books, BookRepo.Search none db query tags sortBy = .ok books) ∧
    (∀ books, BookRepo.Search none db query tags sortBy = .ok books →
      (sortBy = "rating" → books.Pairwise (fun a b =>
        b.Rating < a.Rating ∨ (a.Rating = b.Rating ∧ b.CreatedAt ≤ a.CreatedAt))) ∧
      (sortBy = "newest" → books.Pairwise (fun a b => b.CreatedAt ≤ a.CreatedAt)) ∧
      (sortBy = "popular" → books.Pairwise (fun a b =>
        b.RatingCount < a.RatingCount ∨
          (a.RatingCount = b.RatingCount ∧ b.Rating ≤ a.Rating))) ∧
      (sortBy ≠ "rating" → sortBy ≠ "newest" → sortBy ≠ "popular" →
        books.Pairwise (fun a b => b.CreatedAt ≤ a.CreatedAt))) ∧
    (sortBy ≠ "rating" → sortBy ≠ "newest" → sortBy ≠ "popular" →
      BookRepo.Search none db query tags sortBy =
        BookRepo.Search none db query tags "newest") := by
  refine ⟨⟨?_, ?_⟩, ?_, ?_⟩
  · intro hlim
    have hdeep : BookRepo.exprTooDeep query tags = false := by
      simp only [BookRepo.exprTooDeep, ge_iff_le, decide_eq_false_iff_not, not_le]
      exact hlim
    cases hscan : BookRepo.scanWhere query tags db.books with
    | none => exact ⟨[], by simp [BookRepo.Search, hdeep, hscan]⟩
    | some kept => exact ⟨_, BookRepo.Search_of_scan db query tags sortBy kept hdeep hscan⟩
  · rintro ⟨books, hbooks⟩
    by_contra hlim
    have hdeep : BookRepo.exprTooDeep query tags = true := by
      simp only [BookRepo.exprTooDeep, ge_iff_le, decide_eq_true_eq]
      omega
    simp [BookRepo.Search, hdeep] at hbooks
  · intro books hbooks
    have hsorted : books = [] ∨ ∃ rows : List (BookRow × UserRow),
        books = (rows.insertionSort
          (fun x y => BookRepo.orderBy sortBy x.1 y.1)).map BookRepo.scanBook := by
      unfold BookRepo.Search at hbooks
      simp only [] at hbooks
      split at hbooks
      · simp at hbooks
      · split at hbooks
        · left
          simpa using hbooks.symm
        · right
          exact ⟨_, by simpa using hbooks.symm⟩
    rcases hsorted with rfl | ⟨rows, rfl⟩
    · simp
    · have := BookRepo.Search_rows_sorted sortBy rows
      refine ⟨?_, ?_, ?_, ?_⟩
      · intro h
        simpa [BookRepo.orderBy, h] using this
      · intro h
        simpa [BookRepo.orderBy, h] using this
      · intro h
        simpa [BookRepo.orderBy, h] using this
      · intro h1 h2 h3
        simpa [BookRepo.orderBy, h1, h2, h3] using this
  · intro h1 _ h3
    have hdef := BookRepo.orderBy_default sortBy h1 h3
    simp only [BookRepo.Search]
    split
    · rfl
    · cases BookRepo.scanWhere query tags db.books with
      | none => rfl
      | some kept =>
        simp only []
        rw [BookRepo.insertionSort_congr
          (fun x y : BookRow × UserRow => BookRepo.orderBy sortBy x.1 y.1)
          (fun x y : BookRow × UserRow => BookRepo.orderBy "newest" x.1 y.1)
          (fun x y => by rw [hdef])]

set_option maxRecDepth 8192 in
/-- C8 on two books, the older one rated 4 and the newer one unrated. -/
theorem C8_Search_order_witness :
    (∃ books, BookRepo.Search none exDB5 "" [] "rating" = .ok books ∧
      books.Pairwise (fun a b =>
        b.Rating < a.Rating ∨ (a.Rating = b.Rating ∧ b.CreatedAt ≤ a.CreatedAt))) ∧
    (BookRepo.Search none exDB5 "" [] "rating").toOption.map (fun l => l.map (·.ID))
      = some [1, 2] ∧
    (BookRepo.Search none exDB5 "" [] "newest").toOption.map (fun l => l.map (·.ID))
      = some [2, 1] ∧
    (BookRepo.Search none exDB5 "" [] "").toOption.map (fun l => l.map (·.ID))
      = some [2, 1] :=
  ⟨((C8_Search_order exDB5 "" [] "rating").1.mp (by decide)).elim
      (fun books h => ⟨books, h, ((C8_Search_order exDB5 "" [] "rating").2.1 books h).1 rfl⟩),
    by decide, by decide, by decide⟩

namespace BookRepo

/-- Scanning a joined row and dropping the joined columns gives the book row back. -/
theorem row_scanBook (row : BookRow × UserRow) : (scanBook row).row = row.1 := rfl

end BookRepo

/-- C11: with the primary key of `users` in force and every book owned by a user of the
table (a book is only created for the logged-in user, and no user is ever deleted),
`Search` with an empty query and an empty tag list applies no filter: for every `sortBy` it returns a list whose book rows
are a rearrangement of all rows of `books`, each exactly once, and each carries the id
and the name of its owner. -/
theorem C11_Search_unfiltered (db : DB) (sortBy : String)
    (hpk : (db.users.map (·.id)).Nodup)
    (hfk : ∀ b ∈ db.books, ∃ u ∈ db.users, u.id = b.user_id) :
    ∃ books, BookRepo.Search none db "" [] sortBy = .ok books ∧
      (books.map Book.row).Perm db.books ∧
      ∀ book ∈ books, ∃ u ∈ db.users, u.id = book.UserID ∧ u.username = book.Username := by
  have hdeep : BookRepo.exprTooDeep "" [] = false := by decide
  have hscan := BookRepo.scanWhere_eq_filter "" [] (fun _ => true) db.books
    (fun b _ => by simp [BookRepo.whereClause])
  rw [List.filter_true] at hscan
  refine ⟨_, BookRepo.Search_of_scan db "" [] sortBy _ hdeep hscan, ?_, ?_⟩
  · exact BookRepo.joined_rows_perm db _ sortBy hpk hfk
  · intro book hbook
    exact BookRepo.joined_rows_owner db _ sortBy book hbook

set_option maxRecDepth 8192 in
/-- C11 on the database with two users and one book each. -/
theorem C11_Search_unfiltered_witness :
    (exDB4.users.map (·.id)).Nodup ∧
      (∀ b ∈ exDB4.books, ∃ u ∈ exDB4.users, u.id = b.user_id) ∧
      (∃ books, BookRepo.Search none exDB4 "" [] "rating" = .ok books ∧
        (books.map Book.row).Perm exDB4.books) ∧
      (BookRepo.Search none exDB4 "" [] "rating").toOption.map (fun l => l.map (·.ID))
        = some [2, 1] :=
  ⟨by decide, by decide,
    (C11_Search_unfiltered exDB4 "rating" (by decide) (by decide)).elim
      (fun books h => ⟨books, h.1, h.2.1⟩),
    by decide⟩

/-- The first row that passes a test is the one row that passes it. -/
theorem find_unique {α : Type} (l : List α) (p : α → Bool) (x : α) (hx : x ∈ l)
    (hp : p x = true) (huniq : ∀ y ∈ l, p y = true → y = x) : l.find? p = some x := by
  induction l with
  | nil => simp at hx
  | cons a t ih =>
    by_cases hpa : p a = true
    · rw [List.find?_cons_of_pos _ hpa, huniq a (List.mem_cons_self _ _) hpa]
    · rw [List.find?_cons_of_neg _ hpa]
      have hxt : x ∈ t := by
        rcases List.mem_cons.mp hx with rfl | h
        · exact absurd hp hpa
        · exact h
      exact ih hxt (fun y hy => huniq y (List.mem_cons_of_mem _ hy))

namespace BookRepo

/-- `UNIQUE(user_id, book_id)` stays in force under `RateBook`. -/
theorem RateBook_keeps_unique_pair (f : Faults) (now : Nat) (db : DB)
    (userID bookID rating : Int)
    (huniq : (db.ratings.map (fun r => (r.user_id, r.book_id))).Nodup) :
    ((RateBook f now db userID bookID rating).2.ratings.map
      (fun r => (r.user_id, r.book_id))).Nodup := by
  cases herr : (RateBook f now db userID bookID rating).1 with
  | some e =>
    obtain ⟨fb, fu, fp, fc⟩ := f
    cases fb <;> cases fu <;> cases fp <;> cases fc <;>
      cases hu : upsertRating now userID bookID rating db <;>
      simp [RateBook, DB.Begin, Tx.Exec, Tx.Commit, Tx.Rollback, hu, updateAggregate] at herr ⊢ <;>
      exact huniq
  | none =>
    have hok : RateBook f now db userID bookID rating =
        (none, (RateBook f now db userID bookID rating).2) := Prod.ext herr rfl
    obtain ⟨w, hw, hu⟩ := RateBook_ok hok
    obtain ⟨_, _, _, id, hwr⟩ := upsertRating_ok hw
    obtain ⟨hr1, _, _⟩ := updateAggregate_ok hu
    rw [hr1, hwr, List.map_append, List.nodup_append]
    refine ⟨huniq.sublist ((List.filter_sublist _).map _), List.nodup_singleton _, ?_⟩
    intro k hk hk2
    simp only [List.map_cons, List.map_nil, List.mem_singleton] at hk2
    obtain ⟨r, hr, hkey⟩ := List.mem_map.mp hk
    have hnot := (List.mem_filter.mp hr).2
    rw [hk2] at hkey
    simp only [Prod.mk.injEq] at hkey
    simp [hkey.1, hkey.2] at hnot

end BookRepo

/-- C12: with `UNIQUE` on `username` in force and no driver failure, `Authorize` returns
`ErrNoUser` when no row has the user name, `ErrBadPass` when the row with the user name
holds another password, and the user with a nil error when the stored password is equal
to the given one as a string; so it succeeds exactly when a row has that user name and
that password, and the two error values differ. -/
theorem C12_Authorize_outcomes (db : DB) (username password : String)
    (huniq : (db.users.map (·.username)).Nodup) :
    ((¬ ∃ row ∈ db.users, row.username = username) →
        UserRepo.Authorize none db username password = .error .ErrNoUser) ∧
      (∀ row ∈ db.users, row.username = username → row.password ≠ password →
        UserRepo.Authorize none db username password = .error .ErrBadPass) ∧
      (∀ row ∈ db.users, row.username = username → row.password = password →
        UserRepo.Authorize none db username password =
          .ok { ID := row.id, Username := row.username, Email := row.email,
                Password := row.password, Avatar := row.avatar }) ∧
      ((∃ user, UserRepo.Authorize none db username password = .ok user) ↔
        ∃ row ∈ db.users, row.username = username ∧ row.password = password) ∧
      Error.ErrNoUser ≠ Error.ErrBadPass := by
  have hfind : ∀ row ∈ db.users, row.username = username →
      db.users.find? (fun u => u.username = username) = some row := by
    intro row hrow hname
    apply find_unique _ _ row hrow (by simpa using hname)
    intro y hy hp
    have hyn : y.username = username := by simpa using hp
    exact List.inj_on_of_nodup_map huniq hy hrow (hyn.trans hname.symm)
  have hnone : (¬ ∃ row ∈ db.users, row.username = username) →
      db.users.find? (fun u => u.username = username) = none := by
    intro hno
    rw [List.find?_eq_none]
    intro y hy hp
    exact hno ⟨y, hy, by simpa using hp⟩
  refine ⟨?_, ?_, ?_, ?_, by decide⟩
  · intro hno
    simp [UserRepo.Authorize, UserRepo.GetByUsername, hnone hno]
  · intro row hrow hname hpw
    simp [UserRepo.Authorize, UserRepo.GetByUsername, hfind row hrow hname, hpw]
  · intro row hrow hname hpw
    simp [UserRepo.Authorize, UserRepo.GetByUsername, hfind row hrow hname, hpw]
  · constructor
    · rintro ⟨user, hok⟩
      by_cases hex : ∃ row ∈ db.users, row.username = username
      · obtain ⟨row, hrow, hname⟩ := hex
        by_cases hpw : row.password = password
        · exact ⟨row, hrow, hname, hpw⟩
        · simp [UserRepo.Authorize, UserRepo.GetByUsername, hfind row hrow hname, hpw] at hok
      · simp [UserRepo.Authorize, UserRepo.GetByUsername, hnone hex] at hok
    · rintro ⟨row, hrow, hname, hpw⟩
      refine ⟨{ ID := row.id, Username := row.username, Email := row.email,
                Password := row.password, Avatar := row.avatar }, ?_⟩
      simp [UserRepo.Authorize, UserRepo.GetByUsername, hfind row hrow hname, hpw]

/-- C12 at the scenario of the specification: `alice` with `pw1`. -/
theorem C12_Authorize_outcomes_witness :
    (exDB4.users.map (·.username)).Nodup ∧
      UserRepo.Authorize none exDB4 "carol" "pw1" = .error .ErrNoUser ∧
      UserRepo.Authorize none exDB4 "alice" "PW1" = .error .ErrBadPass ∧
      UserRepo.Authorize none exDB4 "alice" "pw1" = .ok exAlice :=
  ⟨by decide,
    (C12_Authorize_outcomes exDB4 "carol" "pw1" (by decide)).1 (by decide),
    (C12_Authorize_outcomes exDB4 "alice" "PW1" (by decide)).2.1 exUser (by decide)
      (by decide) (by decide),
    by decide⟩

/-- C15: with `UNIQUE(user_id, book_id)` in force, on the run without driver failure,
`GetUserRating(userID, bookID)` returns 0 with a nil error when no rating row has the
pair, and the rating of the row with a nil error when a row has it; an error of the
driver is returned as it is, with rating 0. -/
theorem C15_GetUserRating_value (db : DB) (userID bookID : Int)
    (huniq : (db.ratings.map (fun r => (r.user_id, r.book_id))).Nodup) :
    ((¬ ∃ row ∈ db.ratings, row.user_id = userID ∧ row.book_id = bookID) →
        BookRepo.GetUserRating none db userID bookID = (0, none)) ∧
      (∀ row ∈ db.ratings, row.user_id = userID → row.book_id = bookID →
        BookRepo.GetUserRating none db userID bookID = (row.rating, none)) ∧
      (∀ e, e ≠ Error.ErrNoRows →
        BookRepo.GetUserRating (some e) db userID bookID = (0, some e)) := by
  refine ⟨?_, ?_, ?_⟩
  · intro hno
    have : db.ratings.find? (fun r => r.user_id = userID ∧ r.book_id = bookID) = none := by
      rw [List.find?_eq_none]
      intro y hy hp
      exact hno ⟨y, hy, by simpa using hp⟩
    unfold BookRepo.GetUserRating
    rw [this]
    simp
  · intro row hrow hu hb
    have : db.ratings.find? (fun r => r.user_id = userID ∧ r.book_id = bookID) = some row := by
      apply find_unique _ _ row hrow (by simp [hu, hb])
      intro y hy hp
      have hyp : y.user_id = userID ∧ y.book_id = bookID := by simpa using hp
      apply List.inj_on_of_nodup_map huniq hy hrow
      simp [hyp.1, hyp.2, hu, hb]
    unfold BookRepo.GetUserRating
    rw [this]
    simp
  · intro e he
    simp [BookRepo.GetUserRating, he]

/-- C15 after users 1 and 2 rated book 1 with 4 and 2: user 3 has no rating. -/
theorem C15_GetUserRating_value_witness :
    (exDB3.ratings.map (fun r => (r.user_id, r.book_id))).Nodup ∧
      BookRepo.GetUserRating none exDB3 3 1 = (0, none) ∧
      BookRepo.GetUserRating none exDB3 1 1 = (4, none) ∧
      BookRepo.GetUserRating none exDB3 2 1 = (2, none) ∧
      BookRepo.GetUserRating (some (.driver "disk I/O error")) exDB3 1 1
        = (0, some (.driver "disk I/O error")) :=
  ⟨by decide,
    (C15_GetUserRating_value exDB3 3 1 (by decide)).1 (by decide),
    by decide, by decide, by decide⟩

/-- C16: when the context of the request has no session attached (no value under
`SessionKey`, or a nil pointer), `DestroyCurrent` returns `ErrNoAuth`, leaves the session
map as it was and writes nothing to the response, whatever cookies the request
carries. -/
theorem C16_DestroyCurrent_without_session (sm : SessionsManager) (w : ResponseWriter)
    (now : Nat) (r : Request)
    (hctx : r.ctxSession = none ∨ r.ctxSession = some none) :
    sm.DestroyCurrent w now r = (some .ErrNoAuth, sm, w) := by
  rcases hctx with h | h <;> simp [SessionsManager.DestroyCurrent, SessionFromContext, h]

/-- C16 at a request that carries the cookie of the live session of `alice` and has no
session attached: the session stays. -/
theorem C16_DestroyCurrent_without_session_witness :
    (exRequest.ctxSession = none ∨ exRequest.ctxSession = some none) ∧
      exManager.Check exRequest = .ok exSession ∧
      (exManager.DestroyCurrent {} 200 exRequest).1 = some .ErrNoAuth ∧
      (exManager.DestroyCurrent {} 200 exRequest).2.2 = {} ∧
      (exManager.DestroyCurrent {} 200 exRequest).2.1.Check exRequest = .ok exSession :=
  ⟨Or.inl rfl, by decide,
    congrArg Prod.fst
      (C16_DestroyCurrent_without_session exManager {} 200 exRequest (Or.inl rfl)),
    by decide, by decide⟩

/-- C18 as stated fails for `GetByUserID`: its query selects no owner column, so the book
of user 1 (`alice`) comes back with `UserID` 0 and an empty `Username`, while `GetByID`
and `GetLatest` return the same book with `UserID` 1 and `Username` `alice`. -/
theorem C18_GetByUserID_does_not_join_owner :
    exDB1.books.map (fun b => (b.id, b.user_id)) = [(1, 1)] ∧
      (BookRepo.GetByUserID none exDB1 1).toOption.map
        (fun l => l.map (fun b => (b.ID, b.UserID, b.Username))) = some [(1, 0, "")] ∧
      (BookRepo.GetByID none exDB1 1).toOption.map
        (fun o => o.map (fun b => (b.ID, b.UserID, b.Username))) = some (some (1, 1, "alice")) ∧
      (BookRepo.GetLatest none exDB1 12).toOption.map
        (fun l => l.map (fun b => (b.ID, b.UserID, b.Username))) = some [(1, 1, "alice")] := by
  decide

/-- C18, amended: on the run without driver failure, every book returned by `GetByID` and
by `GetLatest(limit)` is a row of `books` joined to the row of `users` that carries its
`user_id`, with the id of that user in `UserID` and the name of that user in
`Username`; every book returned by `GetByUserID(userID)` is a row of `books` with that
`user_id` and carries `UserID` 0 and an empty `Username`. -/
theorem C18_lookups_and_owner (db : DB) (id limit userID : Int) :
    (∃ found, BookRepo.GetByID none db id = .ok found ∧
      ∀ book, found = some book →
        ∃ b ∈ db.books, ∃ u ∈ db.users, u.id = b.user_id ∧ b.id = id ∧ book.row = b ∧
          book.UserID = u.id ∧ book.Username = u.username) ∧
    (∃ books, BookRepo.GetLatest none db limit = .ok books ∧
      ∀ book ∈ books,
        ∃ b ∈ db.books, ∃ u ∈ db.users, u.id = b.user_id ∧ book.row = b ∧
          book.UserID = u.id ∧ book.Username = u.username) ∧
    (∃ books, BookRepo.GetByUserID none db userID = .ok books ∧
      ∀ book ∈ books,
        book.UserID = 0 ∧ book.Username = "" ∧
          ∃ b ∈ db.books, b.user_id = userID ∧ book = BookRepo.scanOwnBook b) := by
  refine ⟨⟨_, rfl, ?_⟩, ⟨_, rfl, ?_⟩, ⟨_, rfl, ?_⟩⟩
  · intro book hfound
    obtain ⟨⟨b, u⟩, hrow, rfl⟩ := Option.map_eq_some'.mp hfound
    have hmem := List.mem_of_find?_eq_some hrow
    have hid : b.id = id := by simpa using List.find?_some hrow
    obtain ⟨hb, hu, hown⟩ := (BookRepo.mem_joinUsers db b u).mp hmem
    exact ⟨b, hb, u, hu, hown, hid, rfl, hown.symm, rfl⟩
  · intro book hbook
    obtain ⟨⟨b, u⟩, hrow, rfl⟩ := List.mem_map.mp hbook
    have hsorted : (b, u) ∈ (BookRepo.joinUsers db).insertionSort
        (fun x y => BookRepo.orderBy "newest" x.1 y.1) := by
      unfold BookRepo.sqlLimit at hrow
      split at hrow
      · exact hrow
      · exact List.mem_of_mem_take hrow
    have hmem := (List.perm_insertionSort _ _).mem_iff.mp hsorted
    obtain ⟨hb, hu, hown⟩ := (BookRepo.mem_joinUsers db b u).mp hmem
    exact ⟨b, hb, u, hu, hown, rfl, hown.symm, rfl⟩
  · intro book hbook
    obtain ⟨b, hrow, rfl⟩ := List.mem_map.mp hbook
    have hmem := (List.perm_insertionSort _ _).mem_iff.mp hrow
    obtain ⟨hb, hown⟩ := List.mem_filter.mp hmem
    exact ⟨rfl, rfl, b, hb, by simpa using hown, rfl⟩

set_option maxRecDepth 8192 in
/-- C18 amended, on the database with two users and one book each. -/
theorem C18_lookups_and_owner_witness :
    (∃ books, BookRepo.GetLatest none exDB4 12 = .ok books ∧
      ∀ book ∈ books,
        ∃ b ∈ exDB4.books, ∃ u ∈ exDB4.users, u.id = b.user_id ∧ book.row = b ∧
          book.UserID = u.id ∧ book.Username = u.username) ∧
      (BookRepo.GetLatest none exDB4 12).toOption.map
        (fun l => l.map (fun b => (b.ID, b.UserID, b.Username)))
        = some [(2, 2, "bob"), (1, 1, "alice")] ∧
      (BookRepo.GetLatest none exDB4 1).toOption.map (fun l => l.map (·.ID)) = some [2] ∧
      (BookRepo.GetByID none exDB4 2).toOption.map (fun o => o.map (·.Username))
        = some (some "bob") ∧
      (BookRepo.GetByID none exDB4 7).toOption = some none ∧
      (BookRepo.GetByUserID none exDB4 2).toOption.map
        (fun l => l.map (fun b => (b.ID, b.UserID, b.Username))) = some [(2, 0, "")] :=
  ⟨(C18_lookups_and_owner exDB4 2 12 2).2.1,
    by decide, by decide, by decide, by decide, by decide⟩

/-! ## Theorems: responses, middleware and handlers -/

/-- Setting a header leaves the status as it is. -/
theorem status_SetHeader (w : ResponseWriter) (key value : String) :
    (w.SetHeader key value).status = w.status := by
  unfold ResponseWriter.SetHeader
  split <;> rfl

/-- A header set before the status line is written is the one read back. -/
theorem GetHeader_SetHeader (w : ResponseWriter) (key value : String)
    (hfresh : w.status = none) : (w.SetHeader key value).GetHeader key = some value := by
  have hnone : (w.header.filter (fun kv => decide (kv.1 ≠ key))).find?
      (fun kv => decide (kv.1 = key)) = none := by
    rw [List.find?_eq_none]
    intro kv hkv
    have := (List.mem_filter.mp hkv).2
    simpa using this
  simp [ResponseWriter.SetHeader, ResponseWriter.GetHeader, hfresh, List.find?_append, hnone]

/-- Dropping the entries of another key does not change the first entry of a key. -/
theorem find_filter_other (h : List (String × String)) (key other : String)
    (hne : other ≠ key) :
    (h.filter (fun kv => decide (kv.1 ≠ other))).find? (fun kv => decide (kv.1 = key)) =
      h.find? (fun kv => decide (kv.1 = key)) := by
  induction h with
  | nil => rfl
  | cons a t ih =>
    by_cases ha : a.1 = key
    · have hao : a.1 ≠ other := fun h => hne (h.symm.trans ha)
      rw [List.filter_cons, if_pos (by simpa using hao), List.find?_cons_of_pos _ (by simpa using ha),
        List.find?_cons_of_pos _ (by simpa using ha)]
    · by_cases hao : a.1 = other
      · rw [List.filter_cons, if_neg (by simpa using hao), ih,
          List.find?_cons_of_neg _ (by simpa using ha)]
      · rw [List.filter_cons, if_pos (by simpa using hao),
          List.find?_cons_of_neg _ (by simpa using ha),
          List.find?_cons_of_neg _ (by simpa using ha), ih]

/-- Setting another header leaves a header as it is. -/
theorem GetHeader_SetHeader_other (w : ResponseWriter) (key other value : String)
    (hne : other ≠ key) : (w.SetHeader other value).GetHeader key = w.GetHeader key := by
  unfold ResponseWriter.SetHeader
  split
  · rfl
  · simp only [ResponseWriter.GetHeader, List.find?_append, find_filter_other _ _ _ hne]
    cases w.header.find? (fun kv => decide (kv.1 = key)) with
    | some kv => rfl
    | none => simp [hne]

/-- Deleting a header leaves the status as it is. -/
theorem status_DelHeader (w : ResponseWriter) (key : String) :
    (w.DelHeader key).status = w.status := by
  unfold ResponseWriter.DelHeader
  split <;> rfl

/-- Deleting a header leaves the body as it is. -/
theorem body_DelHeader (w : ResponseWriter) (key : String) :
    (w.DelHeader key).body = w.body := by
  unfold ResponseWriter.DelHeader
  split <;> rfl

/-- Setting a header leaves the body as it is. -/
theorem body_SetHeader (w : ResponseWriter) (key value : String) :
    (w.SetHeader key value).body = w.body := by
  unfold ResponseWriter.SetHeader
  split <;> rfl

/-- `http.Error` on a response not yet begun sends the status and the message. -/
theorem httpError_fresh (w : ResponseWriter) (error : String) (code : Nat)
    (hfresh : w.status = none) :
    (httpError w error code).status = some code ∧
      (httpError w error code).body = w.body ++ (error ++ "\n") := by
  simp [httpError, ResponseWriter.Write, ResponseWriter.WriteHeader, status_SetHeader,
    body_SetHeader, status_DelHeader, body_DelHeader, hfresh]

/-- `http.Redirect` on a response not yet begun sends the status and the target. -/
theorem Redirect_fresh (w : ResponseWriter) (r : Request) (url : String) (code : Nat)
    (hfresh : w.status = none) :
    (Redirect w r url code).status = some code ∧
      (Redirect w r url code).GetHeader "Location" = some url := by
  have hloc := GetHeader_SetHeader w "Location" url hfresh
  have hloc2 : ((w.SetHeader "Location" url).SetHeader "Content-Type"
      "text/html; charset=utf-8").GetHeader "Location" = some url := by
    rw [GetHeader_SetHeader_other _ _ _ _ (by decide), hloc]
  unfold Redirect
  simp only []
  split_ifs <;>
    simp [ResponseWriter.Write, ResponseWriter.WriteHeader, ResponseWriter.GetHeader,
      status_SetHeader, hfresh] <;>
    first
      | simpa [ResponseWriter.GetHeader] using hloc2
      | simpa [ResponseWriter.GetHeader] using hloc

/-- C13: `RequireAuth` hands the request to the downstream handler exactly when `Check`
finds a session for it, and then with that session attached, so that
`SessionFromContext` returns it; when `Check` finds none the call returns the answer of
`http.Redirect` to `/login`, status 302, with the world as it was, whatever the
downstream handler is: the handler is not run. -/
theorem C13_RequireAuth_policy (next : HandlerFunc) (w : ResponseWriter) (r : Request)
    (s : World) (hfresh : w.status = none) :
    (∀ sess, s.sessions.Check r = .ok sess →
        RequireAuth next w r s = next w (ContextWithSession r (some sess)) s ∧
          SessionFromContext (ContextWithSession r (some sess)) = .ok sess) ∧
      (∀ e, s.sessions.Check r = .error e →
        RequireAuth next w r s = .returned (Redirect w r "/login" 302) s ∧
          (Redirect w r "/login" 302).status = some 302 ∧
          (Redirect w r "/login" 302).GetHeader "Location" = some "/login") := by
  constructor
  · intro sess h
    simp [RequireAuth, h, SessionFromContext, ContextWithSession]
  · intro e h
    refine ⟨by simp [RequireAuth, h], Redirect_fresh w r "/login" 302 hfresh⟩

/-- C13 at the request of `alice`, which reaches the handler with her session, and at a
request without cookies, which is redirected while the handler leaves no trace. -/
theorem C13_RequireAuth_policy_witness :
    ((RequireAuth exHandler {} exRequest exWorld).world.log.map
        (fun e => (e.msg, e.fields)) = [("handler ran", [("user", "1")])]) ∧
      (RequireAuth exHandler {} exAnonymous exWorld).response.status = some 302 ∧
      (RequireAuth exHandler {} exAnonymous exWorld).response.GetHeader "Location"
        = some "/login" ∧
      (RequireAuth exHandler {} exAnonymous exWorld).world.log = [] ∧
      RequireAuth exHandler {} exAnonymous exWorld =
        .returned (Redirect {} exAnonymous "/login" 302) exWorld :=
  ⟨by decide, by decide, by decide, by decide,
    ((C13_RequireAuth_policy exHandler {} exAnonymous exWorld rfl).2 .ErrNoAuth
      (by decide)).1⟩

/-- C14: `Auth` always hands the request to the downstream handler: with the session
attached when `Check` finds one, so that `SessionFromContext` returns it, and as it came
in when `Check` finds none, so that `SessionFromContext` returns `ErrNoAuth` for a
request that arrived, as the server delivers it, with no session attached. -/
theorem C14_Auth_policy (next : HandlerFunc) (w : ResponseWriter) (r : Request)
    (s : World) (hctx : r.ctxSession = none) :
    (∀ sess, s.sessions.Check r = .ok sess →
        Auth next w r s = next w (ContextWithSession r (some sess)) s ∧
          SessionFromContext (ContextWithSession r (some sess)) = .ok sess) ∧
      (∀ e, s.sessions.Check r = .error e →
        Auth next w r s = next w r s ∧ SessionFromContext r = .error .ErrNoAuth) := by
  constructor
  · intro sess h
    simp [Auth, h, SessionFromContext, ContextWithSession]
  · intro e h
    simp [Auth, h, SessionFromContext, hctx]

/-- C14 at the request of `alice` and at a request without cookies: the handler runs
both times. -/
theorem C14_Auth_policy_witness :
    exAnonymous.ctxSession = none ∧
      (Auth exHandler {} exRequest exWorld).world.log.map
        (fun e => (e.msg, e.fields)) = [("handler ran", [("user", "1")])] ∧
      (Auth exHandler {} exAnonymous exWorld).world.log.map
        (fun e => (e.msg, e.fields)) = [("handler ran", [("user", "")])] ∧
      Auth exHandler {} exAnonymous exWorld = exHandler {} exAnonymous exWorld :=
  ⟨rfl, by decide, by decide,
    ((C14_Auth_policy exHandler {} exAnonymous exWorld rfl).2 .ErrNoAuth (by decide)).1⟩

/-- C19 as stated fails: when the handler panics, the chain `Panic`, `AccessLog`, `Auth`
returns (here with status 500, the handler having written nothing), but the logger holds
no access entry, since the panic leaves `AccessLog` before its log call; with a handler
that returns there is one entry. -/
theorem C19_no_access_entry_after_panic :
    (globalChain 5 exPanics {} exAnonymous exWorld).isPanic = false ∧
      (globalChain 5 exPanics {} exAnonymous exWorld).response.status = some 500 ∧
      (globalChain 5 exPanics {} exAnonymous exWorld).world.log = [] ∧
      ((globalChain 5 exHandler {} exAnonymous exWorld).world.log.filter
        (fun e => e.msg = "New request")).length = 1 := by
  decide

/-- C19, amended: through the chain `Panic`, `AccessLog`, `Auth`, when the handler
returns, exactly one access entry with the method, the remote address and the path of
the request is appended to the log, after everything the handler logged; when the
handler panics, the chain returns, its answer is that of `http.Error` with code 500 on
the response as the handler left it (status 500 when the handler had not begun the
response), and the log is as the handler left it: no access entry is appended. -/
theorem C19_access_log_on_return (elapsed : Nat) (handler : HandlerFunc)
    (w : ResponseWriter) (r : Request) (s : World) :
    (∀ w1 s1, Auth handler w r s = .returned w1 s1 →
        globalChain elapsed handler w r s =
          .returned w1 { s1 with log := s1.log ++
            [{ level := "info", msg := "New request",
               fields := [("method", r.Method), ("remote_addr", r.RemoteAddr),
                 ("url", r.Path), ("time", toString elapsed)] }] }) ∧
      (∀ value w1 s1, Auth handler w r s = .panicked value w1 s1 →
        globalChain elapsed handler w r s =
            .returned (httpError w1 "Internal server error" 500) s1 ∧
          (globalChain elapsed handler w r s).isPanic = false ∧
          (globalChain elapsed handler w r s).world.log = s1.log ∧
          (w1.status = none →
            (globalChain elapsed handler w r s).response.status = some 500)) := by
  constructor
  · intro w1 s1 h
    simp [globalChain, Panic, AccessLog, h, accessEntry]
  · intro value w1 s1 h
    have hchain : globalChain elapsed handler w r s =
        .returned (httpError w1 "Internal server error" 500) s1 := by
      simp [globalChain, Panic, AccessLog, h]
    refine ⟨hchain, ?_, ?_, ?_⟩
    · rw [hchain]
      rfl
    · rw [hchain]
      rfl
    · intro hfresh
      rw [hchain]
      exact (httpError_fresh w1 "Internal server error" 500 hfresh).1

/-- C19 amended, at a handler that returns: the one access entry follows the entry of
the handler; and at a handler that panics. -/
theorem C19_access_log_on_return_witness :
    (globalChain 5 exHandler {} exAnonymous exWorld).world.log.map (fun e => e.msg)
        = ["handler ran", "New request"] ∧
      globalChain 5 exPanics {} exAnonymous exWorld =
        .returned (httpError {} "Internal server error" 500) exWorld :=
  ⟨by decide,
    ((C19_access_log_on_return 5 exPanics {} exAnonymous exWorld).2 "boom" {} exWorld rfl).1⟩

namespace BookRepo

/-- With the primary key of `books` in force, `GetByID` finds a book whose owner has a
row in `users`, and the book it returns carries the columns of that row of `books`. -/
theorem GetByID_found (db : DB) (b : BookRow) (hpk : (db.books.map (·.id)).Nodup)
    (hb : b ∈ db.books) (hown : ∃ u ∈ db.users, u.id = b.user_id) :
    ∃ book, GetByID none db b.id = .ok (some book) ∧ book.row = b := by
  obtain ⟨u, hu, hid⟩ := hown
  have hex : ∃ row ∈ joinUsers db, (fun row : BookRow × UserRow => decide (row.1.id = b.id)) row
      = true := ⟨(b, u), (mem_joinUsers db b u).mpr ⟨hb, hu, hid⟩, by simp⟩
  cases hf : (joinUsers db).find? (fun row => decide (row.1.id = b.id)) with
  | none =>
    rw [List.find?_eq_none] at hf
    obtain ⟨row, hrow, hp⟩ := hex
    exact absurd hp (hf row hrow)
  | some row =>
    have hmem := List.mem_of_find?_eq_some hf
    have hrid : row.1.id = b.id := by simpa using List.find?_some hf
    have hrb : row.1 ∈ db.books := ((mem_joinUsers db row.1 row.2).mp hmem).1
    have hsame : row.1 = b := List.inj_on_of_nodup_map hpk hrb hb hrid
    exact ⟨scanBook row, by simp [GetByID, hf], hsame⟩

end BookRepo

/-- C20: with the primary key of `books` in force and a lookup that does not fail, for an
existing book addressed by the request (its owner a user of the table, as for every
book the program creates) and an attached session whose user id differs from the owner id of
the book, `DeleteBook` and `UpdateBook` answer 403 Forbidden and the world is as it was:
the row of the book, every file, the stored file and the cover among them, and the
log. -/
theorem C20_non_owner_changes_nothing (fd : DeleteFaults) (fu : UpdateFaults)
    (w : ResponseWriter) (r : Request) (s : World) (b : BookRow) (sess : Session)
    (hpk : (s.db.books.map (·.id)).Nodup)
    (hb : b ∈ s.db.books)
    (hown : ∃ u ∈ s.db.users, u.id = b.user_id)
    (hsess : SessionFromContext r = .ok sess)
    (hid : Atoi (r.Var "id") = some b.id)
    (hother : (sess.UserID : Int) ≠ b.user_id)
    (hfd : fd.getByID = none) (hfu : fu.getByID = none)
    (hfresh : w.status = none) :
    DeleteBook fd w r s = .returned (httpError w "Forbidden" 403) s ∧
      UpdateBook fu w r s = .returned (httpError w "Forbidden" 403) s ∧
      (httpError w "Forbidden" 403).status = some 403 ∧
      (DeleteBook fd w r s).world.db = s.db ∧ (UpdateBook fu w r s).world.db = s.db ∧
      (DeleteBook fd w r s).world.files = s.files ∧
      (UpdateBook fu w r s).world.files = s.files := by
  obtain ⟨book, hget, hrow⟩ := BookRepo.GetByID_found s.db b hpk hb hown
  have huid : book.UserID = b.user_id := by
    have := congrArg BookRow.user_id hrow
    simpa [Book.row] using this
  have hne : book.UserID ≠ (sess.UserID : Int) := by
    rw [huid]
    exact fun h => hother h.symm
  have hdel : DeleteBook fd w r s = .returned (httpError w "Forbidden" 403) s := by
    simp only [DeleteBook, hsess, hid, hfd, hget]
    rw [if_pos hne]
  have hupd : UpdateBook fu w r s = .returned (httpError w "Forbidden" 403) s := by
    simp only [UpdateBook, hsess, hid, hfu, hget]
    rw [if_pos hne]
  refine ⟨hdel, hupd, (httpError_fresh w "Forbidden" 403 hfresh).1, ?_, ?_, ?_, ?_⟩
  · rw [hdel]; rfl
  · rw [hupd]; rfl
  · rw [hdel]; rfl
  · rw [hupd]; rfl

set_option maxRecDepth 8192 in
/-- C20 at `bob` asking to delete and to update the book of `alice`; `alice` herself
deletes the book and its file. -/
theorem C20_non_owner_changes_nothing_witness :
    ((exWorld.db.books.map (·.id)).Nodup ∧ exFound.row ∈ exWorld.db.books ∧
      (∃ u ∈ exWorld.db.users, u.id = exFound.row.user_id) ∧
      SessionFromContext exBobOnBook1 = .ok exSessionBob ∧
      Atoi (exBobOnBook1.Var "id") = some exFound.row.id ∧
      (exSessionBob.UserID : Int) ≠ exFound.row.user_id) ∧
    (DeleteBook {} {} exBobOnBook1 exWorld = .returned (httpError {} "Forbidden" 403) exWorld ∧
      UpdateBook {} {} exBobOnBook1 exWorld = .returned (httpError {} "Forbidden" 403) exWorld ∧
      (httpError {} "Forbidden" 403).status = some 403) ∧
    (DeleteBook {} {} exBobOnBook1 exWorld).response.body = "Forbidden\n" ∧
    (DeleteBook {} {} exBobOnBook1 exWorld).world.files "static/uploads/1_f.txt"
      = some "Foo, the text" ∧
    (DeleteBook {} {} exAliceOnBook1 exWorld).response.status = some 302 ∧
    (DeleteBook {} {} exAliceOnBook1 exWorld).world.db.books.map (·.id) = [2] ∧
    (DeleteBook {} {} exAliceOnBook1 exWorld).world.files "static/uploads/1_f.txt" = none ∧
    (UpdateBook {} {} exAliceOnBook1 exWorld).world.db.books.map (·.title) = ["Mine", "Bar"] ∧
    (UpdateBook {} {} exAliceOnBook1 exWorld).world.files "static/uploads/1_f.txt"
      = some "overwritten" :=
  ⟨⟨by decide, by decide, by decide, by decide, by decide, by decide⟩,
    ⟨(C20_non_owner_changes_nothing {} {} {} exBobOnBook1 exWorld exFound.row exSessionBob
        (by decide) (by decide) (by decide) (by decide) (by decide) (by decide)
        rfl rfl rfl).1,
      (C20_non_owner_changes_nothing {} {} {} exBobOnBook1 exWorld exFound.row exSessionBob
        (by decide) (by decide) (by decide) (by decide) (by decide) (by decide)
        rfl rfl rfl).2.1,
      by decide⟩,
    by decide, by decide, by decide, by decide, by decide, by decide, by decide⟩

/-! ## Theorems: popular tags -/

/-- A tag field always has a token. -/
theorem splitComma_ne_nil (cs : List Char) : splitComma cs ≠ [] := by
  cases cs with
  | nil => simp [splitComma]
  | cons c rest =>
    unfold splitComma
    split
    · simp
    · split <;> simp

namespace BookRepo

/-- Inside a string, a tag field without `"` and `\` is read token by token: every comma
closes one element and opens the next. -/
theorem jsonRun_inString (cs : List Char)
    (hclean : ∀ c ∈ cs, c ≠ '"' ∧ c ≠ '\\')
    (acc : List Char) (values : List String) :
    jsonRun (.inString acc) values (replaceCommas cs ++ ['"', ']']) =
      some (values ++
        match splitComma cs with
        | [] => []
        | t :: ts => String.mk (acc.reverse ++ t) :: ts.map String.mk) := by
  have h1 : jsonSpace ',' = false := by decide
  have h2 : jsonSpace '"' = false := by decide
  have h3 : jsonSpace ']' = false := by decide
  induction cs generalizing acc values with
  | nil =>
    simp [replaceCommas, jsonRun, jsonStep, jsonStringStep, h3, jsonAtEnd, splitComma]
  | cons c rest ih =>
    have hrest : ∀ x ∈ rest, x ≠ '"' ∧ x ≠ '\\' :=
      fun x hx => hclean x (List.mem_cons_of_mem _ hx)
    obtain ⟨hq, hb⟩ := hclean c (List.mem_cons_self _ _)
    by_cases hc : c = ','
    · subst hc
      have hstep : replaceCommas (',' :: rest) ++ ['"', ']'] =
          '"' :: ',' :: '"' :: (replaceCommas rest ++ ['"', ']']) := by
        simp [replaceCommas]
      rw [hstep]
      simp only [jsonRun, jsonStep, jsonStringStep, if_true, h1, h2, Bool.false_eq_true,
        if_false, Char.reduceEq]
      rw [ih hrest]
      cases hsplit : splitComma rest with
      | nil => exact absurd hsplit (splitComma_ne_nil rest)
      | cons t ts => simp [splitComma, hsplit]
    · have hstep : replaceCommas (c :: rest) ++ ['"', ']'] =
          c :: (replaceCommas rest ++ ['"', ']']) := by
        simp [replaceCommas, hc]
      rw [hstep]
      simp only [jsonRun, jsonStep, jsonStringStep, hq, hb, if_false]
      rw [ih hrest]
      cases hsplit : splitComma rest with
      | nil => exact absurd hsplit (splitComma_ne_nil rest)
      | cons t ts => simp [splitComma, hc, hsplit]

/-- The text built from a tag field without U+0000 is read whole. -/
theorem cString_tagsJSON (tags : String) (hnul : ∀ c ∈ tags.toList, c ≠ Char.ofNat 0) :
    cString (tagsJSON tags) = tagsJSON tags := by
  apply cString_eq_self
  intro c hc
  unfold tagsJSON replaceCommas at hc
  rcases List.mem_append.mp hc with hc | hc
  · rcases List.mem_append.mp hc with hc | hc
    · simp only [List.mem_cons, List.mem_singleton, List.not_mem_nil, or_false] at hc
      rcases hc with rfl | rfl <;> decide
    · obtain ⟨x, hx, hcx⟩ := List.mem_flatMap.mp hc
      by_cases hcomma : x = ','
      · rw [if_pos hcomma] at hcx
        simp only [List.mem_cons, List.mem_singleton, List.not_mem_nil, or_false] at hcx
        rcases hcx with rfl | rfl | rfl <;> decide
      · rw [if_neg hcomma] at hcx
        rw [List.mem_singleton.mp hcx]
        exact hnul x hx
  · simp only [List.mem_cons, List.mem_singleton, List.not_mem_nil, or_false] at hc
    rcases hc with rfl | rfl <;> decide

/-- For a tag field without `"`, `\` and U+0000, `json_each` yields the comma-separated
tokens of the field. -/
theorem jsonEach_clean (tags : String)
    (hclean : ∀ c ∈ tags.toList, c ≠ '"' ∧ c ≠ '\\' ∧ c ≠ Char.ofNat 0) :
    jsonEach (tagsJSON tags) = some ((splitComma tags.toList).map String.mk) := by
  have h := jsonRun_inString tags.toList (fun c hc => ⟨(hclean c hc).1, (hclean c hc).2.1⟩) [] []
  have htext : tagsJSON tags = '[' :: '"' :: (replaceCommas tags.toList ++ ['"', ']']) := by
    simp [tagsJSON]
  have h1 : jsonSpace '[' = false := by decide
  have h2 : jsonSpace '"' = false := by decide
  unfold jsonEach
  rw [cString_tagsJSON tags (fun c hc => (hclean c hc).2.2), htext]
  simp only [jsonRun, jsonStep, h1, h2, Bool.false_eq_true, if_false, if_true, Char.reduceEq]
  rw [h]
  cases hsplit : splitComma tags.toList with
  | nil => exact absurd hsplit (splitComma_ne_nil _)
  | cons t ts => simp

end BookRepo

namespace BookRepo

/-- `DISTINCT` keeps the values. -/
theorem mem_distinct (l : List String) (a : String) : a ∈ distinct l ↔ a ∈ l := by
  induction l with
  | nil => simp [distinct]
  | cons b rest ih =>
    by_cases hab : a = b
    · simp [distinct, hab]
    · simp [distinct, hab, ih]

/-- `DISTINCT` yields no value twice. -/
theorem nodup_distinct (l : List String) : (distinct l).Nodup := by
  induction l with
  | nil => simp [distinct]
  | cons b rest ih =>
    rw [distinct, List.nodup_cons]
    exact ⟨by simp, ih.filter _⟩

/-- `trim` leaves no space in front. -/
theorem sqlTrim_head (s : String) : (sqlTrim s).toList.head? ≠ some ' ' := by
  intro h
  have hpre : ((s.toList.dropWhile (fun c => decide (c = ' '))).reverse.dropWhile
      (fun c => decide (c = ' '))).reverse <+: s.toList.dropWhile (fun c => decide (c = ' ')) := by
    rw [← List.reverse_suffix, List.reverse_reverse]
    exact List.dropWhile_suffix _
  have hhead := List.head?_dropWhile_not (fun c => decide (c = ' ')) s.toList
  obtain ⟨t, ht⟩ := hpre
  have hres : (sqlTrim s).toList =
      ((s.toList.dropWhile (fun c => decide (c = ' '))).reverse.dropWhile
        (fun c => decide (c = ' '))).reverse := rfl
  rw [hres] at h
  cases hl : ((s.toList.dropWhile (fun c => decide (c = ' '))).reverse.dropWhile
      (fun c => decide (c = ' '))).reverse with
  | nil => rw [hl] at h; simp at h
  | cons x xs =>
    rw [hl] at h ht
    simp only [List.head?_cons, Option.some.injEq] at h
    rw [← ht] at hhead
    simp [h] at hhead

/-- `trim` leaves no space at the end. -/
theorem sqlTrim_last (s : String) : (sqlTrim s).toList.getLast? ≠ some ' ' := by
  intro h
  have hres : (sqlTrim s).toList =
      ((s.toList.dropWhile (fun c => decide (c = ' '))).reverse.dropWhile
        (fun c => decide (c = ' '))).reverse := rfl
  rw [hres, List.getLast?_reverse] at h
  have hhead := List.head?_dropWhile_not (fun c => decide (c = ' '))
    (s.toList.dropWhile (fun c => decide (c = ' '))).reverse
  rw [h] at hhead
  simp at hhead

/-- For tag fields without `"`, `\` and U+0000, the non-empty rows of `split_tags` are
the non-empty trimmed tokens of the tag fields. -/
theorem mem_splitTagRows (books : List BookRow)
    (hclean : ∀ b ∈ books, ∀ c ∈ b.tags.toList, c ≠ '"' ∧ c ≠ '\\' ∧ c ≠ Char.ofNat 0)
    (tag : String) (hne : tag ≠ "") :
    tag ∈ splitTagRows books ↔
      ∃ b ∈ books, ∃ token ∈ splitComma b.tags.toList, tag = sqlTrim (String.mk token) := by
  induction books with
  | nil => simp [splitTagRows]
  | cons b rest ih =>
    have hrest := ih (fun x hx => hclean x (List.mem_cons_of_mem _ hx))
    have hb := hclean b (List.mem_cons_self _ _)
    by_cases hempty : b.tags = ""
    · have hnone : ¬ ∃ token ∈ splitComma b.tags.toList, tag = sqlTrim (String.mk token) := by
        rw [hempty]
        rintro ⟨token, htok, heq⟩
        have : token = [] := by simpa [splitComma] using htok
        subst this
        exact hne heq
      rw [splitTagRows, if_pos hempty, hrest]
      constructor
      · rintro ⟨x, hx, h⟩
        exact ⟨x, List.mem_cons_of_mem _ hx, h⟩
      · rintro ⟨x, hx, h⟩
        rcases List.mem_cons.mp hx with rfl | hx
        · exact absurd h hnone
        · exact ⟨x, hx, h⟩
    · rw [splitTagRows, if_neg hempty, jsonEach_clean b.tags hb]
      simp only [List.mem_append, List.mem_map, hrest, List.map_map]
      constructor
      · rintro (⟨token, htok, heq⟩ | ⟨x, hx, h⟩)
        · exact ⟨b, List.mem_cons_self _ _, token, htok, heq.symm⟩
        · exact ⟨x, List.mem_cons_of_mem _ hx, h⟩
      · rintro ⟨x, hx, token, htok, heq⟩
        rcases List.mem_cons.mp hx with rfl | hx
        · exact Or.inl ⟨token, htok, heq.symm⟩
        · exact Or.inr ⟨x, hx, token, htok, heq⟩

end BookRepo

/-- The trimmed tokens of the specification, spelled out. -/
theorem mem_trimmedTokens (db : DB) (tag : String) :
    tag ∈ trimmedTokens db ↔
      ∃ b ∈ db.books, ∃ token ∈ splitComma b.tags.toList,
        tag = BookRepo.sqlTrim (String.mk token) := by
  simp only [trimmedTokens, List.mem_flatMap, List.mem_map]
  constructor
  · rintro ⟨b, hb, token, htok, heq⟩
    exact ⟨b, hb, token, htok, heq.symm⟩
  · rintro ⟨b, hb, token, htok, heq⟩
    exact ⟨b, hb, token, htok, heq.symm⟩

/-- C17 fails on the code.  For the tag field `a,\tb` (a backslash and the letter `t`)
`json_each` decodes the escape, and `GetPopularTags` returns a tag that opens with a
tabulator, which `trim` does not remove, and which is the trimmed form of no token of the
field.  For a tag field with a quotation mark the text handed to `json_each` is malformed:
the statement stops at that book and, the error of the rows not being looked at, the tags
of that book and of the books behind it in the scan are missing from a result that comes
with a nil error; in `exQuoted` the book tagged `drama` is scanned first, in
`exQuotedOnly` nothing is returned. -/
theorem C17_tag_text_is_read_as_json :
    (exEscaped.books.map (·.tags) = ["a,\\tb"] ∧
      BookRepo.GetPopularTags none exEscaped 20 = .ok ["a", "\tb"] ∧
      trimmedTokens exEscaped = ["a", "\\tb"]) ∧
    (exQuoted.books.map (·.tags) = ["say \"hi\"", "drama"] ∧
      BookRepo.GetPopularTags none exQuoted 20 = .ok ["drama"] ∧
      trimmedTokens exQuoted = ["say \"hi\"", "drama"]) ∧
    (exQuotedOnly.books.map (·.tags) = ["say \"hi\""] ∧
      BookRepo.GetPopularTags none exQuotedOnly 20 = .ok [] ∧
      trimmedTokens exQuotedOnly = ["say \"hi\""]) := by
  decide

/-- Where the defect of C17 does not strike: when no tag field holds a quotation mark, a
backslash or U+0000, and `limit` is not negative, `GetPopularTags(limit)` returns at most
`limit` strings, no string twice, each of them non-empty, without a space at either end,
and the space-trimmed form of a comma-separated token of the tag field of some book;
when the number of distinct non-empty trimmed tokens is at most `limit`, every one of
them is returned. -/
theorem GetPopularTags_clean_tags (db : DB) (limit : Int)
    (hlimit : 0 ≤ limit)
    (hclean : ∀ b ∈ db.books, ∀ c ∈ b.tags.toList,
      c ≠ '"' ∧ c ≠ '\\' ∧ c ≠ Char.ofNat 0) :
    ∃ tags, BookRepo.GetPopularTags none db limit = .ok tags ∧
      (tags.length : Int) ≤ limit ∧ tags.Nodup ∧
      (∀ tag ∈ tags, tag ≠ "" ∧ tag.toList.head? ≠ some ' ' ∧
        tag.toList.getLast? ≠ some ' ' ∧
        ∃ b ∈ db.books, ∃ token ∈ splitComma b.tags.toList,
          tag = BookRepo.sqlTrim (String.mk token)) ∧
      ((((trimmedTokens db).filter (fun tag => tag ≠ "")).toFinset.card : Int) ≤ limit →
        ∀ tag ∈ trimmedTokens db, tag ≠ "" → tag ∈ tags) := by
  have hnot : ¬ limit < 0 := not_lt.mpr hlimit
  have hperm : (BookRepo.scanIndex db.books).Perm db.books := List.perm_insertionSort _ _
  have hcleanScan : ∀ b ∈ BookRepo.scanIndex db.books, ∀ c ∈ b.tags.toList,
      c ≠ '"' ∧ c ≠ '\\' ∧ c ≠ Char.ofNat 0 :=
    fun b hb => hclean b (hperm.mem_iff.mp hb)
  have hmem : ∀ tag,
      tag ∈ (BookRepo.distinct (BookRepo.splitTagRows (BookRepo.scanIndex db.books))).filter
        (fun tag => tag ≠ "") ↔ tag ≠ "" ∧ tag ∈ trimmedTokens db := by
    intro tag
    rw [List.mem_filter, BookRepo.mem_distinct, mem_trimmedTokens]
    constructor
    · rintro ⟨hrow, hne⟩
      have hne2 : tag ≠ "" := by simpa using hne
      obtain ⟨b, hb, htok⟩ := (BookRepo.mem_splitTagRows _ hcleanScan tag hne2).mp hrow
      exact ⟨hne2, b, hperm.mem_iff.mp hb, htok⟩
    · rintro ⟨hne, b, hb, htok⟩
      exact ⟨(BookRepo.mem_splitTagRows _ hcleanScan tag hne).mpr
        ⟨b, hperm.mem_iff.mpr hb, htok⟩, by simpa using hne⟩
  have hnodup : ((BookRepo.distinct (BookRepo.splitTagRows (BookRepo.scanIndex db.books))).filter
      (fun tag => tag ≠ "")).Nodup := (BookRepo.nodup_distinct _).filter _
  have hget : BookRepo.GetPopularTags none db limit =
      .ok (((BookRepo.distinct (BookRepo.splitTagRows (BookRepo.scanIndex db.books))).filter
        (fun tag => tag ≠ "")).take limit.toNat) := by
    simp only [BookRepo.GetPopularTags, BookRepo.sqlLimit, if_neg hnot]
  refine ⟨_, hget, ?_, ?_, ?_, ?_⟩
  · rw [List.length_take]
    omega
  · exact hnodup.sublist (List.take_sublist _ _)
  · intro tag htag
    have hin := (hmem tag).mp (List.mem_of_mem_take htag)
    obtain ⟨b, hb, token, htok, heq⟩ := (mem_trimmedTokens db tag).mp hin.2
    refine ⟨hin.1, ?_, ?_, b, hb, token, htok, heq⟩
    · rw [heq]
      exact BookRepo.sqlTrim_head _
    · rw [heq]
      exact BookRepo.sqlTrim_last _
  · intro hcard tag htok hne
    have hset : ((BookRepo.distinct (BookRepo.splitTagRows (BookRepo.scanIndex db.books))).filter
        (fun tag => tag ≠ "")).toFinset =
        ((trimmedTokens db).filter (fun tag => tag ≠ "")).toFinset := by
      ext x
      rw [List.mem_toFinset, List.mem_toFinset, hmem x, List.mem_filter]
      constructor
      · rintro ⟨h1, h2⟩
        exact ⟨h2, by simpa using h1⟩
      · rintro ⟨h1, h2⟩
        exact ⟨by simpa using h2, h1⟩
    have hlen : ((BookRepo.distinct (BookRepo.splitTagRows (BookRepo.scanIndex db.books))).filter
        (fun tag => tag ≠ "")).length ≤ limit.toNat := by
      rw [← List.toFinset_card_of_nodup hnodup, hset]
      omega
    rw [List.take_of_length_le hlen]
    exact (hmem tag).mpr ⟨hne, htok⟩

set_option maxRecDepth 8192 in
/-- Clean tags at two books tagged ` sci-fi ,drama,,sci-fi` and `drama, art`: the book
titled `Bar` is scanned before the book titled `Foo`. -/
theorem GetPopularTags_clean_tags_witness :
    ((0 : Int) ≤ 20 ∧
      ∀ b ∈ exTagged.books, ∀ c ∈ b.tags.toList, c ≠ '"' ∧ c ≠ '\\' ∧ c ≠ Char.ofNat 0) ∧
    (∃ tags, BookRepo.GetPopularTags none exTagged 20 = .ok tags ∧
      (tags.length : Int) ≤ 20 ∧ tags.Nodup) ∧
    exTagged.books.map (fun b => (b.id, b.title)) = [(1, "Foo"), (2, "Bar")] ∧
    BookRepo.GetPopularTags none exTagged 20 = .ok ["drama", "art", "sci-fi"] ∧
    BookRepo.GetPopularTags none exTagged 2 = .ok ["drama", "art"] ∧
    BookRepo.GetPopularTags none exTagged 0 = .ok [] ∧
    BookRepo.GetPopularTags none exTagged (-1) = .ok ["drama", "art", "sci-fi"] :=
  ⟨⟨by decide, by decide⟩,
    (GetPopularTags_clean_tags exTagged 20 (by decide) (by decide)).elim
      (fun tags h => ⟨tags, h.1, h.2.1, h.2.2.1⟩),
    by decide, by decide, by decide, by decide, by decide⟩

/-! ## Theorems: panic recovery and rating validation -/

namespace BookRepo

/-- A `RateBook` that returns an error hands the database back as it was. -/
theorem RateBook_error_unchanged (f : Faults) (now : Nat) (db : DB)
    (userID bookID rating : Int)
    (herr : (RateBook f now db userID bookID rating).1 ≠ none) :
    (RateBook f now db userID bookID rating).2 = db := by
  obtain ⟨fb, fu, fp, fc⟩ := f
  cases fb <;> cases fu <;> cases fp <;> cases fc <;>
    cases hu : upsertRating now userID bookID rating db <;>
    simp [RateBook, DB.Begin, Tx.Exec, Tx.Commit, Tx.Rollback, hu, updateAggregate] at herr ⊢

end BookRepo

/-- C21 as stated fails in the status: when the handler has begun its answer before it
panics, the `WriteHeader(500)` of `http.Error` is a second call and is ignored; `Panic`
returns, the status stays 200 and the message is appended to what the handler wrote. -/
theorem C21_status_already_sent_stays :
    (exWritesThenPanics {} exAnonymous exWorld).isPanic = true ∧
      (Panic exWritesThenPanics {} exAnonymous exWorld).isPanic = false ∧
      (Panic exWritesThenPanics {} exAnonymous exWorld).response.status = some 200 ∧
      (Panic exWritesThenPanics {} exAnonymous exWorld).response.body
        = "partialInternal server error\n" := by
  decide

/-- C21, amended: `Panic` never ends in a panic.  When the downstream handler panics,
`Panic` returns the answer of `http.Error(w, "Internal server error", 500)` on the
response as the handler left it: the message and a newline are appended to the body,
the status is 500 when the handler had not begun its answer, and a status already sent
stays; the world is as the handler left it.  When the handler returns, `Panic` returns
the very outcome of the handler. -/
theorem C21_Panic_recovers (next : HandlerFunc) (w : ResponseWriter) (r : Request)
    (s : World) :
    (Panic next w r s).isPanic = false ∧
      (∀ w1 s1, next w r s = .returned w1 s1 → Panic next w r s = .returned w1 s1) ∧
      (∀ value w1 s1, next w r s = .panicked value w1 s1 →
        Panic next w r s = .returned (httpError w1 "Internal server error" 500) s1 ∧
          (httpError w1 "Internal server error" 500).body =
            w1.body ++ "Internal server error\n" ∧
          (w1.status = none → (httpError w1 "Internal server error" 500).status = some 500) ∧
          (∀ code, w1.status = some code →
            (httpError w1 "Internal server error" 500).status = some code)) := by
  refine ⟨?_, ?_, ?_⟩
  · unfold Panic
    cases next w r s <;> rfl
  · intro w1 s1 h
    simp [Panic, h]
  · intro value w1 s1 h
    refine ⟨by simp [Panic, h], ?_, ?_, ?_⟩
    · have hbody : ∀ (x : ResponseWriter) (code : Nat), (x.WriteHeader code).body = x.body := by
        intro x code
        unfold ResponseWriter.WriteHeader
        split <;> rfl
      simp [httpError, ResponseWriter.Write, hbody, body_SetHeader, body_DelHeader]
    · intro hfresh
      exact (httpError_fresh w1 _ 500 hfresh).1
    · intro code hcode
      simp [httpError, ResponseWriter.Write, ResponseWriter.WriteHeader, status_SetHeader,
        status_DelHeader, hcode]

/-- C21 amended, at a handler that panics before it wrote anything and at one that
returns. -/
theorem C21_Panic_recovers_witness :
    Panic exPanics {} exAnonymous exWorld =
        .returned (httpError {} "Internal server error" 500) exWorld ∧
      (Panic exPanics {} exAnonymous exWorld).response.status = some 500 ∧
      (Panic exPanics {} exAnonymous exWorld).response.body = "Internal server error\n" ∧
      (Panic exHandler {} exAnonymous exWorld).response.body = "ok" :=
  ⟨((C21_Panic_recovers exPanics {} exAnonymous exWorld).2.2 "boom" {} exWorld rfl).1,
    by decide, by decide, by decide⟩

/-- C23: for a request to the `RateBook` handler with a session attached and a book id
that parses, on a response not yet begun: when the form value `rating` parses as an
integer from 1 to 5, the database the handler leaves is the one `BookRepo.RateBook` leaves
for the user of the session, that book and that rating, and the answer is the redirect
to the book or, when `BookRepo.RateBook` fails, status 500; in every other case the
handler answers 400 and the world is as it was; and every rating row that is in the
database after the call and was not there before has a rating from 1 to 5. -/
theorem C23_RateBook_handler_validates (f : BookRepo.Faults) (now : Nat)
    (w : ResponseWriter) (r : Request) (s : World) (sess : Session) (bookID : Int)
    (hsess : SessionFromContext r = .ok sess)
    (hid : Atoi (r.Var "id") = some bookID)
    (hfresh : w.status = none) :
    (∀ rating, Atoi (r.FormValue "rating") = some rating → 1 ≤ rating → rating ≤ 5 →
        (Handler.RateBook f now w r s).world.db =
            (BookRepo.RateBook f now s.db (sess.UserID : Int) bookID rating).2 ∧
          (Handler.RateBook f now w r s).response =
            if (BookRepo.RateBook f now s.db (sess.UserID : Int) bookID rating).1 = none then
              Redirect w r ("/books/" ++ toString bookID) 302
            else httpError w "Failed to rate book" 500) ∧
      ((Atoi (r.FormValue "rating") = none ∨
          ∃ rating, Atoi (r.FormValue "rating") = some rating ∧ (rating < 1 ∨ 5 < rating)) →
        Handler.RateBook f now w r s = .returned (httpError w "Invalid rating" 400) s ∧
          (httpError w "Invalid rating" 400).status = some 400) ∧
      (∀ row ∈ (Handler.RateBook f now w r s).world.db.ratings, row ∉ s.db.ratings →
        1 ≤ row.rating ∧ row.rating ≤ 5) := by
  have hvalid : ∀ rating, Atoi (r.FormValue "rating") = some rating → 1 ≤ rating →
      rating ≤ 5 →
      (Handler.RateBook f now w r s).world.db =
          (BookRepo.RateBook f now s.db (sess.UserID : Int) bookID rating).2 ∧
        (Handler.RateBook f now w r s).response =
          if (BookRepo.RateBook f now s.db (sess.UserID : Int) bookID rating).1 = none then
            Redirect w r ("/books/" ++ toString bookID) 302
          else httpError w "Failed to rate book" 500 := by
    intro rating hr h1 h5
    have hnot : ¬ (rating < 1 ∨ rating > 5) := by omega
    simp only [Handler.RateBook, hsess, hid, hr, if_neg hnot]
    cases hres : BookRepo.RateBook f now s.db (sess.UserID : Int) bookID rating with
    | mk err db1 =>
      cases err with
      | none => simp [Outcome.world, Outcome.response]
      | some e => simp [Outcome.world, Outcome.response]
  have hinvalid : (Atoi (r.FormValue "rating") = none ∨
      ∃ rating, Atoi (r.FormValue "rating") = some rating ∧ (rating < 1 ∨ 5 < rating)) →
      Handler.RateBook f now w r s = .returned (httpError w "Invalid rating" 400) s := by
    rintro (hnone | ⟨rating, hr, hbad⟩)
    · simp only [Handler.RateBook, hsess, hid, hnone]
    · have hbad2 : rating < 1 ∨ rating > 5 := hbad
      simp only [Handler.RateBook, hsess, hid, hr, if_pos hbad2]
  refine ⟨hvalid, fun h => ⟨hinvalid h, (httpError_fresh w _ 400 hfresh).1⟩, ?_⟩
  intro row hrow hnew
  cases hr : Atoi (r.FormValue "rating") with
  | none =>
    rw [hinvalid (Or.inl hr)] at hrow
    exact absurd hrow hnew
  | some rating =>
    by_cases hbad : rating < 1 ∨ 5 < rating
    · rw [hinvalid (Or.inr ⟨rating, hr, hbad⟩)] at hrow
      exact absurd hrow hnew
    · have h1 : 1 ≤ rating := by omega
      have h5 : rating ≤ 5 := by omega
      rw [(hvalid rating hr h1 h5).1] at hrow
      cases herr : (BookRepo.RateBook f now s.db (sess.UserID : Int) bookID rating).1 with
      | some e =>
        have hsame := BookRepo.RateBook_error_unchanged f now s.db (sess.UserID : Int)
          bookID rating (by rw [herr]; simp)
        rw [hsame] at hrow
        exact absurd hrow hnew
      | none =>
        have hok : BookRepo.RateBook f now s.db (sess.UserID : Int) bookID rating =
            (none, (BookRepo.RateBook f now s.db (sess.UserID : Int) bookID rating).2) :=
          Prod.ext herr rfl
        obtain ⟨wdb, hw, hu⟩ := BookRepo.RateBook_ok hok
        obtain ⟨_, _, _, id, hwr⟩ := BookRepo.upsertRating_ok hw
        obtain ⟨hr1, _, _⟩ := BookRepo.updateAggregate_ok hu
        rw [hr1, hwr, List.mem_append] at hrow
        rcases hrow with hold | hnewrow
        · exact absurd (List.mem_filter.mp hold).1 hnew
        · rw [List.mem_singleton] at hnewrow
          subst hnewrow
          exact ⟨h1, h5⟩

/-- C23 at `bob` rating book 1 with 4, with 6 and with `4.5`. -/
theorem C23_RateBook_handler_validates_witness :
    (SessionFromContext exBobRatesSix = .ok exSessionBob ∧
      Atoi (exBobRatesSix.Var "id") = some 1 ∧
      Atoi (exBobRatesSix.FormValue "rating") = some 6 ∧
      Atoi (exBobRatesText.FormValue "rating") = none) ∧
    (Handler.RateBook BookRepo.Faults.none 30 {} exBobRatesSix exWorld =
        .returned (httpError {} "Invalid rating" 400) exWorld ∧
      (httpError {} "Invalid rating" 400).status = some 400) ∧
    (Handler.RateBook BookRepo.Faults.none 30 {} exBobRatesText exWorld).response.status
      = some 400 ∧
    (Handler.RateBook BookRepo.Faults.none 30 {} exBobRates exWorld).response.status
      = some 302 ∧
    (Handler.RateBook BookRepo.Faults.none 30 {} exBobRates exWorld).world.db.ratings.map
      (fun row => (row.user_id, row.book_id, row.rating)) = [(2, 1, 4)] ∧
    (Handler.RateBook exCommitFails 30 {} exBobRates exWorld).response.status = some 500 ∧
    (Handler.RateBook exCommitFails 30 {} exBobRates exWorld).world.db.ratings = [] :=
  ⟨⟨by decide, by decide, by decide, by decide⟩,
    (C23_RateBook_handler_validates BookRepo.Faults.none 30 {} exBobRatesSix exWorld
      exSessionBob 1 (by decide) (by decide) rfl).2.1
      (Or.inr ⟨6, by decide, Or.inr (by decide)⟩),
    by decide, by decide, by decide, by decide, by decide⟩

/-! ## Theorems: file sizes -/

/-- The loop stops at once below one unit. -/
theorem sizeLoop_lt (n div : Int) (exp : Nat) (h : n < 1024) :
    sizeLoop n div exp = (div, exp) := by
  rw [sizeLoop, if_neg (by omega)]

/-- One turn of the loop from one unit on. -/
theorem sizeLoop_ge (n div : Int) (exp : Nat) (h : 1024 ≤ n) :
    sizeLoop n div exp = sizeLoop (n / 1024) (wrapInt64 (div * 1024)) (exp + 1) := by
  rw [sizeLoop, if_pos (by omega), Int.tdiv_eq_ediv (by omega) (by decide)]

/-- A value in the range of `int64` is stored as it is. -/
theorem wrapInt64_id (x : Int) (h0 : -2 ^ 63 ≤ x) (h1 : x < 2 ^ 63) : wrapInt64 x = x := by
  unfold wrapInt64
  omega

/-- The invariant of the loop: `div` is `1024 ^ (exp + 1)` and `div * n ≤ bytes <
div * (n + 1)` with `1 ≤ n`; so no product leaves `int64`, and at the end
`div ≤ bytes < 1024 * div`. -/
theorem sizeLoop_spec (bytes : Int) (hb : bytes < 2 ^ 63) :
    ∀ (k : Nat) (n div : Int) (exp : Nat), n.toNat ≤ k → 1 ≤ n → div = 1024 ^ (exp + 1) →
      div * n ≤ bytes → bytes < div * (n + 1) →
      (sizeLoop n div exp).1 = 1024 ^ ((sizeLoop n div exp).2 + 1) ∧
        (sizeLoop n div exp).1 ≤ bytes ∧ bytes < 1024 * (sizeLoop n div exp).1 := by
  intro k
  induction k with
  | zero => intro n div exp hk hn; omega
  | succ k ih =>
    intro n div exp hk hn hdiv hlo hhi
    have hpos : (0 : Int) < div := by rw [hdiv]; positivity
    by_cases h : n < 1024
    · rw [sizeLoop_lt n div exp h]
      refine ⟨hdiv, ?_, ?_⟩
      · nlinarith
      · nlinarith
    · have hge : 1024 ≤ n := by omega
      have hq1 : 1 ≤ n / 1024 := by omega
      have hq2 : 1024 * (n / 1024) ≤ n := by omega
      have hq3 : n < 1024 * (n / 1024) + 1024 := by omega
      have hw : wrapInt64 (div * 1024) = div * 1024 := by
        apply wrapInt64_id
        · nlinarith
        · nlinarith
      rw [sizeLoop_ge n div exp hge, hw]
      apply ih
      · omega
      · exact hq1
      · rw [hdiv]; ring
      · nlinarith
      · nlinarith

/-- C24: `FormatFileSize` is total on `int64`. For every `bytes` in the range of
`int64`: below 1024 (negative values included) the result is the decimal number
followed by `" B"`; from 1024 on the loop ends with an index `exp ≤ 5`, so
`"KMGTPE"[exp]` is in range, the divisor is `1024 ^ (exp + 1)` (no product wrapped
around), and `div ≤ bytes < 1024 * div`. -/
theorem C24_FormatFileSize_int64 (bytes : Int) (hlo : -2 ^ 63 ≤ bytes)
    (hhi : bytes < 2 ^ 63) :
    (bytes < 1024 → FormatFileSize bytes = .plain (toString bytes ++ " B")) ∧
    (1024 ≤ bytes → ∃ (div : Int) (exp : Nat) (unit : Char),
      FormatFileSize bytes = .scaled bytes div exp (some unit) ∧
      exp ≤ 5 ∧ "KMGTPE".toList[exp]? = some unit ∧
      div = 1024 ^ (exp + 1) ∧ div < 2 ^ 63 ∧ div ≤ bytes ∧ bytes < 1024 * div) := by
  constructor
  · intro h
    simp [FormatFileSize, h]
  · intro h
    have hq1 : 1 ≤ bytes / 1024 := by omega
    have hq2 : 1024 * (bytes / 1024) ≤ bytes := by omega
    have hq3 : bytes < 1024 * (bytes / 1024) + 1024 := by omega
    have ht : bytes.tdiv 1024 = bytes / 1024 := Int.tdiv_eq_ediv (by omega) (by decide)
    obtain ⟨h1, h2, h3⟩ := sizeLoop_spec bytes hhi (bytes / 1024).toNat (bytes / 1024) 1024 0
      (le_refl _) hq1 (by norm_num) (by omega) (by omega)
    have hexp : (sizeLoop (bytes / 1024) 1024 0).2 ≤ 5 := by
      by_contra hc
      have h7 : 7 ≤ (sizeLoop (bytes / 1024) 1024 0).2 + 1 := by omega
      have hp : (1024 : Int) ^ 7 ≤ 1024 ^ ((sizeLoop (bytes / 1024) 1024 0).2 + 1) :=
        pow_le_pow_right₀ (by norm_num) h7
      rw [← h1] at hp
      have : (1024 : Int) ^ 7 ≤ bytes := le_trans hp h2
      norm_num at this hhi
      omega
    have hunit : ∀ e : Nat, e ≤ 5 → ∃ c : Char, "KMGTPE".toList[e]? = some c := by
      intro e he
      interval_cases e <;> exact ⟨_, rfl⟩
    obtain ⟨c, hc⟩ := hunit _ hexp
    refine ⟨(sizeLoop (bytes / 1024) 1024 0).1, (sizeLoop (bytes / 1024) 1024 0).2, c, ?_,
      hexp, hc, h1, lt_of_le_of_lt h2 hhi, h2, h3⟩
    unfold FormatFileSize
    rw [if_neg (by omega), ht, hc]

/-- Witness for C24 at 1536 bytes (`1.5 KB`), with the results at the two ends of
`int64` and at a negative size. -/
theorem C24_FormatFileSize_int64_witness :
    (-2 ^ 63 ≤ (1536 : Int) ∧ (1536 : Int) < 2 ^ 63) ∧
    ((1536 : Int) < 1024 → FormatFileSize 1536 = .plain (toString (1536 : Int) ++ " B")) ∧
    ((1024 : Int) ≤ 1536 → ∃ (div : Int) (exp : Nat) (unit : Char),
      FormatFileSize 1536 = .scaled 1536 div exp (some unit) ∧
      exp ≤ 5 ∧ "KMGTPE".toList[exp]? = some unit ∧
      div = 1024 ^ (exp + 1) ∧ div < 2 ^ 63 ∧ div ≤ 1536 ∧ 1536 < 1024 * div) ∧
    FormatFileSize 1536 = .scaled 1536 1024 0 (some 'K') ∧
    FormatFileSize (2 ^ 63 - 1) = .scaled (2 ^ 63 - 1) (1024 ^ 6) 5 (some 'E') ∧
    FormatFileSize (-2 ^ 63) = .plain "-9223372036854775808 B" ∧
    FormatFileSize (-5) = .plain "-5 B" ∧
    FormatFileSize 1023 = .plain "1023 B" := by
  have h := C24_FormatFileSize_int64 1536 (by decide) (by decide)
  have ht : Int.tdiv 1536 1024 = 1 := by decide
  refine ⟨⟨by decide, by decide⟩, h.1, h.2, ?_, ?_, by decide, by decide, by decide⟩
  · simp [FormatFileSize, ht, sizeLoop_lt]
  · simp [FormatFileSize, sizeLoop_ge, sizeLoop_lt, wrapInt64, Int.tdiv_eq_ediv]
